import Mathlib

/-!
# Runtime entries of the VM (`runtime/vm/code_generator.cc`)

A shallow embedding of the runtime entries together with the properties
stated about them.  Objects that live on the managed heap are records.  Where
an entry mutates objects that two handles may alias (the instances whose type
arguments the type-test cache canonicalizes), handles are addresses into an
explicit store; elsewhere an entry takes the state of an object and returns
the state afterwards.  Routines that are defined in other translation units
(`object.cc`, `resolver.cc`, `stack_frame.cc`, `deopt_instructions.cc`, the
compiler) are parameters of the definitions that call them.  `ASSERT` is
compiled out of release builds: the embedding follows the release build and
keeps every assertion as a comment at the place where it stands in the
source; an entry is `none` where the release build would go on to dereference
a null pointer.  The one exception is the assertion of `PatchStaticCall` that
the call site is not patched to the target it already has: the contract of
that entry rests on it, and its failure is an outcome of the entry.  Tracing (`FLAG_trace_*`, `OS::Print`) only writes to the
console and is left out.
-/

namespace dart

/-! ## Type arguments, classes, instances -/

/-- Handle on an `AbstractTypeArguments` object.  `raw` is the address of the
object (what `.raw()` returns).  The null handle, the plain `TypeArguments`
vector with its canonical bit, and the `InstantiatedTypeArguments` pair of an
uninstantiated vector and its instantiator are the three shapes a handle can
take. -/
inductive AbstractTypeArguments where
  | null : AbstractTypeArguments
  | TypeArguments (raw : Nat) (is_canonical : Bool) : AbstractTypeArguments
  | InstantiatedTypeArguments (raw : Nat)
      (uninstantiated_type_arguments instantiator_type_arguments : AbstractTypeArguments) :
      AbstractTypeArguments
  deriving DecidableEq, Repr

namespace AbstractTypeArguments

/-- Address of the object behind the handle; the null object sits at 0. -/
def raw : AbstractTypeArguments → Nat
  | null => 0
  | TypeArguments r _ => r
  | InstantiatedTypeArguments r _ _ => r

/-- `IsNull()`. -/
def IsNull : AbstractTypeArguments → Bool
  | null => true
  | _ => false

/-- `IsInstantiatedTypeArguments()`: the handle is the lazy pair. -/
def IsInstantiatedTypeArguments : AbstractTypeArguments → Bool
  | InstantiatedTypeArguments _ _ _ => true
  | _ => false

/-- `IsTypeArguments()`: the handle is a plain vector. -/
def IsTypeArguments : AbstractTypeArguments → Bool
  | TypeArguments _ _ => true
  | _ => false

/-- `IsCanonical()`: the canonical bit of a plain vector; a lazy pair is never
canonical. -/
def IsCanonical : AbstractTypeArguments → Bool
  | TypeArguments _ c => c
  | _ => false

/-- How many lazy pairs are nested along the instantiator side of a handle. -/
def depth : AbstractTypeArguments → Nat
  | InstantiatedTypeArguments _ _ instantiator => instantiator.depth + 1
  | _ => 0

end AbstractTypeArguments

/-- An `Error` object (compilation error, malformed-type error, ...); only its
message (`ToErrorCString`) is read here. -/
structure Error where
  message : String
  deriving DecidableEq, Repr

/-- The arguments of `Exceptions::CreateAndThrowTypeError`; a `none` message is
the null `String` handle. -/
structure TypeError where
  location : Int
  src_type_name : String
  dst_type_name : String
  dst_name : String
  malformed_error_message : Option String
  deriving DecidableEq, Repr

/-- What leaves a runtime entry other than by a normal return. -/
inductive Thrown where
  | TypeError (error : TypeError) : Thrown
  | PropagateError (error : Error) : Thrown
  deriving DecidableEq, Repr

/-- How a runtime entry ends: `arguments.SetReturn(value)` and a normal return,
or an exception that unwinds to the nearest handler. -/
inductive Completion (α : Type) where
  | returned (value : α) : Completion α
  | thrown (exception : Thrown) : Completion α
  deriving DecidableEq, Repr

/-- Operations on type arguments that are defined in `object.cc`: instantiation
of an uninstantiated vector from an instantiator, and canonicalization. -/
structure TypeArgumentOps where
  InstantiateFrom : AbstractTypeArguments → AbstractTypeArguments → AbstractTypeArguments
  Canonicalize : AbstractTypeArguments → AbstractTypeArguments

/-- The attributes of a `Class` the entries read. -/
structure Class where
  id : Int
  HasTypeArguments : Bool
  deriving DecidableEq, Repr

/-- An instance on the heap: its class and its type-arguments slot
(`GetTypeArguments` / `SetTypeArguments`). -/
structure Instance where
  clazz : Class
  type_arguments : AbstractTypeArguments
  deriving DecidableEq, Repr

/-- The instances of the heap, by address. -/
abbrev Heap := Nat → Instance

/-- `instance.SetTypeArguments(value)`. -/
def Heap.SetTypeArguments (heap : Heap) (addr : Nat) (value : AbstractTypeArguments) : Heap :=
  fun a => if a = addr then { heap a with type_arguments := value } else heap a

/-- The `do ... while (type_arguments.IsInstantiatedTypeArguments())` loop of
`OptimizeTypeArguments`, entered with the two halves of a lazy pair.  One unit
of fuel is one execution of the loop body; `none` when the fuel is used up
before a plain vector comes out. -/
def OptimizeTypeArguments.reduce (ops : TypeArgumentOps) :
    Nat → AbstractTypeArguments → AbstractTypeArguments → Option AbstractTypeArguments
  | 0, _, _ => none
  | fuel + 1, uninstantiated, instantiator =>
    match ops.InstantiateFrom uninstantiated instantiator with
    | .InstantiatedTypeArguments _ u i => OptimizeTypeArguments.reduce ops fuel u i
    | type_arguments => some type_arguments

/-- `OptimizeTypeArguments(instance, &type_arguments_replaced)`.  The result is
the heap afterwards, the returned flag and `type_arguments_replaced`. -/
def OptimizeTypeArguments (ops : TypeArgumentOps) (fuel : Nat) (heap : Heap) (instance_ : Nat) :
    Option (Heap × Bool × Bool) :=
  let type_class := (heap instance_).clazz
  if !type_class.HasTypeArguments then
    some (heap, true, false)
  else
    match (heap instance_).type_arguments with
    | .null => some (heap, true, false)
    | .InstantiatedTypeArguments _ uninstantiated instantiator =>
      match OptimizeTypeArguments.reduce ops fuel uninstantiated instantiator with
      | none => none
      | some type_arguments =>
        let new_type_arguments := ops.Canonicalize type_arguments
        some (heap.SetTypeArguments instance_ new_type_arguments, true, true)
    | .TypeArguments r c =>
      if !c then
        let new_type_arguments := ops.Canonicalize (.TypeArguments r c)
        some (heap.SetTypeArguments instance_ new_type_arguments, true, true)
      else
        some (heap, true, false)
  -- ASSERT(instance.GetTypeArguments().IsTypeArguments()) before `return true`

/-! ## SubtypeTestCache -/

/-- One check of a `SubtypeTestCache`. -/
structure SubtypeTestCacheEntry where
  instance_class_id : Int
  instance_type_arguments : AbstractTypeArguments
  instantiator_type_arguments : AbstractTypeArguments
  test_result : Bool
  deriving DecidableEq, Repr

/-- Modelled from the spec: the `SubtypeTestCache` object of `object.cc` is the
sequence of its checks; `NumberOfChecks` is its length, `GetCheck(i)` reads
check `i`, and `AddCheck` puts a new check after the last one. -/
abbrev SubtypeTestCache := List SubtypeTestCacheEntry

/-- `new_cache.AddCheck(cid, instance_ta, instantiator_ta, result)`. -/
def SubtypeTestCache.AddCheck (cache : SubtypeTestCache) (instance_class_id : Int)
    (instance_type_arguments instantiator_type_arguments : AbstractTypeArguments)
    (test_result : Bool) : SubtypeTestCache :=
  cache ++ [⟨instance_class_id, instance_type_arguments, instantiator_type_arguments, test_result⟩]

/-- The test made on check `last` in the `for` loop of `UpdateTypeTestCache`:
same class id, same instance type arguments and same instantiator type
arguments, the vectors compared by address. -/
def SubtypeTestCacheEntry.Matches (last : SubtypeTestCacheEntry) (instance_class_id : Int)
    (instance_type_arguments instantiator_type_arguments : AbstractTypeArguments) : Bool :=
  (last.instance_class_id == instance_class_id) &&
  (last.instance_type_arguments.raw == instance_type_arguments.raw) &&
  (last.instantiator_type_arguments.raw == instantiator_type_arguments.raw)

/-- `UpdateTypeTestCache(instance, type, instantiator,
incoming_instantiator_type_arguments, result, new_cache)`.  `type` is only
printed and is not a parameter here.  `instantiator` and `new_cache` are
`none` for the null handle.  The result is the heap and the cache
afterwards. -/
def UpdateTypeTestCache (ops : TypeArgumentOps) (FLAG_max_subtype_cache_entries : Int)
    (fuel : Nat) (heap : Heap) (instance_ : Nat) (instantiator : Option Nat)
    (incoming_instantiator_type_arguments : AbstractTypeArguments) (result : Bool)
    (new_cache : Option SubtypeTestCache) : Option (Heap × Option SubtypeTestCache) :=
  match new_cache with
  | none => some (heap, none)
  | some cache =>
    let instance_class := (heap instance_).clazz
    -- Canonicalize type arguments.
    let step1 : Option (Heap × Bool × AbstractTypeArguments) :=
      if instance_class.HasTypeArguments then
        match OptimizeTypeArguments ops fuel heap instance_ with
        | none => none
        | some (heap1, ok, _) => some (heap1, ok, (heap1 instance_).type_arguments)
      else some (heap, true, .null)
    match step1 with
    | none => none
    | some (heap1, false, _) => some (heap1, some cache)
    | some (heap1, true, instance_type_arguments) =>
      let step2 : Option (Heap × Bool × AbstractTypeArguments) :=
        match instantiator with
        | some instantiator_ =>
          match OptimizeTypeArguments ops fuel heap1 instantiator_ with
          | none => none
          | some (heap2, ok, _) => some (heap2, ok, (heap2 instantiator_).type_arguments)
        | none => some (heap1, true, incoming_instantiator_type_arguments)
      match step2 with
      | none => none
      | some (heap2, false, _) => some (heap2, some cache)
      | some (heap2, true, instantiator_type_arguments) =>
        let len : Int := cache.length
        if len ≥ FLAG_max_subtype_cache_entries then
          some (heap2, some cache)
        else if cache.any (fun last => last.Matches instance_class.id
            instance_type_arguments instantiator_type_arguments) then
          some (heap2, some cache)
        else if !instantiator_type_arguments.IsInstantiatedTypeArguments then
          some (heap2, some (cache.AddCheck instance_class.id instance_type_arguments
            instantiator_type_arguments result))
        else
          some (heap2, some cache)

/-- Runtime entry `Instanceof`.  The tested type is only handed to
`instance.IsInstanceOf(type, instantiator_type_arguments, &malformed_error)`,
whose outcome (the boolean and the malformed error, if any) is the parameter
`IsInstanceOf`; `location` is what `GetCallerLocation()` yields. -/
def Instanceof (ops : TypeArgumentOps) (FLAG_max_subtype_cache_entries : Int) (fuel : Nat)
    (heap : Heap) (instance_ : Nat) (IsInstanceOf : Bool × Option Error)
    (instantiator : Option Nat) (instantiator_type_arguments : AbstractTypeArguments)
    (cache : Option SubtypeTestCache) (location : Int) :
    Option (Heap × Option SubtypeTestCache × Completion Bool) :=
  let result := IsInstanceOf.1
  let malformed_error := IsInstanceOf.2
  if !result && malformed_error.isSome then
    -- Throw a dynamic type error only if the instanceof test fails.
    some (heap, cache, .thrown (.TypeError
      ⟨location, "", "", "", malformed_error.map fun e => e.message⟩))
  else
    (UpdateTypeTestCache ops FLAG_max_subtype_cache_entries fuel heap instance_ instantiator
      instantiator_type_arguments result cache).map fun r => (r.1, r.2, .returned result)

/-- Runtime entry `TypeCheck`.  `IsInstanceOf` is the outcome of
`src_instance.IsInstanceOf(dst_type, instantiator_type_arguments,
&malformed_error)`; `src_type_name` and `dst_type_name` are the user-visible
names the entry computes for the error message; `location` is what
`GetCallerLocation()` yields.  Returns the source instance. -/
def TypeCheck (ops : TypeArgumentOps) (FLAG_max_subtype_cache_entries : Int) (fuel : Nat)
    (heap : Heap) (src_instance : Nat) (IsInstanceOf : Bool × Option Error)
    (dst_instantiator : Option Nat) (instantiator_type_arguments : AbstractTypeArguments)
    (dst_name : String) (cache : Option SubtypeTestCache)
    (location : Int) (src_type_name dst_type_name : String) :
    Option (Heap × Option SubtypeTestCache × Completion Nat) :=
  let is_instance_of := IsInstanceOf.1
  if !is_instance_of then
    -- Throw a dynamic type error.
    some (heap, cache, .thrown (.TypeError
      ⟨location, src_type_name, dst_type_name, dst_name,
        IsInstanceOf.2.map fun malformed_error => malformed_error.message⟩))
  else
    (UpdateTypeTestCache ops FLAG_max_subtype_cache_entries fuel heap src_instance
      dst_instantiator instantiator_type_arguments true cache).map
      fun r => (r.1, r.2, .returned src_instance)

/-- The local `instance_type_arguments` of `UpdateTypeTestCache` when the cache
is probed, with the heap at that point: the instance's type arguments after
`OptimizeTypeArguments` when its class has type arguments, the null handle
otherwise. -/
def UpdateTypeTestCache.instance_type_arguments (ops : TypeArgumentOps) (fuel : Nat)
    (heap : Heap) (instance_ : Nat) : Option (Heap × AbstractTypeArguments) :=
  if (heap instance_).clazz.HasTypeArguments then
    (OptimizeTypeArguments ops fuel heap instance_).map
      fun r => (r.1, (r.1 instance_).type_arguments)
  else some (heap, .null)

/-- The local `instantiator_type_arguments` of `UpdateTypeTestCache` when the
cache is probed, with the heap at that point: the instantiator's type
arguments after `OptimizeTypeArguments` when an instantiator is supplied, the
incoming vector as passed otherwise. -/
def UpdateTypeTestCache.instantiator_type_arguments (ops : TypeArgumentOps) (fuel : Nat)
    (heap : Heap) (instantiator : Option Nat)
    (incoming_instantiator_type_arguments : AbstractTypeArguments) :
    Option (Heap × AbstractTypeArguments) :=
  match instantiator with
  | some instantiator_ =>
    (OptimizeTypeArguments ops fuel heap instantiator_).map
      fun r => (r.1, (r.1 instantiator_).type_arguments)
  | none => some (heap, incoming_instantiator_type_arguments)

/-! ## Functions, code, inline caches -/

/-- One instruction of a deopt-info list: its kind and the source index it
reads from.  What it does is decided by `Execute` in
`deopt_instructions.cc`. -/
structure DeoptInstr where
  kind : Nat
  from_index : Int
  deriving DecidableEq, Repr

/-- A `DeoptInfo` object: its translation length and the instructions that
`ToInstructions(deopt_table, &deopt_instructions)` unpacks from it. -/
structure DeoptInfo where
  TranslationLength : Int
  ToInstructions : List DeoptInstr
  deriving DecidableEq, Repr

/-- One entry of a `DeoptTable`, as read by `DeoptTable::GetEntry`: the pc
offset, the deopt info and the reason. -/
structure DeoptTableEntry where
  offset : Int
  deopt_info : DeoptInfo
  reason : Int
  deriving DecidableEq, Repr

/-- The attributes of a `Code` object the entries read: its address, the
address of the function it was compiled for (`function()`, `none` for null),
whether it is optimized code, the entry point of its instructions, its deopt
table (`deopt_info_array()`, `none` for null) and the address of its object
table. -/
structure Code where
  raw : Nat
  function : Option Nat
  is_optimized : Bool
  EntryPoint : Nat
  deopt_info_array : Option (List DeoptTableEntry)
  object_table : Nat
  deriving DecidableEq, Repr

/-- The state of a `Function` object: its address, its fully qualified name as
a C string, the two counters, the optimizable flag, the code presently bound
to it (`CurrentCode()`, `none` when the function has no code), the number of
fixed parameters and whether it has optional parameters. -/
structure Function where
  raw : Nat
  ToFullyQualifiedCString : List Char
  usage_counter : Int
  deoptimization_counter : Int
  is_optimizable : Bool
  code : Option Code
  num_fixed_parameters : Int
  HasOptionalParameters : Bool
  deriving DecidableEq, Repr

/-- `function.HasCode()`. -/
def Function.HasCode (function : Function) : Bool := function.code.isSome

/-- `function.CurrentCode()`. -/
def Function.CurrentCode (function : Function) : Option Code := function.code

/-- `function.set_usage_counter(value)`. -/
def Function.set_usage_counter (function : Function) (value : Int) : Function :=
  { function with usage_counter := value }

/-- The compiler (`compiler.cc`): each routine returns the error, or `none` for
the null error, and the state of the function object afterwards. -/
structure Compiler where
  CompileFunction : Function → Option Error × Function
  CompileOptimizedFunction : Function → Option Error × Function

/-- `Resolver::ResolveDynamic(receiver, function_name, num_arguments,
num_named_arguments)` of `resolver.cc`: the function found, or `none` for the
null function. -/
structure Resolver where
  ResolveDynamic : Instance → String → Int → Int → Option Function

/-- One check of an `ICData`: the class ids of the tested arguments and the
target function (its address, `none` for the null function). -/
structure ICData.Check where
  class_ids : List Int
  target : Option Nat
  deriving DecidableEq, Repr

/-- Modelled from the spec: the `ICData` object of `object.cc` is the target
name, the number of tested arguments and the ordered sequence of checks
(class-id vector, target function); `AddReceiverCheck` and `AddCheck` append a
check to the sequence. -/
structure ICData where
  target_name : String
  num_args_tested : Int
  checks : List ICData.Check
  deriving DecidableEq, Repr

/-- Modelled from the spec: `ic_data.AddCheck(class_ids, target)` of
`object.cc` appends the check (class-id vector, target) after the present
checks. -/
def ICData.AddCheck (ic_data : ICData) (class_ids : List Int) (target : Option Nat) : ICData :=
  { ic_data with checks := ic_data.checks ++ [⟨class_ids, target⟩] }

/-- Modelled from the spec: `ic_data.AddReceiverCheck(receiver_class_id,
target)` of `object.cc` appends the check whose class-id vector is the
receiver's class id alone. -/
def ICData.AddReceiverCheck (ic_data : ICData) (receiver_class_id : Int)
    (target : Option Nat) : ICData :=
  { ic_data with checks := ic_data.checks ++ [⟨[receiver_class_id], target⟩] }

/-- What `CodePatcher::GetInstanceCallAt` and
`CodePatcher::GetInstanceCallIcDataAt` read at the pc of the caller frame. -/
structure InstanceCall where
  function_name : String
  num_arguments : Int
  num_named_arguments : Int
  target : Nat
  ic_data : ICData
  deriving DecidableEq, Repr

/-- `ResolveCompileInstanceCallTarget(isolate, receiver)`: the code of the
resolved target, `none` for `Code::null()`, or the propagated compilation
error. -/
def ResolveCompileInstanceCallTarget (resolver : Resolver) (compiler : Compiler)
    (call : InstanceCall) (receiver : Instance) : Completion (Option Code) :=
  match resolver.ResolveDynamic receiver call.function_name call.num_arguments
      call.num_named_arguments with
  | none => .returned none
  | some function =>
    if !function.HasCode then
      match compiler.CompileFunction function with
      | (some error, _) => .thrown (.PropagateError error)
      | (none, function') => .returned function'.CurrentCode
    else
      .returned function.CurrentCode

/-- The `for` loop of `InlineCacheMissHandler` that collects
`Class::Handle(args[i]->clazz()).id()` for `i = 0 .. args.length() - 1`. -/
def InlineCacheMissHandler.class_ids : List Instance → List Int
  | [] => []
  | arg :: args => arg.clazz.id :: InlineCacheMissHandler.class_ids args

/-- `InlineCacheMissHandler(isolate, args)` run at the call site `call`: the
IC data of the call site afterwards and the returned function (its address,
`none` for `Function::null()`) or the propagated error.  `none` when `args` is
empty (`args[0]` does not exist). -/
def InlineCacheMissHandler (resolver : Resolver) (compiler : Compiler) (call : InstanceCall)
    (args : List Instance) : Option (ICData × Completion (Option Nat)) :=
  match args with
  | [] => none
  | receiver :: _ =>
    match ResolveCompileInstanceCallTarget resolver compiler call receiver with
    | .thrown exception => some (call.ic_data, .thrown exception)
    | .returned none =>
      -- Let the megamorphic stub handle special cases: NoSuchMethod,
      -- closure calls.
      some (call.ic_data, .returned none)
    | .returned (some target_code) =>
      let target_function := target_code.function
      -- ASSERT(!target_function.IsNull())
      let ic_data := call.ic_data
      if args.length = 1 then
        some (ic_data.AddReceiverCheck receiver.clazz.id target_function,
          .returned target_function)
      else
        -- ASSERT(ic_data.num_args_tested() == args.length())
        some (ic_data.AddCheck (InlineCacheMissHandler.class_ids args) target_function,
          .returned target_function)

/-- Runtime entry `InlineCacheMissHandlerOneArg`. -/
def InlineCacheMissHandlerOneArg (resolver : Resolver) (compiler : Compiler)
    (call : InstanceCall) (receiver : Instance) : Option (ICData × Completion (Option Nat)) :=
  InlineCacheMissHandler resolver compiler call [receiver]

/-- Runtime entry `InlineCacheMissHandlerTwoArgs`. -/
def InlineCacheMissHandlerTwoArgs (resolver : Resolver) (compiler : Compiler)
    (call : InstanceCall) (receiver other : Instance) :
    Option (ICData × Completion (Option Nat)) :=
  InlineCacheMissHandler resolver compiler call [receiver, other]

/-- Runtime entry `InlineCacheMissHandlerThreeArgs`. -/
def InlineCacheMissHandlerThreeArgs (resolver : Resolver) (compiler : Compiler)
    (call : InstanceCall) (receiver arg1 arg2 : Instance) :
    Option (ICData × Completion (Option Nat)) :=
  InlineCacheMissHandler resolver compiler call [receiver, arg1, arg2]

/-- Runtime entry `UpdateICDataTwoArgs`: the IC data passed as fourth argument,
afterwards. -/
def UpdateICDataTwoArgs (resolver : Resolver) (receiver arg1 : Instance) (target_name : String)
    (ic_data : ICData) : ICData :=
  let kNumArguments : Int := 2
  let kNumNamedArguments : Int := 0
  let target_function :=
    resolver.ResolveDynamic receiver target_name kNumArguments kNumNamedArguments
  -- ASSERT(!target_function.IsNull())
  -- ASSERT(ic_data.num_args_tested() == kNumArguments)
  let class_ids := [receiver.clazz.id, arg1.clazz.id]
  ic_data.AddCheck class_ids (target_function.map fun f => f.raw)

/-- The class-id vectors of the checks of the IC data are pairwise distinct. -/
def ICData.Distinct (ic_data : ICData) : Prop :=
  ic_data.checks.Pairwise fun a b => a.class_ids ≠ b.class_ids

/-- Modelled from the spec: the stubs that call the entries (`stub_code`, not
under src/) probe the IC data before they enter the runtime.  A call whose
tested arguments have the class-id vector of a present check "hits inline
without entering the miss handler"; the IC data is updated "on miss" only, so
that the update does "not duplicate an existing vector".  `HasCheck` is that
probe. -/
def ICData.HasCheck (ic_data : ICData) (class_ids : List Int) : Bool :=
  ic_data.checks.any fun check => decide (check.class_ids = class_ids)

/-- A call that is dispatched through an IC data: the runtime entry the stub
enters on a miss, with the arguments it passes, whatever the resolver and the
compiler answer at that moment. -/
inductive ICData.Call where
  | InlineCacheMissHandlerOneArg (resolver : Resolver) (compiler : Compiler)
      (call : InstanceCall) (receiver : Instance) : ICData.Call
  | InlineCacheMissHandlerTwoArgs (resolver : Resolver) (compiler : Compiler)
      (call : InstanceCall) (receiver other : Instance) : ICData.Call
  | InlineCacheMissHandlerThreeArgs (resolver : Resolver) (compiler : Compiler)
      (call : InstanceCall) (receiver arg1 arg2 : Instance) : ICData.Call
  | UpdateICDataTwoArgs (resolver : Resolver) (receiver arg1 : Instance)
      (target_name : String) : ICData.Call

/-- The class ids of the tested arguments of a call, in argument order. -/
def ICData.Call.class_ids : ICData.Call → List Int
  | .InlineCacheMissHandlerOneArg _ _ _ receiver => [receiver.clazz.id]
  | .InlineCacheMissHandlerTwoArgs _ _ _ receiver other => [receiver.clazz.id, other.clazz.id]
  | .InlineCacheMissHandlerThreeArgs _ _ _ receiver arg1 arg2 =>
    [receiver.clazz.id, arg1.clazz.id, arg2.clazz.id]
  | .UpdateICDataTwoArgs _ receiver arg1 _ => [receiver.clazz.id, arg1.clazz.id]

/-- Modelled from the spec: one call dispatched through the IC data.  On a hit
of the probe the runtime is not entered and the IC data stays as it is; on a
miss the runtime entry of the call runs on the IC data, which is the IC data
of the call site for the three miss handlers.  The result is the IC data
afterwards. -/
def ICData.Call.run (ic_data : ICData) (c : ICData.Call) : Option ICData :=
  if ic_data.HasCheck c.class_ids then
    some ic_data
  else
    match c with
    | .InlineCacheMissHandlerOneArg resolver compiler call receiver =>
      (dart.InlineCacheMissHandlerOneArg resolver compiler { call with ic_data := ic_data }
        receiver).map Prod.fst
    | .InlineCacheMissHandlerTwoArgs resolver compiler call receiver other =>
      (dart.InlineCacheMissHandlerTwoArgs resolver compiler { call with ic_data := ic_data }
        receiver other).map Prod.fst
    | .InlineCacheMissHandlerThreeArgs resolver compiler call receiver arg1 arg2 =>
      (dart.InlineCacheMissHandlerThreeArgs resolver compiler { call with ic_data := ic_data }
        receiver arg1 arg2).map Prod.fst
    | .UpdateICDataTwoArgs resolver receiver arg1 target_name =>
      some (dart.UpdateICDataTwoArgs resolver receiver arg1 target_name ic_data)

/-- One update of an IC data by a runtime entry of this file that is entered
on an inline-cache miss: one of the three `InlineCacheMissHandler...` entries
run at a call site holding the IC data, or `UpdateICDataTwoArgs`, with
arguments whose class ids are not the class-id vector of a present check. -/
inductive ICData.MissUpdate : ICData → ICData → Prop
  | InlineCacheMissHandlerOneArg (resolver : Resolver) (compiler : Compiler)
      (call : InstanceCall) (receiver : Instance) (ic_data' : ICData)
      (completion : Completion (Option Nat)) :
      (∀ check ∈ call.ic_data.checks, check.class_ids ≠ [receiver.clazz.id]) →
      dart.InlineCacheMissHandlerOneArg resolver compiler call receiver =
        some (ic_data', completion) →
      ICData.MissUpdate call.ic_data ic_data'
  | InlineCacheMissHandlerTwoArgs (resolver : Resolver) (compiler : Compiler)
      (call : InstanceCall) (receiver other : Instance) (ic_data' : ICData)
      (completion : Completion (Option Nat)) :
      (∀ check ∈ call.ic_data.checks,
        check.class_ids ≠ [receiver.clazz.id, other.clazz.id]) →
      dart.InlineCacheMissHandlerTwoArgs resolver compiler call receiver other =
        some (ic_data', completion) →
      ICData.MissUpdate call.ic_data ic_data'
  | InlineCacheMissHandlerThreeArgs (resolver : Resolver) (compiler : Compiler)
      (call : InstanceCall) (receiver arg1 arg2 : Instance) (ic_data' : ICData)
      (completion : Completion (Option Nat)) :
      (∀ check ∈ call.ic_data.checks,
        check.class_ids ≠ [receiver.clazz.id, arg1.clazz.id, arg2.clazz.id]) →
      dart.InlineCacheMissHandlerThreeArgs resolver compiler call receiver arg1 arg2 =
        some (ic_data', completion) →
      ICData.MissUpdate call.ic_data ic_data'
  | UpdateICDataTwoArgs (resolver : Resolver) (receiver arg1 : Instance) (target_name : String)
      (ic_data : ICData) :
      (∀ check ∈ ic_data.checks, check.class_ids ≠ [receiver.clazz.id, arg1.clazz.id]) →
      ICData.MissUpdate ic_data
        (dart.UpdateICDataTwoArgs resolver receiver arg1 target_name ic_data)

/-- A resolver that finds, for a receiver of class id `n`, the function at
address `100 + n`, which has no code yet. -/
def Resolver.sample : Resolver where
  ResolveDynamic := fun receiver _ _ _ =>
    some ⟨100 + receiver.clazz.id.toNat, "f".toList, 0, 0, true, none, 1, false⟩

/-- A resolver that finds nothing. -/
def Resolver.failing : Resolver where
  ResolveDynamic := fun _ _ _ _ => Option.none

/-- A compiler that gives a function unoptimized (resp. optimized) code at
address `1000 + raw` (resp. `2000 + raw`) referring back to the function. -/
def Compiler.sample : Compiler where
  CompileFunction := fun f =>
    (none, { f with code := some ⟨1000 + f.raw, some f.raw, false, 0, none, 0⟩ })
  CompileOptimizedFunction := fun f =>
    (none, { f with code := some ⟨2000 + f.raw, some f.raw, true, 0, some [], 0⟩ })

/-- A compiler that reports a compilation error and leaves the function as it
is. -/
def Compiler.failing : Compiler where
  CompileFunction := fun f => (some ⟨"compile-time error"⟩, f)
  CompileOptimizedFunction := fun f => (some ⟨"compile-time error"⟩, f)

/-- An instance call `x.f()` with one tested argument and no checks yet. -/
def InstanceCall.sample : InstanceCall := ⟨"f", 1, 0, 0, ⟨"f", 1, []⟩⟩

/-! ## Deoptimization -/

/-- Constants of the target that are defined in other headers: the word size
in bytes, the numbers of CPU and XMM registers, and the enum value
`kDeoptUnknown`. -/
structure Arch where
  kWordSize : Nat
  kNumberOfCpuRegisters : Nat
  kNumberOfXmmRegisters : Nat
  kDeoptUnknown : Int
  deriving DecidableEq, Repr

/-- `kDoubleSize`, the size of a `double` in bytes. -/
def Arch.kDoubleSize (_ : Arch) : Nat := 8

/-- Number of bits of a machine word. -/
def Arch.kBitsPerWord (arch : Arch) : Nat := 8 * arch.kWordSize

/-- The value of an integer expression computed in `uword`. -/
def Arch.uword (arch : Arch) (x : Int) : Nat := (x % 2 ^ arch.kBitsPerWord).toNat

/-- The value of an integer expression computed in `intptr_t` (two's
complement). -/
def Arch.intptr_t (arch : Arch) (x : Int) : Int :=
  (x + 2 ^ (arch.kBitsPerWord - 1)) % 2 ^ arch.kBitsPerWord - 2 ^ (arch.kBitsPerWord - 1)

/-- A stack frame, as far as the entries read it. -/
structure StackFrame where
  pc : Nat
  sp : Nat
  fp : Nat
  deriving DecidableEq, Repr

/-- The stack walker (`stack_frame.cc`): the first frame that
`DartFrameIterator iterator(last_fp)` yields, and the code a frame runs. -/
structure StackWalker where
  NextFrame : Nat → Option StackFrame
  LookupDartCode : StackFrame → Option Code

/-- The function objects of the heap, by address. -/
abbrev FunctionStore := Nat → Function

/-- Native memory read through a pointer: the `intptr_t` at an address and the
bits of the `double` at an address. -/
structure Memory where
  word : Nat → Int
  double_bits : Nat → Nat

/-- The deopt scratch buffers of the isolate; `none` is the `NULL` pointer. -/
structure Isolate where
  deopt_xmm_registers_copy : Option (List Nat)
  deopt_cpu_registers_copy : Option (List Int)
  deopt_frame_copy : Option (List Int)
  deopt_frame_copy_size : Int
  deriving DecidableEq, Repr

/-- The linear search of `GetDeoptInfoAtPc` over the entries of the table. -/
def GetDeoptInfoAtPc.scan (arch : Arch) (code_entry pc : Nat) :
    List DeoptTableEntry → Option DeoptInfo × Int
  | [] => (none, arch.kDeoptUnknown)
  | entry :: table =>
    if pc = arch.uword (code_entry + entry.offset) then (some entry.deopt_info, entry.reason)
    else GetDeoptInfoAtPc.scan arch code_entry pc table

/-- `GetDeoptInfoAtPc(code, pc, &deopt_info, &deopt_reason)`: the deopt info
(`none` for `DeoptInfo::null()`) and the reason.  `none` when the deopt table
of the code is null. -/
def GetDeoptInfoAtPc (arch : Arch) (code : Code) (pc : Nat) : Option (Option DeoptInfo × Int) :=
  -- ASSERT(code.is_optimized())
  let code_entry := code.EntryPoint
  match code.deopt_info_array with
  | none => none  -- ASSERT(!table.IsNull())
  | some table => some (GetDeoptInfoAtPc.scan arch code_entry pc table)

/-- A copy loop of `CopySavedRegisters`: `count` values of `size` bytes read
from `address` on; returns the values and the address after the last one. -/
def CopySavedRegisters.copy {α : Type} (arch : Arch) (read : Nat → α) (size : Nat) :
    Nat → Nat → List α × Nat
  | 0, address => ([], address)
  | count + 1, address =>
    let rest := CopySavedRegisters.copy arch read size count (arch.uword (address + size))
    (read address :: rest.1, rest.2)

/-- `CopySavedRegisters(saved_registers_address)`. -/
def CopySavedRegisters (arch : Arch) (memory : Memory) (isolate : Isolate)
    (saved_registers_address : Nat) : Isolate :=
  let xmm := CopySavedRegisters.copy arch memory.double_bits arch.kDoubleSize
    arch.kNumberOfXmmRegisters saved_registers_address
  let cpu := CopySavedRegisters.copy arch memory.word arch.kWordSize
    arch.kNumberOfCpuRegisters xmm.2
  { isolate with deopt_xmm_registers_copy := some xmm.1, deopt_cpu_registers_copy := some cpu.1 }

/-- `CopyFrame(optimized_code, frame)`; `none` when the code has no
function. -/
def CopyFrame (arch : Arch) (functions : FunctionStore) (memory : Memory) (isolate : Isolate)
    (optimized_code : Code) (frame : StackFrame) : Option Isolate :=
  match optimized_code.function with
  | none => none
  | some function_ =>
    let function := functions function_
    let num_args : Int :=
      if function.HasOptionalParameters then 0 else function.num_fixed_parameters
    let frame_copy_size : Int := arch.intptr_t
      (1 + (arch.uword ((frame.fp : Int) - frame.sp) / arch.kWordSize : Nat) + 1 + 1 + num_args)
    let start := arch.uword ((frame.sp : Int) - arch.kWordSize)
    let frame_copy := (List.range frame_copy_size.toNat).map fun i =>
      memory.word (start + i * arch.kWordSize)
    some { isolate with deopt_frame_copy := some frame_copy,
                        deopt_frame_copy_size := frame_copy_size }

/-- Leaf runtime entry `DeoptimizeCopyFrame(saved_registers_address)`: the
isolate afterwards and the returned stack size in bytes.  `none` where the
release build dereferences a null frame, code, deopt table, deopt info or
function. -/
def DeoptimizeCopyFrame (arch : Arch) (walker : StackWalker) (functions : FunctionStore)
    (memory : Memory) (isolate : Isolate) (saved_registers_address : Nat) :
    Option (Isolate × Int) :=
  -- All registers have been saved below last-fp.
  let last_fp := arch.uword ((saved_registers_address : Int) +
    arch.kNumberOfCpuRegisters * arch.kWordSize + arch.kNumberOfXmmRegisters * arch.kDoubleSize)
  let isolate1 := CopySavedRegisters arch memory isolate saved_registers_address
  match walker.NextFrame last_fp with
  | none => none  -- ASSERT(caller_frame != NULL)
  | some caller_frame =>
    match walker.LookupDartCode caller_frame with
    | none => none
    | some optimized_code =>
      -- ASSERT(optimized_code.is_optimized())
      match GetDeoptInfoAtPc arch optimized_code caller_frame.pc with
      | none => none
      | some (none, _) => none  -- ASSERT(!deopt_info.IsNull())
      | some (some deopt_info, _) =>
        match CopyFrame arch functions memory isolate1 optimized_code caller_frame with
        | none => none
        | some isolate2 =>
          match optimized_code.function with
          | none => none
          | some function_ =>
            let function := functions function_
            let num_args : Int :=
              if function.HasOptionalParameters then 0 else function.num_fixed_parameters
            let unoptimized_stack_size : Int :=
              arch.intptr_t (deopt_info.TranslationLength - num_args
                - 2)  -- Subtract caller FP and PC.
            some (isolate2, arch.intptr_t (unoptimized_stack_size * arch.kWordSize))

/-- The deoptimization context and the instructions of
`deopt_instructions.cc`, over whatever state `σ` the context and the frame
being filled make up: the constructor `DeoptimizationContext(start,
to_frame_size, object_table, num_args, deopt_reason)`,
`instr->Execute(&deopt_context, to_index)` and
`deopt_context.GetCallerFp()`. -/
structure DeoptInstructions (σ : Type) where
  DeoptimizationContext : Nat → Int → Nat → Int → Int → σ
  Execute : DeoptInstr → σ → Int → σ
  GetCallerFp : σ → Int

/-- The loop `for (to_index = len - 1; to_index >= 0; to_index--)` of
`DeoptimizeWithDeoptInfo`, with `to_index + 1` iterations left; `none` when
`deopt_instructions[to_index]` does not exist. -/
def DeoptimizeWithDeoptInfo.loop {σ : Type} (ops : DeoptInstructions σ)
    (deopt_instructions : List DeoptInstr) : Nat → σ → Option σ
  | 0, deopt_context => some deopt_context
  | to_index + 1, deopt_context =>
    match deopt_instructions[to_index]? with
    | none => none
    | some instr =>
      DeoptimizeWithDeoptInfo.loop ops deopt_instructions to_index
        (ops.Execute instr deopt_context to_index)

/-- The context `DeoptimizeWithDeoptInfo` builds before it runs the
instructions; `none` when the code has no function. -/
def DeoptimizeWithDeoptInfo.deopt_context {σ : Type} (arch : Arch) (ops : DeoptInstructions σ)
    (functions : FunctionStore) (code : Code) (caller_frame : StackFrame) (deopt_reason : Int) :
    Option σ :=
  let start := arch.uword ((caller_frame.sp : Int) - arch.kWordSize)
  match code.function with
  | none => none
  | some function_ =>
    let function := functions function_
    let num_args : Int :=
      if function.HasOptionalParameters then 0 else function.num_fixed_parameters
    let to_frame_size : Int := arch.intptr_t
      (1 + (arch.uword ((caller_frame.fp : Int) - caller_frame.sp) / arch.kWordSize : Nat)
        + 3 + num_args)
    some (ops.DeoptimizationContext start to_frame_size code.object_table num_args deopt_reason)

/-- `DeoptimizeWithDeoptInfo(code, deopt_info, caller_frame, deopt_reason)`:
the state the context leaves and the returned caller fp. -/
def DeoptimizeWithDeoptInfo {σ : Type} (arch : Arch) (ops : DeoptInstructions σ)
    (functions : FunctionStore) (code : Code) (deopt_info : DeoptInfo)
    (caller_frame : StackFrame) (deopt_reason : Int) : Option (σ × Int) :=
  let len := deopt_info.TranslationLength
  -- ASSERT(!deopt_table.IsNull())
  let deopt_instructions := deopt_info.ToInstructions
  match DeoptimizeWithDeoptInfo.deopt_context arch ops functions code caller_frame
      deopt_reason with
  | none => none
  | some deopt_context =>
    match DeoptimizeWithDeoptInfo.loop ops deopt_instructions len.toNat deopt_context with
    | none => none
    | some deopt_context' => some (deopt_context', ops.GetCallerFp deopt_context')

/-- A 64-bit target with 16 CPU and 16 XMM registers. -/
def Arch.sample : Arch := ⟨8, 16, 16, 0⟩

/-- Optimized code at entry point 1000 for the function at address 7, with one
deopt-table entry at pc offset 10 whose deopt info has translation length
6. -/
def Code.sampleOptimized : Code :=
  ⟨2007, some 7, true, 1000,
    some [⟨10, ⟨6, [⟨1, 0⟩, ⟨1, 1⟩, ⟨2, 0⟩, ⟨2, 1⟩, ⟨3, 0⟩, ⟨3, 1⟩]⟩, 3⟩], 0⟩

/-- A stack walker that finds one optimized frame, stopped at pc 1010. -/
def StackWalker.sample : StackWalker where
  NextFrame := fun _ => some ⟨1010, 5000, 5040⟩
  LookupDartCode := fun _ => some Code.sampleOptimized

/-- A function store in which every function has two fixed parameters and no
optional ones. -/
def FunctionStore.sample : FunctionStore :=
  fun raw => ⟨raw, "g".toList, 0, 0, true, some Code.sampleOptimized, 2, false⟩

/-- Deopt instructions that only record, in execution order, which
instruction ran with which target index. -/
def DeoptInstructions.trace : DeoptInstructions (List (DeoptInstr × Int)) where
  DeoptimizationContext := fun _ _ _ _ _ => []
  Execute := fun instr deopt_context to_index => deopt_context ++ [(instr, to_index)]
  GetCallerFp := fun _ => 0

/-! ## Optimization of hot functions -/

/-- The C library routine `strstr(haystack, needle)` on C strings: the tail of
`haystack` that starts at the first occurrence of `needle`, or `none` for
`NULL` when `needle` does not occur. -/
def strstr : List Char → List Char → Option (List Char)
  | [], needle => if needle.isPrefixOf [] then some [] else none
  | c :: haystack, needle =>
    if needle.isPrefixOf (c :: haystack) then some (c :: haystack) else strstr haystack needle

/-- What `OptimizeInvokedFunction` leaves behind: the state of the function
object, the functions it handed to `Compiler::CompileOptimizedFunction`, in
order, and how the entry ended. -/
structure OptimizeInvokedFunction.Result where
  function : Function
  CompileOptimizedFunction_calls : List Function
  completion : Completion Unit
  deriving DecidableEq, Repr

/-- Runtime entry `OptimizeInvokedFunction`.  `debugger_IsActive` is
`isolate->debugger()->IsActive()`; the flags are parameters, a `none` filter
being the `NULL` string. -/
def OptimizeInvokedFunction (arch : Arch) (compiler : Compiler) (debugger_IsActive : Bool)
    (FLAG_deoptimization_counter_threshold : Int) (FLAG_optimization_filter : Option (List Char))
    (FLAG_reoptimization_counter_threshold : Int) (function : Function) :
    OptimizeInvokedFunction.Result :=
  let kLowInvocationCount : Int := -100000000
  if debugger_IsActive then
    -- We cannot set breakpoints in optimized code, so do not optimize
    -- the function.
    ⟨function.set_usage_counter 0, [], .returned ()⟩
  else if function.deoptimization_counter ≥ FLAG_deoptimization_counter_threshold then
    ⟨function.set_usage_counter kLowInvocationCount, [], .returned ()⟩
  else if FLAG_optimization_filter.isSome &&
      (FLAG_optimization_filter.bind fun filter =>
        strstr function.ToFullyQualifiedCString filter).isNone then
    ⟨function.set_usage_counter kLowInvocationCount, [], .returned ()⟩
  else if function.is_optimizable then
    match compiler.CompileOptimizedFunction function with
    | (some error, function') => ⟨function', [function], .thrown (.PropagateError error)⟩
    | (none, function') =>
      -- ASSERT(!optimized_code.IsNull())
      -- Set usage counter for reoptimization.
      ⟨function'.set_usage_counter
          (arch.intptr_t (function'.usage_counter - FLAG_reoptimization_counter_threshold)),
        [function], .returned ()⟩
  else
    ⟨function.set_usage_counter kLowInvocationCount, [], .returned ()⟩

/-- The arguments of one call of `UpdateTypeTestCache` on a non-null cache,
with the heap it runs on. -/
structure UpdateTypeTestCache.Call where
  fuel : Nat
  heap : Heap
  instance_ : Nat
  instantiator : Option Nat
  incoming_instantiator_type_arguments : AbstractTypeArguments
  result : Bool

/-- The call `k` made on the cache `cache`. -/
def UpdateTypeTestCache.Call.run (ops : TypeArgumentOps) (FLAG_max_subtype_cache_entries : Int)
    (k : UpdateTypeTestCache.Call) (cache : SubtypeTestCache) :
    Option (Heap × Option SubtypeTestCache) :=
  UpdateTypeTestCache ops FLAG_max_subtype_cache_entries k.fuel k.heap k.instance_
    k.instantiator k.incoming_instantiator_type_arguments k.result (some cache)

/-- `Updates ops max c0 calls c`: the cache `c` is what `c0` has become after
the calls `calls` of `UpdateTypeTestCache`, oldest first, each made directly or
by an `Instanceof` or `TypeCheck` entry that returned, on whatever heap the
program had at that moment. -/
inductive SubtypeTestCache.Updates (ops : TypeArgumentOps) (FLAG_max_subtype_cache_entries : Int)
    (c0 : SubtypeTestCache) : List UpdateTypeTestCache.Call → SubtypeTestCache → Prop
  | start : SubtypeTestCache.Updates ops FLAG_max_subtype_cache_entries c0 [] c0
  | UpdateTypeTestCache {calls : List UpdateTypeTestCache.Call} {c c' : SubtypeTestCache}
      (k : UpdateTypeTestCache.Call) (heap' : Heap) :
      SubtypeTestCache.Updates ops FLAG_max_subtype_cache_entries c0 calls c →
      k.run ops FLAG_max_subtype_cache_entries c = some (heap', some c') →
      SubtypeTestCache.Updates ops FLAG_max_subtype_cache_entries c0 (calls ++ [k]) c'
  | Instanceof {calls : List UpdateTypeTestCache.Call} {c c' : SubtypeTestCache}
      (k : UpdateTypeTestCache.Call) (malformed_error : Option Error) (location : Int)
      (heap' : Heap) (value : Bool) :
      SubtypeTestCache.Updates ops FLAG_max_subtype_cache_entries c0 calls c →
      dart.Instanceof ops FLAG_max_subtype_cache_entries k.fuel k.heap k.instance_
        (k.result, malformed_error) k.instantiator k.incoming_instantiator_type_arguments
        (some c) location = some (heap', some c', .returned value) →
      SubtypeTestCache.Updates ops FLAG_max_subtype_cache_entries c0 (calls ++ [k]) c'
  | TypeCheck {calls : List UpdateTypeTestCache.Call} {c c' : SubtypeTestCache}
      (k : UpdateTypeTestCache.Call) (IsInstanceOf : Bool × Option Error) (dst_name : String)
      (location : Int) (src_type_name dst_type_name : String) (heap' : Heap) (value : Nat) :
      SubtypeTestCache.Updates ops FLAG_max_subtype_cache_entries c0 calls c →
      dart.TypeCheck ops FLAG_max_subtype_cache_entries k.fuel k.heap k.instance_
        IsInstanceOf k.instantiator k.incoming_instantiator_type_arguments dst_name
        (some c) location src_type_name dst_type_name = some (heap', some c', .returned value) →
      k.result = true →
      SubtypeTestCache.Updates ops FLAG_max_subtype_cache_entries c0 (calls ++ [k]) c'

/-- Two checks have the same key: the same class id and, by address, the same
instance type arguments and the same instantiator type arguments. -/
def SubtypeTestCacheEntry.SameKey (a b : SubtypeTestCacheEntry) : Prop :=
  a.instance_class_id = b.instance_class_id ∧
  a.instance_type_arguments.raw = b.instance_type_arguments.raw ∧
  a.instantiator_type_arguments.raw = b.instantiator_type_arguments.raw

/-- The call canonicalizes what it stores as instantiator type arguments: it
supplies an instantiator that is an instance of a class with type arguments,
or it supplies none and passes incoming type arguments that are null or
canonical already. -/
def UpdateTypeTestCache.Call.CanonicalInstantiator (k : UpdateTypeTestCache.Call) : Prop :=
  match k.instantiator with
  | some instantiator_ => (k.heap instantiator_).clazz.HasTypeArguments = true
  | none => k.incoming_instantiator_type_arguments.IsNull = true ∨
      k.incoming_instantiator_type_arguments.IsCanonical = true

/-- A canonicalizer that turns every vector into a canonical plain vector at
the same address, and an instantiation that hands back the instantiator; used
to run the entries on concrete inputs. -/
def TypeArgumentOps.sample : TypeArgumentOps where
  InstantiateFrom := fun _ instantiator => instantiator
  Canonicalize := fun t => .TypeArguments t.raw true

/-- A heap on which every address holds an instance of the non-generic class
with id 5. -/
def Heap.sample : Heap := fun _ => ⟨⟨5, false⟩, .null⟩

/-- A heap on which every address holds an instance of the generic class with
id 9 whose type arguments are the non-canonical vector at address 40. -/
def Heap.sampleGeneric : Heap := fun _ => ⟨⟨9, true⟩, .TypeArguments 40 false⟩

/-- A call on `Heap.sample` without instantiator, passing the canonical vector
at address `a` as incoming instantiator type arguments. -/
def UpdateTypeTestCache.Call.sample (a : Nat) : UpdateTypeTestCache.Call :=
  ⟨0, Heap.sample, 0, none, .TypeArguments a true, true⟩

/-- A call on `Heap.sampleGeneric` with the instance at address 1 as
instantiator. -/
def UpdateTypeTestCache.Call.sampleGeneric : UpdateTypeTestCache.Call :=
  ⟨0, Heap.sampleGeneric, 0, some 1, .null, true⟩

/-! ## Stack overflow and interrupts -/

/-- The interrupt bits `Isolate::kApiInterrupt`, `Isolate::kMessageInterrupt`
and `Isolate::kStoreBufferInterrupt`, which `isolate.h` defines. -/
structure InterruptBits where
  kApiInterrupt : Nat
  kMessageInterrupt : Nat
  kStoreBufferInterrupt : Nat
  deriving DecidableEq, Repr

/-- What `StackOverflow` reads of the isolate: the saved stack limit, the
pending interrupt bits, the preallocated stack-overflow exception of the
object store (its address) and the interrupt callback, `none` when no
callback is registered, otherwise what the callback answers when it is
called. -/
structure IsolateInterrupts where
  saved_stack_limit : Nat
  interrupt_bits : Nat
  stack_overflow : Nat
  InterruptCallback : Option Bool
  deriving DecidableEq, Repr

/-- Modelled from the spec: `isolate->GetAndClearInterrupts()` of `isolate.cc`
hands back the pending interrupt bits of the isolate and leaves none
pending. -/
def IsolateInterrupts.GetAndClearInterrupts (isolate : IsolateInterrupts) :
    Nat × IsolateInterrupts :=
  (isolate.interrupt_bits, { isolate with interrupt_bits := 0 })

/-- The services `StackOverflow` calls, recorded in the order of the calls:
`isolate->GetAndClearInterrupts()`,
`isolate->heap()->CollectGarbage(Heap::kNew)`,
`isolate->message_handler()->HandleOOBMessages()`,
`Debugger::SignalIsolateEvent(Debugger::kIsolateInterrupted)` and the call of
the interrupt callback. -/
inductive StackOverflow.Action where
  | GetAndClearInterrupts : StackOverflow.Action
  | CollectGarbage_kNew : StackOverflow.Action
  | HandleOOBMessages : StackOverflow.Action
  | SignalIsolateEvent_kIsolateInterrupted : StackOverflow.Action
  | InterruptCallback : StackOverflow.Action
  deriving DecidableEq, Repr

/-- How `StackOverflow` ends: a normal return, `Exceptions::Throw(exception)`
with the address of the exception, or the fatal `UNIMPLEMENTED()`. -/
inductive StackOverflow.Outcome where
  | returned : StackOverflow.Outcome
  | Throw (exception : Nat) : StackOverflow.Outcome
  | UNIMPLEMENTED : StackOverflow.Outcome
  deriving DecidableEq, Repr

/-- What `StackOverflow` leaves behind: the isolate, the services it called
and how it ended. -/
structure StackOverflow.Result where
  isolate : IsolateInterrupts
  actions : List StackOverflow.Action
  outcome : StackOverflow.Outcome
  deriving DecidableEq, Repr

/-- Runtime entry `StackOverflow`; `stack_pos` is the address of the local
`arguments`. -/
def StackOverflow (bits : InterruptBits) (stack_pos : Nat) (isolate : IsolateInterrupts) :
    StackOverflow.Result :=
  -- If an interrupt happens at the same time as a stack overflow, we
  -- process the stack overflow first.
  if stack_pos < isolate.saved_stack_limit then
    -- Use the preallocated stack overflow exception to avoid calling
    -- into dart code.
    ⟨isolate, [], .Throw isolate.stack_overflow⟩
  else
    let interrupt_bits := isolate.GetAndClearInterrupts.1
    let isolate1 := isolate.GetAndClearInterrupts.2
    let actions0 : List StackOverflow.Action := [.GetAndClearInterrupts]
    let actions1 :=
      if interrupt_bits &&& bits.kStoreBufferInterrupt ≠ 0 then
        actions0 ++ [.CollectGarbage_kNew]
      else actions0
    let actions2 :=
      if interrupt_bits &&& bits.kMessageInterrupt ≠ 0 then
        actions1 ++ [.HandleOOBMessages]
      else actions1
    if interrupt_bits &&& bits.kApiInterrupt ≠ 0 then
      -- Signal isolate interrupt  event.
      let actions3 := actions2 ++ [.SignalIsolateEvent_kIsolateInterrupted]
      match isolate1.InterruptCallback with
      | some callback =>
        if callback then
          ⟨isolate1, actions3 ++ [.InterruptCallback], .returned⟩
        else
          -- TODO(turnidge): Unwind the stack.
          ⟨isolate1, actions3 ++ [.InterruptCallback], .UNIMPLEMENTED⟩
      | none => ⟨isolate1, actions3, .returned⟩
    else
      ⟨isolate1, actions2, .returned⟩

/-- The interrupt bits as `isolate.h` numbers them. -/
def InterruptBits.sample : InterruptBits := ⟨1, 2, 4⟩

/-! ## Static-call patching -/

/-- Modelled from the spec: the static call sites as `CodePatcher` of
`code_patcher.cc` and the static-call-target tables of the `Code` objects of
`object.cc` present them.  `GetStaticCallTargetAt pc` is the entry the call at
`pc` jumps to (`CodePatcher::GetStaticCallTargetAt`);
`GetStaticCallTargetFunctionAt code pc` and `GetStaticCallTargetCodeAt code pc`
are the function and the code that the table of the code at address `code`
records for the call at `pc`.  `functions` holds the function objects. -/
structure StaticCalls where
  functions : FunctionStore
  GetStaticCallTargetAt : Nat → Nat
  GetStaticCallTargetFunctionAt : Nat → Nat → Option Nat
  GetStaticCallTargetCodeAt : Nat → Nat → Option Code

/-- Modelled from the spec: `CodePatcher::PatchStaticCallAt(pc, new_target)`
makes the call at `pc` jump to `new_target` and leaves every other call site
as it is. -/
def StaticCalls.PatchStaticCallAt (state : StaticCalls) (pc new_target : Nat) : StaticCalls :=
  { state with GetStaticCallTargetAt := fun a =>
      if a = pc then new_target else state.GetStaticCallTargetAt a }

/-- Modelled from the spec: `caller_code.SetStaticCallTargetCodeAt(pc, code)`
records `code` for the call at `pc` in the static-call-target table of the
caller code and leaves every other entry as it is. -/
def StaticCalls.SetStaticCallTargetCodeAt (state : StaticCalls) (caller_code : Code)
    (pc : Nat) (code : Code) : StaticCalls :=
  { state with GetStaticCallTargetCodeAt := fun c a =>
      if c = caller_code.raw ∧ a = pc then some code else state.GetStaticCallTargetCodeAt c a }

/-- The function object at `function_` replaced by `function`. -/
def StaticCalls.SetFunction (state : StaticCalls) (function_ : Nat) (function : Function) :
    StaticCalls :=
  { state with functions := fun a => if a = function_ then function else state.functions a }

/-- How `PatchStaticCall` ends: `arguments.SetReturn(target_code)` and a normal
return, the propagation of a compilation error, or the failure of the
assertion that the call site is not patched to the target it already has. -/
inductive PatchStaticCall.Outcome where
  | returned (target_code : Code) : PatchStaticCall.Outcome
  | PropagateError (error : Error) : PatchStaticCall.Outcome
  | ASSERT_failed : PatchStaticCall.Outcome
  deriving DecidableEq, Repr

/-- Runtime entry `PatchStaticCall`; `caller_frame` is what
`iterator.NextFrame()` yields, `none` for `NULL`.  The assertion that guards
the patch is part of the entry's contract and is kept as an outcome. -/
def PatchStaticCall (compiler : Compiler) (walker : StackWalker)
    (caller_frame : Option StackFrame) (state : StaticCalls) :
    Option (StaticCalls × PatchStaticCall.Outcome) :=
  match caller_frame with
  | none => none  -- ASSERT(caller_frame != NULL)
  | some caller_frame =>
    match walker.LookupDartCode caller_frame with
    | none => none  -- ASSERT(!caller_code.IsNull())
    | some caller_code =>
      match state.GetStaticCallTargetFunctionAt caller_code.raw caller_frame.pc with
      | none => none
      | some target_function_ =>
        let target_function := state.functions target_function_
        let compiled : StaticCalls × Option Error :=
          if !target_function.HasCode then
            ((state.SetFunction target_function_
                (compiler.CompileFunction target_function).2),
              (compiler.CompileFunction target_function).1)
          else (state, none)
        match compiled with
        | (state1, some error) => some (state1, .PropagateError error)
        | (state1, none) =>
          match (state1.functions target_function_).CurrentCode with
          | none => none
          | some target_code =>
            -- Before patching verify that we are not repeatedly patching to the same
            -- target.
            if target_code.EntryPoint = state1.GetStaticCallTargetAt caller_frame.pc then
              some (state1, .ASSERT_failed)
            else
              some (((state1.PatchStaticCallAt caller_frame.pc target_code.EntryPoint)
                  |>.SetStaticCallTargetCodeAt caller_code caller_frame.pc target_code),
                .returned target_code)

/-! ## Lazy deoptimization -/

/-- `function.HasOptimizedCode()` of `object.cc`: the function has code and
that code is optimized code. -/
def Function.HasOptimizedCode (function : Function) : Bool :=
  match function.code with
  | some code => code.is_optimized
  | none => false

/-- What the lazy deoptimization of frames reads and writes: the function
objects, the unoptimized code of each function (`function.unoptimized_code()`,
by address of the function), the `is_alive` flag of each code (by address of
the code) and the calls of `CodePatcher::InsertCallAt(pc, target)` made so
far, oldest first. -/
structure LazyDeopt where
  functions : FunctionStore
  unoptimized_code : Nat → Option Code
  is_alive : Nat → Bool
  InsertCallAt : List (Nat × Nat)

/-- Modelled from the spec: `function.SwitchToUnoptimizedCode()` of `object.cc`
binds the function at address `function_` to its unoptimized code. -/
def LazyDeopt.SwitchToUnoptimizedCode (state : LazyDeopt) (function_ : Nat) : LazyDeopt :=
  { state with functions := fun a =>
      if a = function_ then { state.functions a with code := state.unoptimized_code a }
      else state.functions a }

/-- `optimized_code.set_is_alive(value)`. -/
def LazyDeopt.set_is_alive (state : LazyDeopt) (code : Code) (value : Bool) : LazyDeopt :=
  { state with is_alive := fun a => if a = code.raw then value else state.is_alive a }

/-- `DeoptimizeAt(optimized_code, pc)`; `GetLazyDeoptPc` is
`optimized_code.GetLazyDeoptPc()` of `object.cc`.  `none` when the deopt table
or the function of the code is null. -/
def DeoptimizeAt (arch : Arch) (GetLazyDeoptPc : Code → Nat) (state : LazyDeopt)
    (optimized_code : Code) (pc : Nat) : Option LazyDeopt :=
  match GetDeoptInfoAtPc arch optimized_code pc with
  | none => none
  | some _ =>
    -- ASSERT(!deopt_info.IsNull())
    match optimized_code.function with
    | none => none
    | some function_ =>
      let function := state.functions function_
      -- ASSERT(!unoptimized_code.IsNull())
      -- The switch to unoptimized code may have already occured.
      let state1 :=
        if function.HasOptimizedCode then state.SwitchToUnoptimizedCode function_ else state
      -- Patch call site (lazy deoptimization is quite rare, patching it twice
      -- is not a performance issue).
      let lazy_deopt_jump := GetLazyDeoptPc optimized_code
      -- ASSERT(lazy_deopt_jump != 0)
      let state2 := { state1 with InsertCallAt := state1.InsertCallAt ++ [(pc, lazy_deopt_jump)] }
      -- Mark code as dead (do not GC its embedded objects).
      some (state2.set_is_alive optimized_code false)

/-- `DeoptimizeAll()` on the frames that the `DartFrameIterator` yields, top
frame first. -/
def DeoptimizeAll (arch : Arch) (GetLazyDeoptPc : Code → Nat) (walker : StackWalker) :
    List StackFrame → LazyDeopt → Option LazyDeopt
  | [], state => some state
  | frame :: frames, state =>
    match walker.LookupDartCode frame with
    | none => none
    | some optimized_code =>
      if optimized_code.is_optimized then
        match DeoptimizeAt arch GetLazyDeoptPc state optimized_code frame.pc with
        | none => none
        | some state' => DeoptimizeAll arch GetLazyDeoptPc walker frames state'
      else
        DeoptimizeAll arch GetLazyDeoptPc walker frames state

/-- `ContainsCid(cids, cid)`. -/
def ContainsCid : List Int → Int → Bool
  | [], _ => false
  | c :: cids, cid => if c = cid then true else ContainsCid cids cid

/-- The `while (frame != NULL)` loop of `DeoptimizeIfOwner`, entered with the
current value of `frame`; the body does not assign `frame`.  One unit of fuel
is one execution of the body; `none` when the fuel is used up, or when a code
or its function is null.  `Owner_id` gives, for the address of a function,
`Class::Handle(function.Owner()).id()`. -/
def DeoptimizeIfOwner.loop (arch : Arch) (GetLazyDeoptPc : Code → Nat) (Owner_id : Nat → Int)
    (walker : StackWalker) (classes : List Int) :
    Nat → Option StackFrame → LazyDeopt → Option LazyDeopt
  | _, none, state => some state
  | 0, some _, _ => none
  | fuel + 1, some frame, state =>
    match walker.LookupDartCode frame with
    | none => none
    | some optimized_code =>
      if optimized_code.is_optimized then
        match optimized_code.function with
        | none => none
        | some function_ =>
          let owner_cid := Owner_id function_
          if ContainsCid classes owner_cid then
            match DeoptimizeAt arch GetLazyDeoptPc state optimized_code frame.pc with
            | none => none
            | some state' =>
              DeoptimizeIfOwner.loop arch GetLazyDeoptPc Owner_id walker classes fuel
                (some frame) state'
          else
            DeoptimizeIfOwner.loop arch GetLazyDeoptPc Owner_id walker classes fuel
              (some frame) state
      else
        DeoptimizeIfOwner.loop arch GetLazyDeoptPc Owner_id walker classes fuel
          (some frame) state

/-- `DeoptimizeIfOwner(classes)` on the frames that the `DartFrameIterator`
yields, top frame first: `frame` is the first of them, `NULL` if there is
none, when the loop is entered. -/
def DeoptimizeIfOwner (arch : Arch) (GetLazyDeoptPc : Code → Nat) (Owner_id : Nat → Int)
    (walker : StackWalker) (classes : List Int) (fuel : Nat) (frames : List StackFrame)
    (state : LazyDeopt) : Option LazyDeopt :=
  DeoptimizeIfOwner.loop arch GetLazyDeoptPc Owner_id walker classes fuel frames.head? state

/-- The calls `InsertCallAt(frame.pc, lazy-deopt pc of the frame's code)`, one
for each frame of the stack that runs optimized code, in stack order. -/
def DeoptimizeAll.patches (GetLazyDeoptPc : Code → Nat) (walker : StackWalker)
    (frames : List StackFrame) : List (Nat × Nat) :=
  frames.filterMap fun frame =>
    match walker.LookupDartCode frame with
    | some code => if code.is_optimized then some (frame.pc, GetLazyDeoptPc code) else none
    | none => none

/-- The code at some frame of the stack is optimized code at address `raw`. -/
def DeoptimizeAll.OptimizedOnStack (walker : StackWalker) (frames : List StackFrame)
    (raw : Nat) : Prop :=
  ∃ frame ∈ frames, ∃ code, walker.LookupDartCode frame = some code ∧
    code.is_optimized = true ∧ code.raw = raw

/-- Unoptimized code at entry point 3000 for the function at address 7. -/
def Code.sampleUnoptimized : Code := ⟨1007, some 7, false, 3000, none, 0⟩

/-- A second piece of optimized code for the function at address 7, at entry
point 6000. -/
def Code.sampleReoptimized : Code := ⟨3007, some 7, true, 6000, some [], 0⟩

/-- A stack walker that finds `Code.sampleOptimized` for a pc below 3000 and
`Code.sampleUnoptimized` for a pc from 3000 on. -/
def StackWalker.sampleMixed : StackWalker where
  NextFrame := fun _ => some ⟨1010, 5000, 5040⟩
  LookupDartCode := fun frame =>
    if frame.pc < 3000 then some Code.sampleOptimized else some Code.sampleUnoptimized

/-- Static calls in which every call site jumps to the stub at 500 and every
table records the function at address 7 as target; the functions are those
of `FunctionStore.sample`, bound to `Code.sampleOptimized`. -/
def StaticCalls.sample : StaticCalls where
  functions := FunctionStore.sample
  GetStaticCallTargetAt := fun _ => 500
  GetStaticCallTargetFunctionAt := fun _ _ => some 7
  GetStaticCallTargetCodeAt := fun _ _ => none

/-- A state in which every function is bound to `Code.sampleOptimized`, has
`Code.sampleUnoptimized` as unoptimized code, every code is alive and no call
has been inserted. -/
def LazyDeopt.sample : LazyDeopt where
  functions := FunctionStore.sample
  unoptimized_code := fun _ => some Code.sampleUnoptimized
  is_alive := fun _ => true
  InsertCallAt := []

/-- The same state with every function bound to `Code.sampleReoptimized`. -/
def LazyDeopt.sampleReoptimized : LazyDeopt where
  functions := fun raw => { FunctionStore.sample raw with code := some Code.sampleReoptimized }
  unoptimized_code := fun _ => some Code.sampleUnoptimized
  is_alive := fun _ => true
  InsertCallAt := []

/-- Every frame of the stack has code, and optimized code on the stack has a
function and a deopt table. -/
def DeoptimizeAll.WellFormed (walker : StackWalker) (frames : List StackFrame) : Prop :=
  ∀ frame ∈ frames, ∃ code, walker.LookupDartCode frame = some code ∧
    (code.is_optimized = true →
      code.function.isSome = true ∧ code.deopt_info_array.isSome = true)

/-! ## Allocation of objects -/

/-- Queries on type arguments that `object.cc` defines: `Length()`,
`IsUninstantiatedIdentity()` and `IsWithinBoundsOf(cls, bounds_instantiator,
&malformed_error)`, the latter with the malformed error it reports, `none`
for the null error. -/
structure TypeArgumentQueries where
  Length : AbstractTypeArguments → Int
  IsUninstantiatedIdentity : AbstractTypeArguments → Bool
  IsWithinBoundsOf : AbstractTypeArguments → Class → AbstractTypeArguments → Bool × Option Error

/-- The third argument of the allocation entries: the Smi
`StubCode::kNoInstantiator`, or the type arguments of the instantiator. -/
inductive Instantiator where
  | kNoInstantiator : Instantiator
  | type_arguments (instantiator : AbstractTypeArguments) : Instantiator
  deriving DecidableEq, Repr

/-- `Instance::New(cls)` of `object.cc`, the new object being placed at address
`raw`: an instance of the class whose type-arguments slot is null. -/
def Heap.New (heap : Heap) (raw : Nat) (cls : Class) : Heap :=
  fun a => if a = raw then ⟨cls, .null⟩ else heap a

/-- Runtime entry `AllocateObject`.  `new_instance` is the address at which
`Instance::New` places the instance and `new_type_arguments` the address at
which `InstantiatedTypeArguments::New` places the pair it allocates.  The
result is the heap afterwards and the returned instance. -/
def AllocateObject (q : TypeArgumentQueries) (heap : Heap)
    (new_instance new_type_arguments : Nat) (cls : Class)
    (type_arguments : AbstractTypeArguments) (arg2 : Instantiator) : Heap × Nat :=
  let heap1 := heap.New new_instance cls
  if !cls.HasTypeArguments then
    -- No type arguments required for a non-parameterized type.
    -- ASSERT(Instance::CheckedHandle(arguments.ArgAt(1)).IsNull())
    (heap1, new_instance)
  else
    -- ASSERT(type_arguments.IsNull() ||
    --        (type_arguments.Length() == cls.NumTypeArguments()))
    match arg2 with
    | .kNoInstantiator =>
      -- If no instantiator is provided, set the type arguments and return.
      (heap1.SetTypeArguments new_instance type_arguments, new_instance)
    | .type_arguments instantiator =>
      -- ASSERT(!type_arguments.IsInstantiated())
      -- ASSERT(instantiator.IsNull() || instantiator.IsInstantiated())
      let type_arguments' : AbstractTypeArguments :=
        if instantiator.IsNull then
          .InstantiatedTypeArguments new_type_arguments type_arguments instantiator
        else if instantiator.IsTypeArguments then
          -- ASSERT(!type_arguments.IsUninstantiatedIdentity() ||
          --        (instantiator.Length() != type_arguments.Length()))
          .InstantiatedTypeArguments new_type_arguments type_arguments instantiator
        else
          -- If possible, use the instantiator as the type argument vector.
          if q.IsUninstantiatedIdentity type_arguments &&
              (q.Length instantiator == q.Length type_arguments) then
            instantiator
          else
            .InstantiatedTypeArguments new_type_arguments type_arguments instantiator
      -- ASSERT(type_arguments.IsInstantiated())
      (heap1.SetTypeArguments new_instance type_arguments', new_instance)

/-- One entry of the PC descriptors of a code: a pc and its token position. -/
structure PcDescriptor where
  PC : Nat
  TokenPos : Int
  deriving DecidableEq, Repr

/-- The `for` loop of `GetCallerLocation` over the descriptors. -/
def GetCallerLocation.scan (pc : Nat) : List PcDescriptor → Int
  | [] => -1
  | descriptor :: descriptors =>
    if descriptor.PC = pc then descriptor.TokenPos
    else GetCallerLocation.scan pc descriptors

/-- `GetCallerLocation()`; `caller_frame` is what `iterator.NextFrame()` yields
and `pc_descriptors` gives `code.pc_descriptors()`, `none` for null.  `none`
when the frame, its code or the descriptors are null. -/
def GetCallerLocation (walker : StackWalker) (pc_descriptors : Code → Option (List PcDescriptor))
    (caller_frame : Option StackFrame) : Option Int :=
  match caller_frame with
  | none => none  -- ASSERT(caller_frame != NULL)
  | some caller_frame =>
    match walker.LookupDartCode caller_frame with
    | none => none
    | some code =>
      match pc_descriptors code with
      | none => none  -- ASSERT(!descriptors.IsNull())
      | some descriptors => some (GetCallerLocation.scan caller_frame.pc descriptors)

/-- The locals `type_arguments` and `bounds_instantiator` of
`AllocateObjectWithBoundsCheck` at the point where the bounds are checked. -/
def AllocateObjectWithBoundsCheck.type_arguments (q : TypeArgumentQueries)
    (new_type_arguments : Nat) (type_arguments : AbstractTypeArguments) (arg2 : Instantiator) :
    AbstractTypeArguments × AbstractTypeArguments :=
  match arg2 with
  | .kNoInstantiator => (type_arguments, .null)
  | .type_arguments instantiator =>
    -- ASSERT(!type_arguments.IsInstantiated())
    -- ASSERT(instantiator.IsNull() || instantiator.IsInstantiated())
    let type_arguments' : AbstractTypeArguments :=
      if instantiator.IsNull then
        .InstantiatedTypeArguments new_type_arguments type_arguments instantiator
      else if instantiator.IsTypeArguments then
        -- ASSERT(!type_arguments.IsUninstantiatedIdentity() ||
        --        (instantiator.Length() != type_arguments.Length()))
        .InstantiatedTypeArguments new_type_arguments type_arguments instantiator
      else
        -- If possible, use the instantiator as the type argument vector.
        if q.IsUninstantiatedIdentity type_arguments &&
            (q.Length instantiator == q.Length type_arguments) then
          instantiator
        else
          .InstantiatedTypeArguments new_type_arguments type_arguments instantiator
    (type_arguments', instantiator)

/-- Runtime entry `AllocateObjectWithBoundsCheck`, with the stack walker, the
PC descriptors and the caller frame that `GetCallerLocation` reads.  The
result is the heap afterwards and the returned instance or the thrown type
error; `none` when the bounds check fails without a malformed error or the
caller location cannot be read. -/
def AllocateObjectWithBoundsCheck (q : TypeArgumentQueries) (walker : StackWalker)
    (pc_descriptors : Code → Option (List PcDescriptor)) (caller_frame : Option StackFrame)
    (heap : Heap) (new_instance new_type_arguments : Nat) (cls : Class)
    (type_arguments : AbstractTypeArguments) (arg2 : Instantiator) :
    Option (Heap × Completion Nat) :=
  -- ASSERT(FLAG_enable_type_checks)
  let heap1 := heap.New new_instance cls
  -- ASSERT(cls.HasTypeArguments())
  let locals := AllocateObjectWithBoundsCheck.type_arguments q new_type_arguments
    type_arguments arg2
  let type_arguments' := locals.1
  let bounds_instantiator := locals.2
  if !type_arguments'.IsNull then
    -- ASSERT(type_arguments.IsInstantiated())
    let within := q.IsWithinBoundsOf type_arguments' cls bounds_instantiator
    if !within.1 then
      -- ASSERT(!malformed_error.IsNull())
      -- Throw a dynamic type error.
      match GetCallerLocation walker pc_descriptors caller_frame, within.2 with
      | some location, some malformed_error =>
        some (heap1, .thrown (.TypeError ⟨location, "", "", "", some malformed_error.message⟩))
      | _, _ => none
    else
      some (heap1.SetTypeArguments new_instance type_arguments', .returned new_instance)
  else
    some (heap1.SetTypeArguments new_instance type_arguments', .returned new_instance)

/-- Queries under which every vector has length 1 and the identity property
and no vector with an address above 100 is within bounds. -/
def TypeArgumentQueries.sample : TypeArgumentQueries where
  Length := fun _ => 1
  IsUninstantiatedIdentity := fun _ => true
  IsWithinBoundsOf := fun type_arguments _ _ =>
    if type_arguments.raw ≤ 100 then (true, none) else (false, some ⟨"type out of bounds"⟩)

/-- PC descriptors with pc 1000 at token position 3 and pc 1010 at token
position 42, for every code. -/
def PcDescriptor.sample : Code → Option (List PcDescriptor) :=
  fun _ => some [⟨1000, 3⟩, ⟨1010, 42⟩]

/-! ## Contexts -/

/-- Modelled from the spec: the `Context` object of `object.cc` is a
fixed-length array of slots plus a parent pointer.  A slot holds the address of
an instance and the parent is the address of a context; 0 is the null
object. -/
structure Context where
  parent : Nat
  slots : List Nat
  deriving DecidableEq, Repr

/-- `ctx.num_variables()`. -/
def Context.num_variables (ctx : Context) : Nat := ctx.slots.length

/-- `ctx.At(i)`. -/
def Context.At (ctx : Context) (i : Nat) : Nat := ctx.slots.getD i 0

/-- `ctx.SetAt(i, value)`. -/
def Context.SetAt (ctx : Context) (i : Nat) (value : Nat) : Context :=
  { ctx with slots := ctx.slots.set i value }

/-- `ctx.set_parent(parent)`. -/
def Context.set_parent (ctx : Context) (parent : Nat) : Context :=
  { ctx with parent := parent }

/-- The context objects of the heap, by address. -/
abbrev ContextStore := Nat → Context

/-- Modelled from the spec: `Context::New(num_variables)` of `object.cc`
allocates a context with that many slots, all null, and no parent; `raw` is
the address the allocator hands out. -/
def ContextStore.New (contexts : ContextStore) (raw : Nat) (num_variables : Nat) :
    ContextStore :=
  fun a => if a = raw then ⟨0, List.replicate num_variables 0⟩ else contexts a

/-- The loop `for (int i = 0; i < ctx.num_variables(); i++)` of `CloneContext`
with the counter at `i` and `remaining` variables still to copy.  `none` where
`i++` leaves the range of `int`. -/
def CloneContext.loop (ctx cloned_ctx : Nat) : Nat → Nat → ContextStore → Option ContextStore
  | 0, _, contexts => some contexts
  | remaining + 1, i, contexts =>
    let value := (contexts ctx).At i
    let contexts1 : ContextStore :=
      fun a => if a = cloned_ctx then (contexts a).SetAt i value else contexts a
    if i + 1 ≥ 2 ^ 31 then none
    else CloneContext.loop ctx cloned_ctx remaining (i + 1) contexts1

/-- Runtime entry `CloneContext`: the heap afterwards and the address of the
clone.  `new_context` is the address at which `Context::New` allocates. -/
def CloneContext (contexts : ContextStore) (new_context : Nat) (ctx : Nat) :
    Option (ContextStore × Nat) :=
  let cloned_ctx := new_context
  let contexts1 := contexts.New cloned_ctx (contexts ctx).num_variables
  let parent := (contexts1 ctx).parent
  let contexts2 : ContextStore :=
    fun a => if a = cloned_ctx then (contexts1 a).set_parent parent else contexts1 a
  match CloneContext.loop ctx cloned_ctx (contexts2 ctx).num_variables 0 contexts2 with
  | none => none
  | some contexts3 => some (contexts3, cloned_ctx)

/-- A heap of contexts: at address 1 a context with parent 9 and the three
variables 4, 5, 6; empty contexts elsewhere. -/
def ContextStore.sample : ContextStore :=
  fun a => if a = 1 then ⟨9, [4, 5, 6]⟩ else ⟨0, []⟩

/-! ## Arguments descriptors -/

/-- A tagged object pointer: a Smi, whose value sits in the pointer itself, or
the address of an object on the heap. -/
inductive RawObject where
  | Smi (value : Int) : RawObject
  | HeapObject (address : Nat) : RawObject
  deriving DecidableEq, Repr

/-- An arguments descriptor: the array whose element 0 is the total number of
arguments, element 1 the number of positional arguments, and element
`2 * i + 2` the name of the `i`-th named argument. -/
abbrev ArgumentsDescriptor := List RawObject

/-- `arg_desc.At(index)`; `none` outside the array. -/
def ArgumentsDescriptor.At (arg_desc : ArgumentsDescriptor) (index : Int) : Option RawObject :=
  if 0 ≤ index then arg_desc[index.toNat]? else none

/-- The loop `for (intptr_t i = 0; i < num_named_args; i++)` of
`ArgumentDefinitionTest` with the counter at `i` and `remaining` names still
to look at: the value of `is_defined` after the loop.  `none` where the loop
reads outside the descriptor. -/
def ArgumentDefinitionTest.loop (arch : Arch) (param_name : RawObject)
    (arg_desc : ArgumentsDescriptor) : Nat → Int → Option Bool
  | 0, _ => some false
  | remaining + 1, i =>
    match arg_desc.At (arch.intptr_t (2 * i + 2)) with
    | none => none
    | some arg_name =>
      if arg_name = param_name then
        some true
      else
        ArgumentDefinitionTest.loop arch param_name arg_desc remaining (arch.intptr_t (i + 1))

/-- Runtime entry `ArgumentDefinitionTest`.  `param_index` is the value of the
Smi passed as formal parameter index, `param_name` the symbol passed as formal
parameter name.  `none` where the entry reads a Smi that is not there. -/
def ArgumentDefinitionTest (arch : Arch) (param_index : Int) (param_name : RawObject)
    (arg_desc : ArgumentsDescriptor) : Option Bool :=
  -- ASSERT(param_name.IsSymbol())
  match arg_desc.At 1 with
  | some (.Smi num_pos_args) =>
    -- Check if the formal parameter is defined by a positional argument.
    if num_pos_args > param_index then
      some true
    else
      -- Check if the formal parameter is defined by a named argument.
      match arg_desc.At 0 with
      | some (.Smi total) =>
        let num_named_args := arch.intptr_t (total - num_pos_args)
        ArgumentDefinitionTest.loop arch param_name arg_desc num_named_args.toNat 0
      | _ => none
  | _ => none

/-- The descriptor of a call with one positional argument and the two named
arguments whose names are the symbols at addresses 70 and 80. -/
def ArgumentsDescriptor.sample : ArgumentsDescriptor :=
  [.Smi 3, .Smi 1, .HeapObject 70, .Smi 1, .HeapObject 80, .Smi 2, .HeapObject 0]

/-! ## Deferred boxes -/

/-- A `DeferredDouble` record: the bits of the unboxed double and the address
of the slot that waits for the box. -/
structure DeferredDouble where
  value : Nat
  slot : Nat
  deriving DecidableEq, Repr

/-- A `DeferredMint` record: the unboxed 64-bit integer and the address of the
slot that waits for the box. -/
structure DeferredMint where
  value : Int
  slot : Nat
  deriving DecidableEq, Repr

/-- A boxed number on the heap. -/
inductive Boxed where
  | Double (value : Nat) : Boxed
  | Mint (value : Int) : Boxed
  deriving DecidableEq, Repr

/-- What `DeoptimizeMaterializeDoubles` works on.  The two queues of the
isolate are the records linked through `next()`, first record first.  The
heap is the list of the boxes allocated so far, in allocation order, the
address of a box being its position; `slots` is the memory the slot pointers
point into. -/
structure Materialization where
  deferred_doubles : List DeferredDouble
  deferred_mints : List DeferredMint
  objects : List Boxed
  slots : Nat → Nat

/-- Modelled from the spec: `Double::New(value)` and `Mint::New(value)` of
`object.cc` allocate a box on the heap; the result is the heap afterwards
and the address of the new box. -/
def Boxed.New (objects : List Boxed) (box : Boxed) : List Boxed × Nat :=
  (objects ++ [box], objects.length)

/-- The loop `while (deferred_double != NULL)` of
`DeoptimizeMaterializeDoubles`. -/
def DeoptimizeMaterializeDoubles.doubles :
    List DeferredDouble → List Boxed × (Nat → Nat) → List Boxed × (Nat → Nat)
  | [], state => state
  | current :: deferred_double, (objects, slots) =>
    let slot := current.slot
    let allocated := Boxed.New objects (.Double current.value)
    DeoptimizeMaterializeDoubles.doubles deferred_double
      (allocated.1, fun a => if a = slot then allocated.2 else slots a)

/-- The loop `while (deferred_mint != NULL)` of
`DeoptimizeMaterializeDoubles`. -/
def DeoptimizeMaterializeDoubles.mints :
    List DeferredMint → List Boxed × (Nat → Nat) → List Boxed × (Nat → Nat)
  | [], state => state
  | current :: deferred_mint, (objects, slots) =>
    let slot := current.slot
    -- ASSERT(!Smi::IsValid64(current->value()))
    let allocated := Boxed.New objects (.Mint current.value)
    DeoptimizeMaterializeDoubles.mints deferred_mint
      (allocated.1, fun a => if a = slot then allocated.2 else slots a)

/-- Runtime entry `DeoptimizeMaterializeDoubles`.  Modelled from the spec:
`DetachDeferredDoubles()` and `DetachDeferredMints()` of `isolate.h` hand out
the queue and leave the isolate with an empty one. -/
def DeoptimizeMaterializeDoubles (state : Materialization) : Materialization :=
  let deferred_double := state.deferred_doubles
  let state1 := { state with deferred_doubles := [] }
  let after_doubles :=
    DeoptimizeMaterializeDoubles.doubles deferred_double (state1.objects, state1.slots)
  let deferred_mint := state1.deferred_mints
  let after_mints := DeoptimizeMaterializeDoubles.mints deferred_mint after_doubles
  { deferred_doubles := [], deferred_mints := [],
    objects := after_mints.1, slots := after_mints.2 }

/-- The writes of boxes into slots, in the order given, on top of a memory. -/
def Materialization.write (slots : Nat → Nat) (writes : List (Nat × Nat)) : Nat → Nat :=
  writes.foldl (fun memory w => fun a => if a = w.1 then w.2 else memory a) slots

/-! ## Closures, `call` and `noSuchMethod` -/

/-- A handle, as far as the entries of call dispatch tell handles apart: the
null object, a Smi, a string, an array given by its elements, any other
instance given by its address, an `UnhandledException` error wrapping the
exception at an address, and any other `Error` object. -/
inductive Object where
  | null : Object
  | Smi (value : Int) : Object
  | String (value : String) : Object
  | Array (elements : List Object) : Object
  | Instance (raw : Nat) : Object
  | UnhandledException (exception : Nat) : Object
  | Error (error : Error) : Object

/-- `object.IsError()`. -/
def Object.IsError : Object → Bool
  | .UnhandledException _ => true
  | .Error _ => true
  | _ => false

/-- `object.IsUnhandledException()`. -/
def Object.IsUnhandledException : Object → Bool
  | .UnhandledException _ => true
  | _ => false

/-- `object.IsSmi()`. -/
def Object.IsSmi : Object → Bool
  | .Smi _ => true
  | _ => false

/-- What the entries ask of the classes and functions of the heap
(`object.cc`), classes and functions being given by their addresses:
`object.clazz()`, `cls.signature_function()`,
`cls.LookupDynamicFunction(name)`, `cls.SuperClass()` (`none` for the null
class), `function.NumParameters()` and `function.ParameterNameAt(i)`. -/
structure Classes where
  clazz : Object → Nat
  signature_function : Nat → Option Nat
  LookupDynamicFunction : Nat → String → Option Nat
  SuperClass : Nat → Option Nat
  NumParameters : Nat → Int
  ParameterNameAt : Nat → Int → String

/-- The predefined symbols of `symbols.h` the entries use. -/
structure Symbols where
  Call : String
  NoSuchMethod : String
  InvocationMirror : String
  AllocateInvocationMirror : String

/-- Calls into Dart code (`dart_entry.cc`):
`DartEntry::InvokeDynamic(receiver, function, arguments, argument_names)` and
`DartEntry::InvokeStatic(function, arguments, argument_names)`, each yielding
the result object, which is an error object when the call ended in an
error. -/
structure DartEntry where
  InvokeDynamic : Instance → Function → List Object → Object → Object
  InvokeStatic : Function → List Object → Object → Object

/-- Lookups in the core library: `core_lib.LookupClassAllowPrivate(name)`, the
address of the class or `none` for the null class, and
`Resolver::ResolveStaticByName(cls, name, Resolver::kIsQualified)`. -/
structure CoreLibrary where
  LookupClassAllowPrivate : String → Option Nat
  ResolveStaticByName : Nat → String → Option Function

/-- How an entry of call dispatch ends: a normal return of a value,
`Exceptions::PropagateError` of an error object, or
`Exceptions::ThrowByType(Exceptions::kNoSuchMethod, dart_arguments)`. -/
inductive CallOutcome where
  | returned (value : Object) : CallOutcome
  | PropagateError (error : Object) : CallOutcome
  | ThrowByType_kNoSuchMethod (dart_arguments : List Object) : CallOutcome

/-- The value of an integer expression converted to `int` (32 bits, two's
complement). -/
def int (x : Int) : Int := (x + 2 ^ 31) % 2 ^ 32 - 2 ^ 31

/-- The loop `while (function.IsNull())` of `ReportObjectNotClosure`, entered
with a null function: the function found in a superclass, `none` for the null
function.  One unit of fuel is one execution of the loop body; `none` when the
fuel is used up. -/
def ReportObjectNotClosure.walk (classes : Classes) (function_name : String) :
    Nat → Nat → Option (Option Nat)
  | 0, _ => none
  | fuel + 1, instance_class =>
    match classes.SuperClass instance_class with
    | none => some none
    | some super_class =>
      match classes.LookupDynamicFunction super_class function_name with
      | some function => some (some function)
      | none => ReportObjectNotClosure.walk classes function_name fuel super_class

/-- The array of parameter names `ReportObjectNotClosure` builds for the
function found: `Array::New(total_num_parameters - 1)` filled by the loop
`for (int i = 1; i < total_num_parameters; i++)`.  `none` where the length
asked of `Array::New` is negative. -/
def ReportObjectNotClosure.array (classes : Classes) (function : Nat) : Option Object :=
  let total_num_parameters := int (classes.NumParameters function)
  if total_num_parameters - 1 < 0 then none
  else
    -- Skip receiver.
    some (.Array ((List.range (total_num_parameters - 1).toNat).map fun (k : Nat) =>
      .String (classes.ParameterNameAt function ((k : Int) + 1))))

/-- The `dart_arguments` that `ReportObjectNotClosure` hands to
`Exceptions::ThrowByType`, for the object invoked and the arguments array
passed.  `ResolveImplicitClosureThroughGetter` repeats the same statements for
the result of the getter. -/
def ReportObjectNotClosure.dart_arguments (classes : Classes) (symbols : Symbols) (fuel : Nat)
    (instance_ function_args : Object) : Option (List Object) :=
  let function_name := symbols.Call
  let null_object := Object.null
  let dart_arguments := [instance_, .String function_name, function_args, null_object]
  -- Report if a function "call" with different arguments has been found.
  let instance_class := classes.clazz instance_
  let function :=
    match classes.LookupDynamicFunction instance_class function_name with
    | some function => some (some function)
    | none => ReportObjectNotClosure.walk classes function_name fuel instance_class
  match function with
  | none => none
  | some none => some dart_arguments
  | some (some function) =>
    match ReportObjectNotClosure.array classes function with
    | none => none
    | some array => some (dart_arguments ++ [array])

/-- Runtime entry `ReportObjectNotClosure`. -/
def ReportObjectNotClosure (classes : Classes) (symbols : Symbols) (fuel : Nat)
    (instance_ function_args : Object) : Option CallOutcome :=
  (ReportObjectNotClosure.dart_arguments classes symbols fuel instance_ function_args).map
    .ThrowByType_kNoSuchMethod

/-- Runtime entry `ResolveImplicitClosureThroughGetter`.  `Field_GetterName`
is `Field::GetterName` of `object.cc`.  A returned null object is the null
`Code` handle the entry returns when no closure is found. -/
def ResolveImplicitClosureThroughGetter (resolver : Resolver) (dart : DartEntry)
    (classes : Classes) (symbols : Symbols) (Field_GetterName : String → String) (fuel : Nat)
    (receiver : Instance) (ic_data : ICData) : Option CallOutcome :=
  let original_function_name := ic_data.target_name
  let kNumArguments : Int := 1
  let kNumNamedArguments : Int := 0
  let getter_function_name := Field_GetterName original_function_name
  match resolver.ResolveDynamic receiver getter_function_name kNumArguments
      kNumNamedArguments with
  | none => some (.returned .null)  -- No getter function found so can't be an implicit closure.
  | some function =>
    let result := dart.InvokeDynamic receiver function [] .null
    if result.IsError then
      if result.IsUnhandledException then
        -- If the getter throws an exception, treat as no such method.
        some (.returned .null)
      else
        some (.PropagateError result)
    else if !result.IsSmi && (classes.signature_function (classes.clazz result)).isSome then
      some (.returned result)  -- Return closure object.
    else
      -- The result instance is not a closure, try to invoke method "call" before
      -- throwing a NoSuchMethodError.
      (ReportObjectNotClosure.dart_arguments classes symbols fuel result .null).map
        .ThrowByType_kNoSuchMethod

/-- `CheckResultError(result)` followed by `arguments.SetReturn(result)`. -/
def CheckResultError (result : Object) : CallOutcome :=
  if result.IsError then .PropagateError result else .returned result

/-- Runtime entry `InvokeNoSuchMethodFunction`.  `orig_arguments` is the
original arguments array.  `none` where the release build goes on with a null
class or a null function. -/
def InvokeNoSuchMethodFunction (resolver : Resolver) (core_lib : CoreLibrary) (dart : DartEntry)
    (symbols : Symbols) (receiver : Instance) (ic_data : ICData) (orig_arguments : Object) :
    Option CallOutcome :=
  let original_function_name := ic_data.target_name
  -- Allocate an InvocationMirror object.
  let invocation_mirror_name := symbols.InvocationMirror
  match core_lib.LookupClassAllowPrivate invocation_mirror_name with
  | none => none  -- ASSERT(!invocation_mirror_class.IsNull())
  | some invocation_mirror_class =>
    let allocation_function_name := symbols.AllocateInvocationMirror
    match core_lib.ResolveStaticByName invocation_mirror_class allocation_function_name with
    | none => none  -- ASSERT(!allocation_function.IsNull())
    | some allocation_function =>
      let allocation_arguments := [Object.String original_function_name, orig_arguments]
      let invocation_mirror := dart.InvokeStatic allocation_function allocation_arguments .null
      let kNumArguments : Int := 2
      let kNumNamedArguments : Int := 0
      let function_name := symbols.NoSuchMethod
      match resolver.ResolveDynamic receiver function_name kNumArguments
          kNumNamedArguments with
      | none => none  -- ASSERT(!function.IsNull())
      | some function =>
        let invoke_arguments := [invocation_mirror]
        let result := dart.InvokeDynamic receiver function invoke_arguments .null
        some (CheckResultError result)

/-- The superclasses of a class, nearest first, up to the class whose
superclass is null. -/
def Classes.SuperChain (classes : Classes) : Nat → List Nat → Prop
  | cls, [] => classes.SuperClass cls = none
  | cls, super_class :: chain =>
    classes.SuperClass cls = some super_class ∧ classes.SuperChain super_class chain

/-- The predefined symbols by their spelling. -/
def Symbols.sample : Symbols := ⟨"call", "noSuchMethod", "InvocationMirror",
  "_allocateInvocationMirror"⟩

/-- Three classes: class 5, whose instances are the instances at odd
addresses, defines `bogus(a, b, c)` (function 3, four parameters with the
receiver) and extends class 6; class 6, the class of every other object,
defines `call(x)` (function 4) and extends class 0, the root; the instances of
class 8, those at addresses above 100, are closures with signature function
2. -/
def Classes.sample : Classes where
  clazz := fun
    | .Instance raw => if raw > 100 then 8 else if raw % 2 = 1 then 5 else 6
    | _ => 6
  signature_function := fun cls => if cls = 8 then some 2 else none
  LookupDynamicFunction := fun cls name =>
    if cls = 5 && name == "bogus" then some 3
    else if cls = 6 && name == "call" then some 4
    else none
  SuperClass := fun cls => if cls = 5 then some 6 else if cls = 6 then some 0 else none
  NumParameters := fun function => if function = 3 then 4 else 2
  ParameterNameAt := fun function i =>
    if function = 3 then (if i = 1 then "a" else if i = 2 then "b" else "c") else "x"

/-- Dart code in which every getter returns the instance at address 11 and
the `noSuchMethod` of every receiver returns the Smi 0; the static allocation
function returns the instance at address 12. -/
def DartEntry.sample : DartEntry where
  InvokeDynamic := fun _ function _ _ =>
    if function.ToFullyQualifiedCString = "noSuchMethod".toList then .Smi 0 else .Instance 11
  InvokeStatic := fun _ _ _ => .Instance 12

/-- A core library that knows one class, at address 20, and resolves every
static function in it. -/
def CoreLibrary.sample : CoreLibrary where
  LookupClassAllowPrivate := fun _ => some 20
  ResolveStaticByName := fun _ name => some ⟨21, name.toList, 0, 0, true, none, 2, false⟩

/-- A resolver that finds a function of the name asked for on every
receiver. -/
def Resolver.named : Resolver where
  ResolveDynamic := fun _ name _ _ => some ⟨22, name.toList, 0, 0, true, none, 1, false⟩

/-! ## Reduction of lazy pairs, in the words of the specification -/

/-- The words "a wrapper is reduced by repeated instantiation until it is no
longer a wrapper": `Reduces ops u i t` says that instantiating the
uninstantiated vector `u` from the instantiator `i` with `ops.InstantiateFrom`,
and then again the two halves of every lazy pair that an instantiation yields,
ends on the handle `t`, which is no lazy pair. -/
inductive InstantiatedTypeArguments.Reduces (ops : TypeArgumentOps) :
    AbstractTypeArguments → AbstractTypeArguments → AbstractTypeArguments → Prop
  | done (u i : AbstractTypeArguments) :
      (ops.InstantiateFrom u i).IsInstantiatedTypeArguments = false →
      InstantiatedTypeArguments.Reduces ops u i (ops.InstantiateFrom u i)
  | again (u i : AbstractTypeArguments) (r : Nat) (u' i' t : AbstractTypeArguments) :
      ops.InstantiateFrom u i = .InstantiatedTypeArguments r u' i' →
      InstantiatedTypeArguments.Reduces ops u' i' t →
      InstantiatedTypeArguments.Reduces ops u i t

/-- A heap on which every address holds an instance of the generic class with
id 9 whose type arguments are a lazy pair, at address 50, of the vector at
address 40 and, as instantiator, the lazy pair at address 51 of the vectors at
addresses 41 and 42. -/
def Heap.sampleLazy : Heap := fun _ =>
  ⟨⟨9, true⟩, .InstantiatedTypeArguments 50 (.TypeArguments 40 false)
    (.InstantiatedTypeArguments 51 (.TypeArguments 41 false) (.TypeArguments 42 false))⟩

/-! ## Properties of the type-test cache -/

theorem OptimizeTypeArguments_returns_true {ops : TypeArgumentOps} {fuel : Nat} {heap : Heap}
    {instance_ : Nat} {r : Heap × Bool × Bool}
    (h : OptimizeTypeArguments ops fuel heap instance_ = some r) : r.2.1 = true := by
  simp only [OptimizeTypeArguments] at h
  split at h
  · cases h; rfl
  · split at h
    · cases h; rfl
    · split at h
      · cases h
      · cases h; rfl
    · split at h <;> (cases h; rfl)

theorem SubtypeTestCacheEntry.any_Matches_iff (cache : SubtypeTestCache) (cid : Int)
    (ita iota : AbstractTypeArguments) :
    cache.any (fun last => last.Matches cid ita iota) = true ↔
      ∃ last ∈ cache, last.instance_class_id = cid ∧
        last.instance_type_arguments.raw = ita.raw ∧
        last.instantiator_type_arguments.raw = iota.raw := by
  simp [List.any_eq_true, SubtypeTestCacheEntry.Matches, and_assoc]

/-- The tail of `UpdateTypeTestCache`, from the capacity test on, as one
decision. -/
theorem UpdateTypeTestCache.decision (max : Int) (heap2 : Heap) (cache : SubtypeTestCache)
    (cid : Int) (ita iota : AbstractTypeArguments) (result : Bool) :
    (if (cache.length : Int) ≥ max then some (heap2, some cache)
      else if cache.any (fun last => last.Matches cid ita iota) then some (heap2, some cache)
      else if !iota.IsInstantiatedTypeArguments then
        some (heap2, some (cache.AddCheck cid ita iota result))
      else some (heap2, some cache)) =
    some (heap2, some (
      if (∃ last ∈ cache, last.instance_class_id = cid ∧
            last.instance_type_arguments.raw = ita.raw ∧
            last.instantiator_type_arguments.raw = iota.raw) ∨
          iota.IsInstantiatedTypeArguments = true ∨ max ≤ (cache.length : Int)
      then cache else cache ++ [⟨cid, ita, iota, result⟩])) := by
  have hm := SubtypeTestCacheEntry.any_Matches_iff cache cid ita iota
  by_cases h1 : max ≤ (cache.length : Int)
  · simp [h1]
  · by_cases h2 : cache.any (fun last => last.Matches cid ita iota) = true
    · have h2' := hm.mp h2
      rw [if_neg (by simpa using h1), if_pos h2, if_pos (Or.inl h2')]
    · have h2' : ¬ _ := fun h => h2 (hm.mpr h)
      cases h3 : iota.IsInstantiatedTypeArguments
      · rw [if_neg (by simpa using h1), if_neg h2, if_pos (by simp),
          if_neg (by simp [h2', h1])]
        rfl
      · rw [if_neg (by simpa using h1), if_neg h2, if_neg (by simp), if_pos (by simp)]

/-- `UpdateTypeTestCache` on a non-null cache returns as soon as the two
canonicalizations return, and then leaves the checks unchanged if a check
with the same (class id, instance type arguments, instantiator type
arguments) key is present, or the instantiator type arguments are a lazy
`InstantiatedTypeArguments` pair, or `NumberOfChecks >=
max_subtype_cache_entries`; in every other case the new checks are the old
ones followed by the one check (class id, instance type arguments,
instantiator type arguments, result). -/
theorem UpdateTypeTestCache_eq (ops : TypeArgumentOps) (FLAG_max_subtype_cache_entries : Int)
    (fuel : Nat) (heap : Heap) (instance_ : Nat) (instantiator : Option Nat)
    (incoming : AbstractTypeArguments) (result : Bool) (cache : SubtypeTestCache) :
    UpdateTypeTestCache ops FLAG_max_subtype_cache_entries fuel heap instance_ instantiator
        incoming result (some cache) =
      (UpdateTypeTestCache.instance_type_arguments ops fuel heap instance_).bind fun p1 =>
      (UpdateTypeTestCache.instantiator_type_arguments ops fuel p1.1 instantiator incoming).bind
        fun p2 =>
        some (p2.1, some (
          if (∃ last ∈ cache, last.instance_class_id = (heap instance_).clazz.id ∧
                last.instance_type_arguments.raw = p1.2.raw ∧
                last.instantiator_type_arguments.raw = p2.2.raw) ∨
              p2.2.IsInstantiatedTypeArguments = true ∨
              FLAG_max_subtype_cache_entries ≤ (cache.length : Int)
          then cache
          else cache ++ [⟨(heap instance_).clazz.id, p1.2, p2.2, result⟩])) := by
  simp only [UpdateTypeTestCache, UpdateTypeTestCache.instance_type_arguments,
    UpdateTypeTestCache.instantiator_type_arguments]
  cases hT : (heap instance_).clazz.HasTypeArguments
  · simp only [Bool.false_eq_true, ↓reduceIte, Option.bind]
    cases instantiator with
    | none => exact UpdateTypeTestCache.decision _ _ _ _ _ _ _
    | some instantiator_ =>
      simp only []
      cases h2 : OptimizeTypeArguments ops fuel heap instantiator_ with
      | none => rfl
      | some r2 =>
        obtain ⟨heap2, ok2, rep2⟩ := r2
        have := OptimizeTypeArguments_returns_true h2
        simp only at this
        subst this
        exact UpdateTypeTestCache.decision _ _ _ _ _ _ _
  · simp only [↓reduceIte]
    cases h1 : OptimizeTypeArguments ops fuel heap instance_ with
    | none => rfl
    | some r1 =>
      obtain ⟨heap1, ok1, rep1⟩ := r1
      have := OptimizeTypeArguments_returns_true h1
      simp only at this
      subst this
      simp only [Option.map, Option.bind]
      cases instantiator with
      | none => exact UpdateTypeTestCache.decision _ _ _ _ _ _ _
      | some instantiator_ =>
        simp only []
        cases h2 : OptimizeTypeArguments ops fuel heap1 instantiator_ with
        | none => rfl
        | some r2 =>
          obtain ⟨heap2, ok2, rep2⟩ := r2
          have := OptimizeTypeArguments_returns_true h2
          simp only at this
          subst this
          exact UpdateTypeTestCache.decision _ _ _ _ _ _ _

/-- What a returning call does to the checks: nothing, or one check added at
the end, and then only below the capacity, with a key no present check has
and instantiator type arguments that are not a lazy pair. -/
theorem UpdateTypeTestCache.Call.run_cases {ops : TypeArgumentOps} {max : Int}
    {k : UpdateTypeTestCache.Call} {c c' : SubtypeTestCache} {heap' : Heap}
    (h : k.run ops max c = some (heap', some c')) :
    c' = c ∨ ∃ e : SubtypeTestCacheEntry, c' = c ++ [e] ∧ (c.length : Int) < max ∧
      (∀ last ∈ c, ¬ last.SameKey e) ∧ e.instantiator_type_arguments.IsInstantiatedTypeArguments = false ∧
      ∃ p1 p2, UpdateTypeTestCache.instance_type_arguments ops k.fuel k.heap k.instance_ = some p1 ∧
        UpdateTypeTestCache.instantiator_type_arguments ops k.fuel p1.1 k.instantiator
          k.incoming_instantiator_type_arguments = some p2 ∧
        e = ⟨(k.heap k.instance_).clazz.id, p1.2, p2.2, k.result⟩ := by
  unfold UpdateTypeTestCache.Call.run at h
  rw [UpdateTypeTestCache_eq] at h
  cases h1 : UpdateTypeTestCache.instance_type_arguments ops k.fuel k.heap k.instance_ with
  | none => rw [h1] at h; cases h
  | some p1 =>
    rw [h1] at h
    simp only [Option.bind] at h
    cases h2 : UpdateTypeTestCache.instantiator_type_arguments ops k.fuel p1.1 k.instantiator
        k.incoming_instantiator_type_arguments with
    | none => rw [h2] at h; cases h
    | some p2 =>
      rw [h2] at h
      simp only [Option.some.injEq, Prod.mk.injEq] at h
      obtain ⟨-, hc⟩ := h
      split at hc
      · exact Or.inl hc.symm
      · rename_i hcond
        refine Or.inr ⟨_, hc.symm, ?_, ?_, ?_, p1, p2, rfl, h2, rfl⟩
        · have : ¬ max ≤ (c.length : Int) := fun hh => hcond (Or.inr (Or.inr hh))
          omega
        · intro last hlast hk
          exact hcond (Or.inl ⟨last, hlast, hk⟩)
        · cases hw : p2.2.IsInstantiatedTypeArguments
          · rfl
          · exact absurd (Or.inr (Or.inl hw)) hcond

theorem Instanceof_returned {ops : TypeArgumentOps} {max : Int} {fuel : Nat} {heap heap' : Heap}
    {instance_ : Nat} {IsInstanceOf : Bool × Option Error} {instantiator : Option Nat}
    {ita : AbstractTypeArguments} {cache cache' : Option SubtypeTestCache} {location : Int}
    {value : Bool}
    (h : Instanceof ops max fuel heap instance_ IsInstanceOf instantiator ita cache location =
      some (heap', cache', .returned value)) :
    UpdateTypeTestCache ops max fuel heap instance_ instantiator ita IsInstanceOf.1 cache =
      some (heap', cache') := by
  simp only [Instanceof] at h
  split at h
  · simp at h
  · cases hU : UpdateTypeTestCache ops max fuel heap instance_ instantiator ita IsInstanceOf.1 cache with
    | none => rw [hU] at h; simp at h
    | some r =>
      rw [hU] at h
      simp only [Option.map, Option.some.injEq, Prod.mk.injEq] at h
      obtain ⟨h1, h2, -⟩ := h
      rw [← h1, ← h2]

theorem TypeCheck_returned {ops : TypeArgumentOps} {max : Int} {fuel : Nat} {heap heap' : Heap}
    {src_instance : Nat} {IsInstanceOf : Bool × Option Error} {dst_instantiator : Option Nat}
    {ita : AbstractTypeArguments} {dst_name : String} {cache cache' : Option SubtypeTestCache}
    {location : Int} {src_type_name dst_type_name : String} {value : Nat}
    (h : TypeCheck ops max fuel heap src_instance IsInstanceOf dst_instantiator ita dst_name cache
      location src_type_name dst_type_name = some (heap', cache', .returned value)) :
    UpdateTypeTestCache ops max fuel heap src_instance dst_instantiator ita true cache =
      some (heap', cache') := by
  simp only [TypeCheck] at h
  split at h
  · simp at h
  · cases hU : UpdateTypeTestCache ops max fuel heap src_instance dst_instantiator ita true cache with
    | none => rw [hU] at h; simp at h
    | some r =>
      rw [hU] at h
      simp only [Option.map, Option.some.injEq, Prod.mk.injEq] at h
      obtain ⟨h1, h2, -⟩ := h
      rw [← h1, ← h2]

/-- Induction over a history of updates: a property that holds at the start
and survives every returning call of `UpdateTypeTestCache` holds at the
end. -/
theorem SubtypeTestCache.Updates.induct {ops : TypeArgumentOps} {max : Int}
    {c0 : SubtypeTestCache} {P : List UpdateTypeTestCache.Call → SubtypeTestCache → Prop}
    (h0 : P [] c0)
    (hstep : ∀ calls c k heap' c', P calls c → k.run ops max c = some (heap', some c') →
      P (calls ++ [k]) c')
    {calls : List UpdateTypeTestCache.Call} {c : SubtypeTestCache}
    (h : SubtypeTestCache.Updates ops max c0 calls c) : P calls c := by
  induction h with
  | start => exact h0
  | UpdateTypeTestCache k heap' _ hrun ih => exact hstep _ _ k heap' _ ih hrun
  | Instanceof k malformed_error location heap' value _ hrun ih =>
    exact hstep _ _ k heap' _ ih (Instanceof_returned hrun)
  | TypeCheck k IsInstanceOf dst_name location s d heap' value _ hrun hres ih =>
    refine hstep _ _ k heap' _ ih ?_
    have := TypeCheck_returned hrun
    unfold UpdateTypeTestCache.Call.run
    rw [hres]
    exact this

theorem OptimizeTypeArguments_clazz {ops : TypeArgumentOps} {fuel : Nat} {heap : Heap}
    {instance_ : Nat} {r : Heap × Bool × Bool}
    (h : OptimizeTypeArguments ops fuel heap instance_ = some r) (b : Nat) :
    (r.1 b).clazz = (heap b).clazz := by
  simp only [OptimizeTypeArguments] at h
  split at h
  · cases h; rfl
  · split at h
    · cases h; rfl
    · split at h
      · cases h
      · cases h
        simp only [Heap.SetTypeArguments]
        split <;> simp_all
    · split at h
      · cases h
        simp only [Heap.SetTypeArguments]
        split <;> simp_all
      · cases h; rfl

/-- After `OptimizeTypeArguments` on an instance of a class with type
arguments, the type-arguments slot of the instance is null or canonical,
provided `Canonicalize` returns canonical vectors. -/
theorem OptimizeTypeArguments_slot {ops : TypeArgumentOps} {fuel : Nat} {heap : Heap}
    {instance_ : Nat} {r : Heap × Bool × Bool}
    (hcanon : ∀ t, (ops.Canonicalize t).IsCanonical = true)
    (h : OptimizeTypeArguments ops fuel heap instance_ = some r)
    (hcls : (heap instance_).clazz.HasTypeArguments = true) :
    (r.1 instance_).type_arguments.IsNull = true ∨
      (r.1 instance_).type_arguments.IsCanonical = true := by
  simp only [OptimizeTypeArguments, hcls, Bool.not_true, Bool.false_eq_true, ↓reduceIte] at h
  split at h
  · cases h
    rename_i heq
    left; simp only [heq]; rfl
  · split at h
    · cases h
    · cases h
      right
      simp only [Heap.SetTypeArguments, ↓reduceIte]
      exact hcanon _
  · rename_i heq
    split at h
    · cases h
      right
      simp only [Heap.SetTypeArguments, ↓reduceIte]
      exact hcanon _
    · cases h
      rename_i hc
      right
      simp only [heq, AbstractTypeArguments.IsCanonical]
      simpa using hc

theorem UpdateTypeTestCache.instance_type_arguments_clazz {ops : TypeArgumentOps} {fuel : Nat}
    {heap : Heap} {instance_ : Nat} {p1 : Heap × AbstractTypeArguments}
    (h : UpdateTypeTestCache.instance_type_arguments ops fuel heap instance_ = some p1) (b : Nat) :
    (p1.1 b).clazz = (heap b).clazz := by
  simp only [UpdateTypeTestCache.instance_type_arguments] at h
  split at h
  · cases hO : OptimizeTypeArguments ops fuel heap instance_ with
    | none => rw [hO] at h; cases h
    | some r =>
      rw [hO] at h
      cases h
      exact OptimizeTypeArguments_clazz hO b
  · cases h; rfl

theorem UpdateTypeTestCache.instantiator_type_arguments_canonical {ops : TypeArgumentOps}
    {fuel : Nat} {heap : Heap} {instantiator : Option Nat} {incoming : AbstractTypeArguments}
    {p2 : Heap × AbstractTypeArguments}
    (hcanon : ∀ t, (ops.Canonicalize t).IsCanonical = true)
    (h : UpdateTypeTestCache.instantiator_type_arguments ops fuel heap instantiator incoming =
      some p2)
    (hsome : ∀ a, instantiator = some a → (heap a).clazz.HasTypeArguments = true)
    (hnone : instantiator = none → incoming.IsNull = true ∨ incoming.IsCanonical = true) :
    p2.2.IsNull = true ∨ p2.2.IsCanonical = true := by
  cases instantiator with
  | none =>
    simp only [UpdateTypeTestCache.instantiator_type_arguments] at h
    cases h
    exact hnone rfl
  | some instantiator_ =>
    have hgood := hsome instantiator_ rfl
    simp only [UpdateTypeTestCache.instantiator_type_arguments] at h
    cases hO : OptimizeTypeArguments ops fuel heap instantiator_ with
    | none => rw [hO] at h; cases h
    | some r =>
      rw [hO] at h
      cases h
      exact OptimizeTypeArguments_slot hcanon hO hgood

/-- More fuel does not change what the instantiate loop returns. -/
theorem OptimizeTypeArguments.reduce_mono (ops : TypeArgumentOps) :
    ∀ (fuel fuel' : Nat) (u i t : AbstractTypeArguments), fuel ≤ fuel' →
      OptimizeTypeArguments.reduce ops fuel u i = some t →
      OptimizeTypeArguments.reduce ops fuel' u i = some t := by
  intro fuel
  induction fuel with
  | zero => intro fuel' u i t _ h; simp [OptimizeTypeArguments.reduce] at h
  | succ n ih =>
    intro fuel' u i t hle h
    obtain ⟨m, rfl⟩ : ∃ m, fuel' = m + 1 := ⟨fuel' - 1, by omega⟩
    simp only [OptimizeTypeArguments.reduce] at h ⊢
    cases hIF : ops.InstantiateFrom u i with
    | null => rw [hIF] at h; exact h
    | TypeArguments r c => rw [hIF] at h; exact h
    | InstantiatedTypeArguments r u' i' =>
      rw [hIF] at h
      exact ih m _ _ t (by omega) h

/-- When `InstantiateFrom` yields a plain vector or hands back its
instantiator, the instantiate loop ends within as many rounds as lazy pairs
are nested in the instantiator, plus one, and ends on a handle that is not a
lazy pair. -/
theorem OptimizeTypeArguments.reduce_total (ops : TypeArgumentOps)
    (hIF : ∀ u i, (ops.InstantiateFrom u i).IsInstantiatedTypeArguments = false ∨
      ops.InstantiateFrom u i = i) :
    ∀ (fuel : Nat) (u i : AbstractTypeArguments), i.depth < fuel →
      ∃ t, OptimizeTypeArguments.reduce ops fuel u i = some t ∧
        t.IsInstantiatedTypeArguments = false := by
  intro fuel
  induction fuel with
  | zero => intro u i h; omega
  | succ n ih =>
    intro u i h
    simp only [OptimizeTypeArguments.reduce]
    cases hr : ops.InstantiateFrom u i with
    | null => exact ⟨_, rfl, rfl⟩
    | TypeArguments r c => exact ⟨_, rfl, rfl⟩
    | InstantiatedTypeArguments r u' i' =>
      rcases hIF u i with hne | heq
      · rw [hr] at hne; cases hne
      · rw [hr] at heq
        subst heq
        simp only [AbstractTypeArguments.depth] at h
        exact ih u' i' (by omega)

/-- Under the same contract `OptimizeTypeArguments` returns as soon as the
fuel covers the nesting of the instance's type arguments. -/
theorem OptimizeTypeArguments_total (ops : TypeArgumentOps)
    (hIF : ∀ u i, (ops.InstantiateFrom u i).IsInstantiatedTypeArguments = false ∨
      ops.InstantiateFrom u i = i)
    (fuel : Nat) (heap : Heap) (instance_ : Nat)
    (hfuel : (heap instance_).type_arguments.depth ≤ fuel) :
    (OptimizeTypeArguments ops fuel heap instance_).isSome = true := by
  simp only [OptimizeTypeArguments]
  cases hT : (heap instance_).clazz.HasTypeArguments
  · rfl
  · simp only [Bool.not_true, Bool.false_eq_true, ↓reduceIte]
    cases hs : (heap instance_).type_arguments with
    | null => rfl
    | TypeArguments r c => cases c <;> rfl
    | InstantiatedTypeArguments r u i =>
      rw [hs] at hfuel
      simp only [AbstractTypeArguments.depth] at hfuel
      obtain ⟨t, ht, -⟩ := OptimizeTypeArguments.reduce_total ops hIF fuel u i (by omega)
      simp only [ht]
      rfl

/-- More fuel does not change what `OptimizeTypeArguments` returns. -/
theorem OptimizeTypeArguments_mono {ops : TypeArgumentOps} {fuel fuel' : Nat} {heap : Heap}
    {instance_ : Nat} {r : Heap × Bool × Bool} (hle : fuel ≤ fuel')
    (h : OptimizeTypeArguments ops fuel heap instance_ = some r) :
    OptimizeTypeArguments ops fuel' heap instance_ = some r := by
  simp only [OptimizeTypeArguments] at h ⊢
  cases hT : (heap instance_).clazz.HasTypeArguments
  · simpa [hT] using h
  · simp only [hT, Bool.not_true, Bool.false_eq_true, ↓reduceIte] at h ⊢
    cases hs : (heap instance_).type_arguments with
    | null => rw [hs] at h; exact h
    | TypeArguments r c => rw [hs] at h; exact h
    | InstantiatedTypeArguments r' u i =>
      rw [hs] at h
      simp only at h ⊢
      cases hr : OptimizeTypeArguments.reduce ops fuel u i with
      | none => rw [hr] at h; cases h
      | some t =>
        rw [hr] at h
        rw [OptimizeTypeArguments.reduce_mono ops fuel fuel' _ _ t hle hr]
        exact h

/-- Once `UpdateTypeTestCache` returns with some fuel, it returns the same
with any larger fuel. -/
theorem UpdateTypeTestCache_mono {ops : TypeArgumentOps} {max : Int} {fuel fuel' : Nat}
    {heap : Heap} {instance_ : Nat} {instantiator : Option Nat}
    {incoming : AbstractTypeArguments} {result : Bool} {cache : SubtypeTestCache}
    {r : Heap × Option SubtypeTestCache} (hle : fuel ≤ fuel')
    (h : UpdateTypeTestCache ops max fuel heap instance_ instantiator incoming result
      (some cache) = some r) :
    UpdateTypeTestCache ops max fuel' heap instance_ instantiator incoming result
      (some cache) = some r := by
  rw [UpdateTypeTestCache_eq] at h ⊢
  cases h1 : UpdateTypeTestCache.instance_type_arguments ops fuel heap instance_ with
  | none => rw [h1] at h; cases h
  | some p1 =>
    have h1' : UpdateTypeTestCache.instance_type_arguments ops fuel' heap instance_ =
        some p1 := by
      simp only [UpdateTypeTestCache.instance_type_arguments] at h1 ⊢
      split
      · rename_i hT
        simp only [hT, ↓reduceIte] at h1
        cases hO : OptimizeTypeArguments ops fuel heap instance_ with
        | none => rw [hO] at h1; cases h1
        | some r1 => rw [hO] at h1; rw [OptimizeTypeArguments_mono hle hO]; exact h1
      · rename_i hT
        simpa [hT] using h1
    rw [h1] at h
    rw [h1']
    simp only [Option.bind] at h ⊢
    cases h2 : UpdateTypeTestCache.instantiator_type_arguments ops fuel p1.1 instantiator
        incoming with
    | none => rw [h2] at h; cases h
    | some p2 =>
      have h2' : UpdateTypeTestCache.instantiator_type_arguments ops fuel' p1.1 instantiator
          incoming = some p2 := by
        cases instantiator with
        | none => exact h2
        | some a =>
          simp only [UpdateTypeTestCache.instantiator_type_arguments] at h2 ⊢
          cases hO : OptimizeTypeArguments ops fuel p1.1 a with
          | none => rw [hO] at h2; cases h2
          | some r2 => rw [hO] at h2; rw [OptimizeTypeArguments_mono hle hO]; exact h2
      rw [h2] at h
      rw [h2']
      exact h

/-- C1 -- For every non-null cache, instance, instantiator and result,
`UpdateTypeTestCache` returns as soon as the two canonicalizations return, and
then leaves the sequence of checks unchanged if a check with the same (class
id, instance type arguments, instantiator type arguments) key is present, or
the instantiator type arguments are a lazy `InstantiatedTypeArguments` pair, or
`NumberOfChecks >= max_subtype_cache_entries`; in every other case the new
checks are the old ones, unchanged and in order, followed by the one check
(class id, instance type arguments, instantiator type arguments, result). -/
theorem UpdateTypeTestCache_checks (ops : TypeArgumentOps) (FLAG_max_subtype_cache_entries : Int)
    (fuel : Nat) (heap : Heap) (instance_ : Nat) (instantiator : Option Nat)
    (incoming : AbstractTypeArguments) (result : Bool) (cache : SubtypeTestCache) :
    UpdateTypeTestCache ops FLAG_max_subtype_cache_entries fuel heap instance_ instantiator
        incoming result (some cache) =
      (UpdateTypeTestCache.instance_type_arguments ops fuel heap instance_).bind fun p1 =>
      (UpdateTypeTestCache.instantiator_type_arguments ops fuel p1.1 instantiator incoming).bind
        fun p2 =>
        some (p2.1, some (
          if (∃ last ∈ cache, last.instance_class_id = (heap instance_).clazz.id ∧
                last.instance_type_arguments.raw = p1.2.raw ∧
                last.instantiator_type_arguments.raw = p2.2.raw) ∨
              p2.2.IsInstantiatedTypeArguments = true ∨
              FLAG_max_subtype_cache_entries ≤ (cache.length : Int)
          then cache
          else cache ++ [⟨(heap instance_).clazz.id, p1.2, p2.2, result⟩])) :=
  UpdateTypeTestCache_eq ops FLAG_max_subtype_cache_entries fuel heap instance_ instantiator
    incoming result cache

/-- C2 -- A cache that starts with at most `max_subtype_cache_entries` checks
(so the flag is non-negative) has at most that many checks after any sequence
of `UpdateTypeTestCache` calls, made directly or by `Instanceof` or
`TypeCheck`. -/
theorem SubtypeTestCache_length_le_max (ops : TypeArgumentOps)
    (FLAG_max_subtype_cache_entries : Int) (c0 : SubtypeTestCache)
    (calls : List UpdateTypeTestCache.Call) (c : SubtypeTestCache)
    (h0 : (c0.length : Int) ≤ FLAG_max_subtype_cache_entries)
    (h : SubtypeTestCache.Updates ops FLAG_max_subtype_cache_entries c0 calls c) :
    (c.length : Int) ≤ FLAG_max_subtype_cache_entries := by
  refine SubtypeTestCache.Updates.induct (P := fun _ c =>
    (c.length : Int) ≤ FLAG_max_subtype_cache_entries) h0 ?_ h
  intro calls c k heap' c' ih hrun
  rcases UpdateTypeTestCache.Call.run_cases hrun with rfl | ⟨e, rfl, hlt, -⟩
  · exact ih
  · simp only [List.length_append, List.length_singleton, Nat.cast_add, Nat.cast_one]
    omega

theorem SubtypeTestCache_length_le_max_witness :
    (([⟨5, .null, .TypeArguments 7 true, true⟩] : SubtypeTestCache).length : Int) ≤ 1 :=
  SubtypeTestCache_length_le_max TypeArgumentOps.sample 1 []
    ([] ++ [UpdateTypeTestCache.Call.sample 7] ++ [UpdateTypeTestCache.Call.sample 8])
    [⟨5, .null, .TypeArguments 7 true, true⟩] (by decide)
    (.UpdateTypeTestCache (UpdateTypeTestCache.Call.sample 8) Heap.sample
      (.UpdateTypeTestCache (UpdateTypeTestCache.Call.sample 7) Heap.sample .start rfl) rfl)

/-- C3 (as stated, refuted) -- `UpdateTypeTestCache` called on the empty cache
without instantiator and with a non-canonical plain vector as incoming
instantiator type arguments stores that vector as passed: the cache then
holds a check whose instantiator type arguments are not canonical. -/
theorem UpdateTypeTestCache_stores_noncanonical :
    UpdateTypeTestCache TypeArgumentOps.sample 100 0 Heap.sample 0 none
        (.TypeArguments 7 false) true (some []) =
      some (Heap.sample, some [⟨5, .null, .TypeArguments 7 false, true⟩]) ∧
    SubtypeTestCache.Updates TypeArgumentOps.sample 100 []
      [⟨0, Heap.sample, 0, none, .TypeArguments 7 false, true⟩]
      [⟨5, .null, .TypeArguments 7 false, true⟩] ∧
    (AbstractTypeArguments.TypeArguments 7 false).IsCanonical = false ∧
    (AbstractTypeArguments.TypeArguments 7 false).IsNull = false :=
  ⟨rfl, @SubtypeTestCache.Updates.UpdateTypeTestCache TypeArgumentOps.sample 100 [] [] [] _
      ⟨0, Heap.sample, 0, none, .TypeArguments 7 false, true⟩ Heap.sample .start rfl, rfl, rfl⟩

/-- C3 (amended) -- In a cache built from empty by `UpdateTypeTestCache` calls
no check has a lazy `InstantiatedTypeArguments` pair as instantiator type
arguments.  If moreover `Canonicalize` returns canonical vectors and every
call either supplied an instantiator instance of a class with type arguments
(its type arguments are canonicalized first) or supplied none and passed null
or canonical incoming type arguments, then the instantiator type arguments of
every check are null or canonical. -/
theorem SubtypeTestCache_instantiator_type_arguments (ops : TypeArgumentOps)
    (FLAG_max_subtype_cache_entries : Int) (calls : List UpdateTypeTestCache.Call)
    (c : SubtypeTestCache)
    (h : SubtypeTestCache.Updates ops FLAG_max_subtype_cache_entries [] calls c) :
    (∀ e ∈ c, e.instantiator_type_arguments.IsInstantiatedTypeArguments = false) ∧
    ((∀ t, (ops.Canonicalize t).IsCanonical = true) →
      (∀ k ∈ calls, k.CanonicalInstantiator) →
      ∀ e ∈ c, e.instantiator_type_arguments.IsNull = true ∨
        e.instantiator_type_arguments.IsCanonical = true) := by
  refine SubtypeTestCache.Updates.induct (P := fun calls c =>
    (∀ e ∈ c, e.instantiator_type_arguments.IsInstantiatedTypeArguments = false) ∧
    ((∀ t, (ops.Canonicalize t).IsCanonical = true) →
      (∀ k ∈ calls, k.CanonicalInstantiator) →
      ∀ e ∈ c, e.instantiator_type_arguments.IsNull = true ∨
        e.instantiator_type_arguments.IsCanonical = true)) ?_ ?_ h
  · exact ⟨fun e he => absurd he (List.not_mem_nil e), fun _ _ e he => absurd he (List.not_mem_nil e)⟩
  · intro calls c k heap' c' ih hrun
    rcases UpdateTypeTestCache.Call.run_cases hrun with rfl | ⟨e, rfl, -, -, hlazy, p1, p2, hp1, hp2, he⟩
    · refine ⟨ih.1, fun hcanon hgood => ih.2 hcanon fun k' hk' => hgood k' ?_⟩
      exact List.mem_append_left _ hk'
    · constructor
      · intro e' he'
        rcases List.mem_append.mp he' with hm | hm
        · exact ih.1 e' hm
        · rw [List.mem_singleton.mp hm]; exact hlazy
      · intro hcanon hgood e' he'
        rcases List.mem_append.mp he' with hm | hm
        · exact ih.2 hcanon (fun k' hk' => hgood k' (List.mem_append_left _ hk')) e' hm
        · rw [List.mem_singleton.mp hm, he]
          have hk : k.CanonicalInstantiator :=
            hgood k (List.mem_append_right _ (List.mem_singleton.mpr rfl))
          unfold UpdateTypeTestCache.Call.CanonicalInstantiator at hk
          refine UpdateTypeTestCache.instantiator_type_arguments_canonical hcanon hp2 ?_ ?_
          · intro a hi
            rw [hi] at hk
            rw [UpdateTypeTestCache.instance_type_arguments_clazz hp1 a]
            exact hk
          · intro hi
            rw [hi] at hk
            exact hk

theorem SubtypeTestCache_instantiator_type_arguments_witness :
    (∀ e ∈ ([⟨9, .TypeArguments 40 true, .TypeArguments 40 true, true⟩] : SubtypeTestCache),
      e.instantiator_type_arguments.IsInstantiatedTypeArguments = false) ∧
    (∀ e ∈ ([⟨9, .TypeArguments 40 true, .TypeArguments 40 true, true⟩] : SubtypeTestCache),
      e.instantiator_type_arguments.IsNull = true ∨
        e.instantiator_type_arguments.IsCanonical = true) :=
  have T := SubtypeTestCache_instantiator_type_arguments TypeArgumentOps.sample 100
    ([] ++ [UpdateTypeTestCache.Call.sampleGeneric])
    [⟨9, .TypeArguments 40 true, .TypeArguments 40 true, true⟩]
    (.UpdateTypeTestCache UpdateTypeTestCache.Call.sampleGeneric _ .start rfl)
  ⟨T.1, T.2 (fun _ => rfl) (fun k hk => by
    rw [List.nil_append, List.mem_singleton] at hk
    subst hk
    exact (rfl : (Heap.sampleGeneric 1).clazz.HasTypeArguments = true))⟩

/-- C4 -- In a cache that starts empty, after any sequence of
`UpdateTypeTestCache` calls no two checks have the same key (class id,
instance type arguments by address, instantiator type arguments by
address). -/
theorem SubtypeTestCache_keys_unique (ops : TypeArgumentOps)
    (FLAG_max_subtype_cache_entries : Int) (calls : List UpdateTypeTestCache.Call)
    (c : SubtypeTestCache)
    (h : SubtypeTestCache.Updates ops FLAG_max_subtype_cache_entries [] calls c) :
    c.Pairwise (fun a b => ¬ a.SameKey b) := by
  refine SubtypeTestCache.Updates.induct (P := fun _ c =>
    c.Pairwise (fun a b => ¬ a.SameKey b)) List.Pairwise.nil ?_ h
  intro calls c k heap' c' ih hrun
  rcases UpdateTypeTestCache.Call.run_cases hrun with rfl | ⟨e, rfl, -, hnew, -⟩
  · exact ih
  · rw [List.pairwise_append]
    refine ⟨ih, List.pairwise_singleton _ _, ?_⟩
    intro a ha b hb
    rw [List.mem_singleton.mp hb]
    exact hnew a ha

theorem SubtypeTestCache_keys_unique_witness :
    ([⟨5, .null, .TypeArguments 7 true, true⟩, ⟨5, .null, .TypeArguments 8 true, true⟩] :
      SubtypeTestCache).Pairwise (fun a b => ¬ a.SameKey b) :=
  SubtypeTestCache_keys_unique TypeArgumentOps.sample 100
    ([] ++ [UpdateTypeTestCache.Call.sample 7] ++ [UpdateTypeTestCache.Call.sample 8])
    [⟨5, .null, .TypeArguments 7 true, true⟩, ⟨5, .null, .TypeArguments 8 true, true⟩]
    (.UpdateTypeTestCache (UpdateTypeTestCache.Call.sample 8) Heap.sample
      (.UpdateTypeTestCache (UpdateTypeTestCache.Call.sample 7) Heap.sample .start rfl) rfl)

/-! ## Properties of the inline caches -/

theorem InlineCacheMissHandler.class_ids_eq_map (args : List Instance) :
    InlineCacheMissHandler.class_ids args = args.map fun arg => arg.clazz.id := by
  induction args with
  | nil => rfl
  | cons a as ih => simp [InlineCacheMissHandler.class_ids, ih]

/-- What `InlineCacheMissHandler` does to the checks: nothing, or one check
added at the end whose class-id vector is made of the class ids of the
arguments. -/
theorem InlineCacheMissHandler_checks {resolver : Resolver} {compiler : Compiler}
    {call : InstanceCall} {args : List Instance} {ic_data' : ICData}
    {completion : Completion (Option Nat)}
    (h : InlineCacheMissHandler resolver compiler call args = some (ic_data', completion)) :
    ic_data' = call.ic_data ∨ ∃ target, ic_data'.checks =
      call.ic_data.checks ++ [⟨args.map fun arg => arg.clazz.id, target⟩] := by
  cases args with
  | nil => simp [InlineCacheMissHandler] at h
  | cons receiver rest =>
    simp only [InlineCacheMissHandler] at h
    split at h
    · cases h; exact Or.inl rfl
    · cases h; exact Or.inl rfl
    · rename_i target_code _
      split at h
      · rename_i hlen
        cases h
        have : rest = [] := by
          cases rest with
          | nil => rfl
          | cons _ _ => simp at hlen
        subst this
        exact Or.inr ⟨target_code.function, rfl⟩
      · cases h
        refine Or.inr ⟨target_code.function, ?_⟩
        simp [ICData.AddCheck, InlineCacheMissHandler.class_ids_eq_map]

theorem ICData.Distinct_append {ic_data ic_data' : ICData} {check : ICData.Check}
    (hd : ic_data.Distinct) (hnew : ∀ c ∈ ic_data.checks, c.class_ids ≠ check.class_ids)
    (h : ic_data'.checks = ic_data.checks ++ [check]) : ic_data'.Distinct := by
  unfold ICData.Distinct at *
  rw [h, List.pairwise_append]
  refine ⟨hd, List.pairwise_singleton _ _, ?_⟩
  intro a ha b hb
  rw [List.mem_singleton.mp hb]
  exact hnew a ha

theorem ICData.MissUpdate.Distinct {ic_data ic_data' : ICData}
    (h : ICData.MissUpdate ic_data ic_data') (hd : ic_data.Distinct) : ic_data'.Distinct := by
  cases h with
  | InlineCacheMissHandlerOneArg resolver compiler call receiver _ completion hmiss hrun =>
    rcases InlineCacheMissHandler_checks hrun with rfl | ⟨target, ht⟩
    · exact hd
    · exact ICData.Distinct_append hd hmiss ht
  | InlineCacheMissHandlerTwoArgs resolver compiler call receiver other _ completion hmiss hrun =>
    rcases InlineCacheMissHandler_checks hrun with rfl | ⟨target, ht⟩
    · exact hd
    · exact ICData.Distinct_append hd hmiss ht
  | InlineCacheMissHandlerThreeArgs resolver compiler call receiver arg1 arg2 _ completion
      hmiss hrun =>
    rcases InlineCacheMissHandler_checks hrun with rfl | ⟨target, ht⟩
    · exact hd
    · exact ICData.Distinct_append hd hmiss ht
  | UpdateICDataTwoArgs resolver receiver arg1 target_name _ hmiss =>
    exact ICData.Distinct_append hd hmiss rfl

/-- What one update made on a miss does to the checks: nothing, or one check
added at the end whose class-id vector no present check has. -/
theorem ICData.MissUpdate.checks {ic_data ic_data' : ICData}
    (h : ICData.MissUpdate ic_data ic_data') :
    ic_data' = ic_data ∨ ∃ check, ic_data'.checks = ic_data.checks ++ [check] ∧
      ∀ present ∈ ic_data.checks, present.class_ids ≠ check.class_ids := by
  cases h with
  | InlineCacheMissHandlerOneArg resolver compiler call receiver _ completion hmiss hrun =>
    rcases InlineCacheMissHandler_checks hrun with rfl | ⟨target, ht⟩
    · exact Or.inl rfl
    · exact Or.inr ⟨_, ht, hmiss⟩
  | InlineCacheMissHandlerTwoArgs resolver compiler call receiver other _ completion hmiss hrun =>
    rcases InlineCacheMissHandler_checks hrun with rfl | ⟨target, ht⟩
    · exact Or.inl rfl
    · exact Or.inr ⟨_, ht, hmiss⟩
  | InlineCacheMissHandlerThreeArgs resolver compiler call receiver arg1 arg2 _ completion
      hmiss hrun =>
    rcases InlineCacheMissHandler_checks hrun with rfl | ⟨target, ht⟩
    · exact Or.inl rfl
    · exact Or.inr ⟨_, ht, hmiss⟩
  | UpdateICDataTwoArgs resolver receiver arg1 target_name _ hmiss =>
    exact Or.inr ⟨_, rfl, hmiss⟩

/-- C6 (as stated, refuted) -- Resolution of `f` on the receiver succeeds, the
resolved function has no code and its compilation reports an error:
`InlineCacheMissHandler` propagates the error, appends no check and returns no
function. -/
theorem InlineCacheMissHandler_compile_error :
    Resolver.sample.ResolveDynamic ⟨⟨5, false⟩, .null⟩ InstanceCall.sample.function_name
        InstanceCall.sample.num_arguments InstanceCall.sample.num_named_arguments =
      some ⟨105, "f".toList, 0, 0, true, none, 1, false⟩ ∧
    InlineCacheMissHandler Resolver.sample Compiler.failing InstanceCall.sample
        [⟨⟨5, false⟩, .null⟩] =
      some (⟨"f", 1, []⟩, .thrown (.PropagateError ⟨"compile-time error"⟩)) := by
  decide

/-- C6 (amended) -- `InlineCacheMissHandler` on a receiver followed by any
further tested arguments.  If dynamic resolution of the call-site name on the
receiver fails, it returns null and the IC data is unchanged.  If resolution
succeeds and the target has code, or has none and is compiled without error,
it appends after the present checks, which stay in order, exactly one check
made of the class ids of the arguments in argument order and of the function
recorded in the target's current code, and returns that function, which is
the resolved target when the code refers back to it.  If the compilation
reports an error, the error is propagated and the IC data is unchanged. -/
theorem InlineCacheMissHandler_postcondition (resolver : Resolver) (compiler : Compiler)
    (call : InstanceCall) (receiver : Instance) (rest : List Instance) :
    (resolver.ResolveDynamic receiver call.function_name call.num_arguments
        call.num_named_arguments = none →
      InlineCacheMissHandler resolver compiler call (receiver :: rest) =
        some (call.ic_data, .returned none)) ∧
    (∀ function target_code,
      resolver.ResolveDynamic receiver call.function_name call.num_arguments
        call.num_named_arguments = some function →
      (function.code = some target_code ∨
        (function.code = none ∧ ∃ function', compiler.CompileFunction function =
          (none, function') ∧ function'.code = some target_code)) →
      InlineCacheMissHandler resolver compiler call (receiver :: rest) =
          some ({ call.ic_data with checks := call.ic_data.checks ++
              [⟨(receiver :: rest).map fun arg => arg.clazz.id, target_code.function⟩] },
            .returned target_code.function) ∧
        (target_code.function = some function.raw →
          InlineCacheMissHandler resolver compiler call (receiver :: rest) =
            some ({ call.ic_data with checks := call.ic_data.checks ++
                [⟨(receiver :: rest).map fun arg => arg.clazz.id, some function.raw⟩] },
              .returned (some function.raw)))) ∧
    (∀ function error function',
      resolver.ResolveDynamic receiver call.function_name call.num_arguments
        call.num_named_arguments = some function →
      function.code = none →
      compiler.CompileFunction function = (some error, function') →
      InlineCacheMissHandler resolver compiler call (receiver :: rest) =
        some (call.ic_data, .thrown (.PropagateError error))) := by
  have key : ∀ target_code : Code,
      ResolveCompileInstanceCallTarget resolver compiler call receiver =
        .returned (some target_code) →
      InlineCacheMissHandler resolver compiler call (receiver :: rest) =
        some ({ call.ic_data with checks := call.ic_data.checks ++
            [⟨(receiver :: rest).map fun arg => arg.clazz.id, target_code.function⟩] },
          .returned target_code.function) := by
    intro target_code hT
    simp only [InlineCacheMissHandler, hT]
    split
    · rename_i hlen
      have : rest = [] := by
        cases rest with
        | nil => rfl
        | cons _ _ => simp at hlen
      subst this
      rfl
    · simp [ICData.AddCheck, InlineCacheMissHandler.class_ids_eq_map]
  refine ⟨?_, ?_, ?_⟩
  · intro hres
    simp [InlineCacheMissHandler, ResolveCompileInstanceCallTarget, hres]
  · intro function target_code hres hcode
    have hT : ResolveCompileInstanceCallTarget resolver compiler call receiver =
        .returned (some target_code) := by
      rcases hcode with hc | ⟨hc, function', hcomp, hc'⟩
      · simp [ResolveCompileInstanceCallTarget, hres, Function.HasCode, Function.CurrentCode, hc]
      · simp [ResolveCompileInstanceCallTarget, hres, Function.HasCode, Function.CurrentCode, hc,
          hcomp, hc']
    refine ⟨key target_code hT, fun howner => ?_⟩
    rw [← howner]
    exact key target_code hT
  · intro function error function' hres hc hcomp
    simp [InlineCacheMissHandler, ResolveCompileInstanceCallTarget, hres, Function.HasCode, hc,
      hcomp]

theorem InlineCacheMissHandler_postcondition_witness :
    InlineCacheMissHandler Resolver.failing Compiler.sample InstanceCall.sample
        [⟨⟨5, false⟩, .null⟩] = some (⟨"f", 1, []⟩, .returned none) ∧
    InlineCacheMissHandler Resolver.sample Compiler.sample InstanceCall.sample
        [⟨⟨5, false⟩, .null⟩, ⟨⟨6, false⟩, .null⟩] =
      some (⟨"f", 1, [⟨[5, 6], some 105⟩]⟩, .returned (some 105)) ∧
    InlineCacheMissHandler Resolver.sample Compiler.failing InstanceCall.sample
        [⟨⟨5, false⟩, .null⟩] =
      some (⟨"f", 1, []⟩, .thrown (.PropagateError ⟨"compile-time error"⟩)) :=
  ⟨(InlineCacheMissHandler_postcondition Resolver.failing Compiler.sample InstanceCall.sample
      ⟨⟨5, false⟩, .null⟩ []).1 rfl,
    ((InlineCacheMissHandler_postcondition Resolver.sample Compiler.sample InstanceCall.sample
      ⟨⟨5, false⟩, .null⟩ [⟨⟨6, false⟩, .null⟩]).2.1
        ⟨105, "f".toList, 0, 0, true, none, 1, false⟩ ⟨1105, some 105, false, 0, none, 0⟩ rfl
        (Or.inr ⟨rfl, _, rfl, rfl⟩)).2 rfl,
    (InlineCacheMissHandler_postcondition Resolver.sample Compiler.failing InstanceCall.sample
      ⟨⟨5, false⟩, .null⟩ []).2.2 ⟨105, "f".toList, 0, 0, true, none, 1, false⟩
        ⟨"compile-time error"⟩ _ rfl rfl rfl⟩

/-! ## Properties of the deoptimizer -/

theorem Arch.intptr_t_eq_self (arch : Arch) (hw : 0 < arch.kWordSize) (x : Int)
    (hlo : -(2 : Int) ^ (arch.kBitsPerWord - 1) ≤ x) (hhi : x < 2 ^ (arch.kBitsPerWord - 1)) :
    arch.intptr_t x = x := by
  unfold Arch.intptr_t
  have hb : arch.kBitsPerWord = (arch.kBitsPerWord - 1) + 1 := by
    unfold Arch.kBitsPerWord; omega
  have h2 : (2 : Int) ^ arch.kBitsPerWord = 2 * 2 ^ (arch.kBitsPerWord - 1) := by
    conv_lhs => rw [hb]
    rw [pow_succ]; ring
  rw [h2, Int.emod_eq_of_lt (by omega) (by omega)]
  ring

/-- C7 -- `DeoptimizeCopyFrame` returns `(translation_length - num_args - 2) *
word_size`, where `translation_length` is the `TranslationLength` of the
`DeoptInfo` found for the caller pc and `num_args` is 0 if the optimized
function has optional parameters and its number of fixed parameters
otherwise, whenever that product is an `intptr_t` value. -/
theorem DeoptimizeCopyFrame_stack_size (arch : Arch) (walker : StackWalker)
    (functions : FunctionStore) (memory : Memory) (isolate : Isolate)
    (saved_registers_address : Nat) (caller_frame : StackFrame) (optimized_code : Code)
    (deopt_info : DeoptInfo) (deopt_reason : Int) (function_ : Nat)
    (hw : 0 < arch.kWordSize)
    (hframe : walker.NextFrame (arch.uword ((saved_registers_address : Int) +
      arch.kNumberOfCpuRegisters * arch.kWordSize +
      arch.kNumberOfXmmRegisters * arch.kDoubleSize)) = some caller_frame)
    (hcode : walker.LookupDartCode caller_frame = some optimized_code)
    (hinfo : GetDeoptInfoAtPc arch optimized_code caller_frame.pc =
      some (some deopt_info, deopt_reason))
    (hfun : optimized_code.function = some function_)
    (hlo : -(2 : Int) ^ (arch.kBitsPerWord - 1) ≤
      (deopt_info.TranslationLength -
        (if (functions function_).HasOptionalParameters then 0
          else (functions function_).num_fixed_parameters) - 2) * arch.kWordSize)
    (hhi : (deopt_info.TranslationLength -
        (if (functions function_).HasOptionalParameters then 0
          else (functions function_).num_fixed_parameters) - 2) * arch.kWordSize <
      2 ^ (arch.kBitsPerWord - 1)) :
    (DeoptimizeCopyFrame arch walker functions memory isolate saved_registers_address).map
        Prod.snd =
      some ((deopt_info.TranslationLength -
        (if (functions function_).HasOptionalParameters then 0
          else (functions function_).num_fixed_parameters) - 2) * arch.kWordSize) := by
  generalize hn : (if (functions function_).HasOptionalParameters then (0 : Int)
    else (functions function_).num_fixed_parameters) = num_args at hlo hhi ⊢
  have hw' : (1 : Int) ≤ arch.kWordSize := by exact_mod_cast hw
  have hB : (0 : Int) < 2 ^ (arch.kBitsPerWord - 1) := by positivity
  have h1 : arch.intptr_t (deopt_info.TranslationLength - num_args - 2) =
      deopt_info.TranslationLength - num_args - 2 := by
    apply Arch.intptr_t_eq_self arch hw
    · by_contra hc
      push_neg at hc
      have : (deopt_info.TranslationLength - num_args - 2) * arch.kWordSize ≤
          (deopt_info.TranslationLength - num_args - 2) * 1 :=
        Int.mul_le_mul_of_nonpos_left (by omega) hw'
      omega
    · by_contra hc
      push_neg at hc
      have : (deopt_info.TranslationLength - num_args - 2) * 1 ≤
          (deopt_info.TranslationLength - num_args - 2) * arch.kWordSize :=
        Int.mul_le_mul_of_nonneg_left hw' (by omega)
      omega
  simp only [DeoptimizeCopyFrame, hframe, hcode, hinfo, CopyFrame, hfun, hn, h1,
    Arch.intptr_t_eq_self arch hw _ hlo hhi, Option.map]

theorem DeoptimizeCopyFrame_stack_size_witness :
    (DeoptimizeCopyFrame Arch.sample StackWalker.sample FunctionStore.sample
        ⟨fun _ => 0, fun _ => 0⟩ ⟨none, none, none, 0⟩ 4000).map Prod.snd =
      some ((6 - 2 - 2) * 8) :=
  DeoptimizeCopyFrame_stack_size Arch.sample StackWalker.sample FunctionStore.sample
    ⟨fun _ => 0, fun _ => 0⟩ ⟨none, none, none, 0⟩ 4000 ⟨1010, 5000, 5040⟩
    Code.sampleOptimized ⟨6, [⟨1, 0⟩, ⟨1, 1⟩, ⟨2, 0⟩, ⟨2, 1⟩, ⟨3, 0⟩, ⟨3, 1⟩]⟩ 3 7
    (by decide) rfl rfl (by decide) rfl (by decide) (by decide)

theorem DeoptimizeWithDeoptInfo.loop_eq {σ : Type} (ops : DeoptInstructions σ)
    (deopt_instructions : List DeoptInstr) :
    ∀ (n : Nat) (deopt_context : σ), n ≤ deopt_instructions.length →
      DeoptimizeWithDeoptInfo.loop ops deopt_instructions n deopt_context =
        some ((deopt_instructions.take n).enum.reverse.foldl
          (fun ctx p => ops.Execute p.2 ctx p.1) deopt_context) := by
  intro n
  induction n with
  | zero => intro ctx _; rfl
  | succ n ih =>
    intro ctx hn
    have hlt : n < deopt_instructions.length := by omega
    have hlen : (List.take n deopt_instructions).length = n := by
      rw [List.length_take]; omega
    simp only [DeoptimizeWithDeoptInfo.loop, List.getElem?_eq_getElem hlt]
    rw [ih _ (by omega), List.take_succ, List.getElem?_eq_getElem hlt]
    simp only [Option.toList, List.enum_append, List.enumFrom_singleton, List.reverse_append,
      List.reverse_cons, List.reverse_nil, List.nil_append, List.singleton_append,
      List.foldl_cons, hlen]

/-- C8 -- `DeoptimizeWithDeoptInfo`, on a deopt info whose instruction list
has `translation_length` entries, runs the instructions from a fresh context
in the order of their indices from `translation_length - 1` down to 0, each
one once and with its own index as target index: the context it leaves is
the fold of `Execute` over the reversed indexed list.  With translation
length 0 it leaves the fresh context untouched. -/
theorem DeoptimizeWithDeoptInfo_executes {σ : Type} (arch : Arch) (ops : DeoptInstructions σ)
    (functions : FunctionStore) (code : Code) (deopt_info : DeoptInfo)
    (caller_frame : StackFrame) (deopt_reason : Int) (deopt_context : σ)
    (hctx : DeoptimizeWithDeoptInfo.deopt_context arch ops functions code caller_frame
      deopt_reason = some deopt_context)
    (hlen : (deopt_info.ToInstructions.length : Int) = deopt_info.TranslationLength) :
    DeoptimizeWithDeoptInfo arch ops functions code deopt_info caller_frame deopt_reason =
      some (deopt_info.ToInstructions.enum.reverse.foldl
          (fun ctx p => ops.Execute p.2 ctx p.1) deopt_context,
        ops.GetCallerFp (deopt_info.ToInstructions.enum.reverse.foldl
          (fun ctx p => ops.Execute p.2 ctx p.1) deopt_context)) ∧
    (deopt_info.TranslationLength = 0 →
      DeoptimizeWithDeoptInfo arch ops functions code deopt_info caller_frame deopt_reason =
        some (deopt_context, ops.GetCallerFp deopt_context)) := by
  have hn : deopt_info.TranslationLength.toNat = deopt_info.ToInstructions.length := by
    rw [← hlen]; exact Int.toNat_natCast _
  have hrun : DeoptimizeWithDeoptInfo arch ops functions code deopt_info caller_frame
      deopt_reason =
      some (deopt_info.ToInstructions.enum.reverse.foldl
          (fun ctx p => ops.Execute p.2 ctx p.1) deopt_context,
        ops.GetCallerFp (deopt_info.ToInstructions.enum.reverse.foldl
          (fun ctx p => ops.Execute p.2 ctx p.1) deopt_context)) := by
    simp only [DeoptimizeWithDeoptInfo, hctx, hn]
    rw [DeoptimizeWithDeoptInfo.loop_eq ops _ _ _ (le_refl _), List.take_length]
  refine ⟨hrun, fun h0 => ?_⟩
  rw [hrun]
  have : deopt_info.ToInstructions = [] := by
    apply List.eq_nil_of_length_eq_zero
    rw [h0] at hlen
    exact_mod_cast hlen
  rw [this]
  rfl

theorem DeoptimizeWithDeoptInfo_executes_witness :
    DeoptimizeWithDeoptInfo Arch.sample DeoptInstructions.trace FunctionStore.sample
        Code.sampleOptimized ⟨3, [⟨1, 0⟩, ⟨2, 0⟩, ⟨3, 0⟩]⟩ ⟨1010, 5000, 5040⟩ 3 =
      some ([(⟨3, 0⟩, 2), (⟨2, 0⟩, 1), (⟨1, 0⟩, 0)], 0) ∧
    DeoptimizeWithDeoptInfo Arch.sample DeoptInstructions.trace FunctionStore.sample
        Code.sampleOptimized ⟨0, []⟩ ⟨1010, 5000, 5040⟩ 3 = some ([], 0) :=
  ⟨(DeoptimizeWithDeoptInfo_executes Arch.sample DeoptInstructions.trace FunctionStore.sample
      Code.sampleOptimized ⟨3, [⟨1, 0⟩, ⟨2, 0⟩, ⟨3, 0⟩]⟩ ⟨1010, 5000, 5040⟩ 3 [] rfl rfl).1,
    (DeoptimizeWithDeoptInfo_executes Arch.sample DeoptInstructions.trace FunctionStore.sample
      Code.sampleOptimized ⟨0, []⟩ ⟨1010, 5000, 5040⟩ 3 [] rfl rfl).2 rfl⟩

/-! ## Properties of `OptimizeInvokedFunction` -/

/-- `strstr` finds the needle exactly when the needle is a contiguous part of
the haystack. -/
theorem strstr_isSome_iff (haystack needle : List Char) :
    (strstr haystack needle).isSome = true ↔ needle <:+: haystack := by
  induction haystack with
  | nil =>
    simp only [strstr, List.infix_nil]
    cases needle <;> simp [List.isPrefixOf]
  | cons c haystack ih =>
    simp only [strstr]
    by_cases hp : needle.isPrefixOf (c :: haystack) = true
    · simp only [hp, ↓reduceIte, Option.isSome_some, true_iff]
      exact (List.isPrefixOf_iff_prefix.mp hp).isInfix
    · simp only [hp, Bool.false_eq_true, ↓reduceIte, ih]
      rw [List.infix_cons_iff]
      constructor
      · exact Or.inr
      · rintro (h | h)
        · exact absurd (List.isPrefixOf_iff_prefix.mpr h) hp
        · exact h

/-- C9 -- With the debugger active, `OptimizeInvokedFunction` hands nothing to
the optimizing compiler, whatever the counters and flags of the function: it
sets the usage counter to 0 and returns, and the function, its current code
included, is otherwise as before. -/
theorem OptimizeInvokedFunction_debugger_active (arch : Arch) (compiler : Compiler)
    (FLAG_deoptimization_counter_threshold : Int) (FLAG_optimization_filter : Option (List Char))
    (FLAG_reoptimization_counter_threshold : Int) (function : Function) :
    OptimizeInvokedFunction arch compiler true FLAG_deoptimization_counter_threshold
        FLAG_optimization_filter FLAG_reoptimization_counter_threshold function =
      ⟨{ function with usage_counter := 0 }, [], .returned ()⟩ ∧
    (OptimizeInvokedFunction arch compiler true FLAG_deoptimization_counter_threshold
        FLAG_optimization_filter FLAG_reoptimization_counter_threshold
        function).CompileOptimizedFunction_calls = [] ∧
    (OptimizeInvokedFunction arch compiler true FLAG_deoptimization_counter_threshold
        FLAG_optimization_filter FLAG_reoptimization_counter_threshold
        function).function.usage_counter = 0 ∧
    (OptimizeInvokedFunction arch compiler true FLAG_deoptimization_counter_threshold
        FLAG_optimization_filter FLAG_reoptimization_counter_threshold
        function).function.CurrentCode = function.CurrentCode :=
  ⟨rfl, rfl, rfl, rfl⟩

/-- C10 -- `OptimizeInvokedFunction` invokes the optimizing compiler, once and
on the function, if and only if the debugger is inactive, the function's
deoptimization counter is strictly below `deoptimization_counter_threshold`,
`optimization_filter` is null or a substring of the function's fully
qualified name, and the function is optimizable; otherwise it does not invoke
it. -/
theorem OptimizeInvokedFunction_compiles_iff (arch : Arch) (compiler : Compiler)
    (debugger_IsActive : Bool) (FLAG_deoptimization_counter_threshold : Int)
    (FLAG_optimization_filter : Option (List Char)) (FLAG_reoptimization_counter_threshold : Int)
    (function : Function) :
    ((OptimizeInvokedFunction arch compiler debugger_IsActive
        FLAG_deoptimization_counter_threshold FLAG_optimization_filter
        FLAG_reoptimization_counter_threshold function).CompileOptimizedFunction_calls =
          [function] ↔
      (debugger_IsActive = false ∧
        function.deoptimization_counter < FLAG_deoptimization_counter_threshold ∧
        (FLAG_optimization_filter = none ∨
          ∃ filter, FLAG_optimization_filter = some filter ∧
            filter <:+: function.ToFullyQualifiedCString) ∧
        function.is_optimizable = true)) ∧
    ((OptimizeInvokedFunction arch compiler debugger_IsActive
        FLAG_deoptimization_counter_threshold FLAG_optimization_filter
        FLAG_reoptimization_counter_threshold function).CompileOptimizedFunction_calls = [] ↔
      ¬ (debugger_IsActive = false ∧
        function.deoptimization_counter < FLAG_deoptimization_counter_threshold ∧
        (FLAG_optimization_filter = none ∨
          ∃ filter, FLAG_optimization_filter = some filter ∧
            filter <:+: function.ToFullyQualifiedCString) ∧
        function.is_optimizable = true)) := by
  have hfilter : (FLAG_optimization_filter.isSome &&
      (FLAG_optimization_filter.bind fun filter =>
        strstr function.ToFullyQualifiedCString filter).isNone) = false ↔
      (FLAG_optimization_filter = none ∨
        ∃ filter, FLAG_optimization_filter = some filter ∧
          filter <:+: function.ToFullyQualifiedCString) := by
    cases FLAG_optimization_filter with
    | none => simp
    | some filter =>
      simp only [Option.isSome_some, Option.bind, Bool.true_and, reduceCtorEq, Option.some.injEq,
        exists_eq_left', false_or]
      rw [← strstr_isSome_iff]
      cases strstr function.ToFullyQualifiedCString filter <;> simp
  unfold OptimizeInvokedFunction
  cases debugger_IsActive
  · by_cases hd : function.deoptimization_counter ≥ FLAG_deoptimization_counter_threshold
    · have hd' : ¬ function.deoptimization_counter < FLAG_deoptimization_counter_threshold := by
        omega
      simp [hd, hd']
    · have hd' : function.deoptimization_counter < FLAG_deoptimization_counter_threshold := by
        omega
      cases hf : (FLAG_optimization_filter.isSome &&
        (FLAG_optimization_filter.bind fun filter =>
          strstr function.ToFullyQualifiedCString filter).isNone)
      · have hf' := hfilter.mp hf
        cases ho : function.is_optimizable
        · simp [hd, hf, ho]
        · simp only [Bool.false_eq_true, ↓reduceIte, hd, hf, ho]
          rcases hc : compiler.CompileOptimizedFunction function with ⟨_ | error, function'⟩ <;>
            simp [hd', hf']
      · have hf' : ¬ _ := fun h => by
          have := hfilter.mpr h
          rw [hf] at this
          exact Bool.noConfusion this
        simp [hd, hf, hf']
  · simp

/-- C11 -- When `OptimizeInvokedFunction` gets past its guards and the
optimizing compiler reports no error and leaves the usage counter of the
function as it was, the usage counter after the entry is the usage counter
before the entry minus `reoptimization_counter_threshold`, provided that
difference is an `intptr_t` value; adding the threshold again gives the
previous value. -/
theorem OptimizeInvokedFunction_usage_counter (arch : Arch) (compiler : Compiler)
    (FLAG_deoptimization_counter_threshold : Int) (FLAG_optimization_filter : Option (List Char))
    (FLAG_reoptimization_counter_threshold : Int) (function function' : Function)
    (hw : 0 < arch.kWordSize)
    (hdeopt : function.deoptimization_counter < FLAG_deoptimization_counter_threshold)
    (hfilter : FLAG_optimization_filter = none ∨
      ∃ filter, FLAG_optimization_filter = some filter ∧
        filter <:+: function.ToFullyQualifiedCString)
    (hopt : function.is_optimizable = true)
    (hcompile : compiler.CompileOptimizedFunction function = (none, function'))
    (hkeep : function'.usage_counter = function.usage_counter)
    (hlo : -(2 : Int) ^ (arch.kBitsPerWord - 1) ≤
      function.usage_counter - FLAG_reoptimization_counter_threshold)
    (hhi : function.usage_counter - FLAG_reoptimization_counter_threshold <
      2 ^ (arch.kBitsPerWord - 1)) :
    (OptimizeInvokedFunction arch compiler false FLAG_deoptimization_counter_threshold
        FLAG_optimization_filter FLAG_reoptimization_counter_threshold
        function).function.usage_counter =
      function.usage_counter - FLAG_reoptimization_counter_threshold ∧
    (OptimizeInvokedFunction arch compiler false FLAG_deoptimization_counter_threshold
        FLAG_optimization_filter FLAG_reoptimization_counter_threshold
        function).function.usage_counter + FLAG_reoptimization_counter_threshold =
      function.usage_counter ∧
    (OptimizeInvokedFunction arch compiler false FLAG_deoptimization_counter_threshold
        FLAG_optimization_filter FLAG_reoptimization_counter_threshold
        function).completion = .returned () := by
  have hf : (FLAG_optimization_filter.isSome &&
      (FLAG_optimization_filter.bind fun filter =>
        strstr function.ToFullyQualifiedCString filter).isNone) = false := by
    rcases hfilter with h | ⟨filter, h, hin⟩
    · simp [h]
    · have := (strstr_isSome_iff function.ToFullyQualifiedCString filter).mpr hin
      simp only [h, Option.isSome_some, Option.bind, Bool.true_and]
      cases hs : strstr function.ToFullyQualifiedCString filter with
      | none => rw [hs] at this; cases this
      | some _ => rfl
  have hd : ¬ function.deoptimization_counter ≥ FLAG_deoptimization_counter_threshold := by
    omega
  have hval : (OptimizeInvokedFunction arch compiler false FLAG_deoptimization_counter_threshold
      FLAG_optimization_filter FLAG_reoptimization_counter_threshold function) =
      ⟨function'.set_usage_counter
          (function.usage_counter - FLAG_reoptimization_counter_threshold),
        [function], .returned ()⟩ := by
    simp only [OptimizeInvokedFunction, Bool.false_eq_true, ↓reduceIte, hd, hf, hopt, hcompile,
      hkeep, Arch.intptr_t_eq_self arch hw _ hlo hhi]
  rw [hval]
  refine ⟨rfl, ?_, rfl⟩
  simp [Function.set_usage_counter]

theorem OptimizeInvokedFunction_usage_counter_witness :
    (OptimizeInvokedFunction Arch.sample Compiler.sample false 16 (some "g".toList) 2000
        (FunctionStore.sample 7)).function.usage_counter = 0 - 2000 ∧
    (OptimizeInvokedFunction Arch.sample Compiler.sample false 16 (some "g".toList) 2000
        (FunctionStore.sample 7)).function.usage_counter + 2000 = 0 ∧
    (OptimizeInvokedFunction Arch.sample Compiler.sample false 16 (some "g".toList) 2000
        (FunctionStore.sample 7)).completion = .returned () :=
  OptimizeInvokedFunction_usage_counter Arch.sample Compiler.sample 16 (some "g".toList) 2000
    (FunctionStore.sample 7) _ (by decide) (by decide)
    (Or.inr ⟨"g".toList, rfl, List.infix_refl _⟩) rfl rfl rfl (by decide) (by decide)

/-! ## Properties of `StackOverflow` -/

/-- C12 -- Whatever interrupt bits are pending, if the stack position of the
entry is below the saved stack limit of the isolate, `StackOverflow` throws
the preallocated stack-overflow exception of the object store and calls none
of the interrupt services: the interrupt bits are neither read nor cleared,
no garbage collection is requested, no out-of-band message is handled and
the interrupt callback is not called. -/
theorem StackOverflow_precedence (bits : InterruptBits) (stack_pos : Nat)
    (isolate : IsolateInterrupts) (h : stack_pos < isolate.saved_stack_limit) :
    StackOverflow bits stack_pos isolate = ⟨isolate, [], .Throw isolate.stack_overflow⟩ ∧
    (StackOverflow bits stack_pos isolate).outcome = .Throw isolate.stack_overflow ∧
    (StackOverflow bits stack_pos isolate).actions = [] ∧
    (StackOverflow bits stack_pos isolate).isolate.interrupt_bits = isolate.interrupt_bits := by
  have hval : StackOverflow bits stack_pos isolate =
      ⟨isolate, [], .Throw isolate.stack_overflow⟩ := by
    simp only [StackOverflow, h, ↓reduceIte]
  rw [hval]
  exact ⟨rfl, rfl, rfl, rfl⟩

theorem StackOverflow_precedence_witness :
    StackOverflow InterruptBits.sample 4096 ⟨8192, 2, 77, some true⟩ =
      ⟨⟨8192, 2, 77, some true⟩, [], .Throw 77⟩ :=
  (StackOverflow_precedence InterruptBits.sample 4096 ⟨8192, 2, 77, some true⟩ (by decide)).1

/-- C13 -- When the stack position is not below the saved stack limit,
`StackOverflow` reads and clears the pending interrupt bits and then performs
the actions of the bits that were set, and no other, in the order
store-buffer overflow (a new-space garbage collection), message (handling of
the out-of-band messages), API (the isolate-interrupted event is signalled
and the registered interrupt callback is called); it returns normally unless
the API bit was set and the callback answered false, in which case it
reaches `UNIMPLEMENTED`.  A bit that is not set triggers no action. -/
theorem StackOverflow_interrupts (bits : InterruptBits) (stack_pos : Nat)
    (isolate : IsolateInterrupts) (h : ¬ stack_pos < isolate.saved_stack_limit) :
    (StackOverflow bits stack_pos isolate).isolate = { isolate with interrupt_bits := 0 } ∧
    (StackOverflow bits stack_pos isolate).actions =
      [StackOverflow.Action.GetAndClearInterrupts] ++
      (if isolate.interrupt_bits &&& bits.kStoreBufferInterrupt ≠ 0
        then [StackOverflow.Action.CollectGarbage_kNew] else []) ++
      (if isolate.interrupt_bits &&& bits.kMessageInterrupt ≠ 0
        then [StackOverflow.Action.HandleOOBMessages] else []) ++
      (if isolate.interrupt_bits &&& bits.kApiInterrupt ≠ 0
        then [StackOverflow.Action.SignalIsolateEvent_kIsolateInterrupted] ++
          (if isolate.InterruptCallback.isSome then [StackOverflow.Action.InterruptCallback]
            else [])
        else []) ∧
    (StackOverflow bits stack_pos isolate).outcome =
      (if isolate.interrupt_bits &&& bits.kApiInterrupt ≠ 0 ∧
          isolate.InterruptCallback = some false
        then StackOverflow.Outcome.UNIMPLEMENTED else StackOverflow.Outcome.returned) := by
  simp only [StackOverflow, h, ↓reduceIte, IsolateInterrupts.GetAndClearInterrupts]
  by_cases hs : isolate.interrupt_bits &&& bits.kStoreBufferInterrupt ≠ 0 <;>
  by_cases hm : isolate.interrupt_bits &&& bits.kMessageInterrupt ≠ 0 <;>
  by_cases ha : isolate.interrupt_bits &&& bits.kApiInterrupt ≠ 0 <;>
  rcases hc : isolate.InterruptCallback with _ | _ | _ <;>
  simp [hs, hm, ha]

theorem StackOverflow_interrupts_witness :
    (StackOverflow InterruptBits.sample 9000 ⟨8192, 7, 77, some true⟩).isolate =
      ⟨8192, 0, 77, some true⟩ ∧
    (StackOverflow InterruptBits.sample 9000 ⟨8192, 7, 77, some true⟩).actions =
      [.GetAndClearInterrupts, .CollectGarbage_kNew, .HandleOOBMessages,
        .SignalIsolateEvent_kIsolateInterrupted, .InterruptCallback] ∧
    (StackOverflow InterruptBits.sample 9000 ⟨8192, 7, 77, some true⟩).outcome = .returned :=
  StackOverflow_interrupts InterruptBits.sample 9000 ⟨8192, 7, 77, some true⟩ (by decide)

/-! ## Properties of static-call patching and lazy deoptimization -/

/-- C14 -- When `PatchStaticCall` returns normally for the call site at the pc
of the caller frame, the call site jumps to the entry point of the current
code of the target function, the static-call-target table of the caller code
records that code for the pc, the returned value is that code, and the target
the call site had before the patch was a different one. -/
theorem PatchStaticCall_postcondition (compiler : Compiler) (walker : StackWalker)
    (caller_frame : StackFrame) (state state' : StaticCalls) (target_code : Code)
    (h : PatchStaticCall compiler walker (some caller_frame) state =
      some (state', .returned target_code)) :
    ∃ caller_code target_function_,
      walker.LookupDartCode caller_frame = some caller_code ∧
      state.GetStaticCallTargetFunctionAt caller_code.raw caller_frame.pc =
        some target_function_ ∧
      (state'.functions target_function_).CurrentCode = some target_code ∧
      state'.GetStaticCallTargetAt caller_frame.pc = target_code.EntryPoint ∧
      state'.GetStaticCallTargetCodeAt caller_code.raw caller_frame.pc = some target_code ∧
      state.GetStaticCallTargetAt caller_frame.pc ≠ target_code.EntryPoint := by
  simp only [PatchStaticCall] at h
  cases hc : walker.LookupDartCode caller_frame with
  | none => rw [hc] at h; cases h
  | some caller_code =>
    rw [hc] at h
    simp only at h
    cases hf : state.GetStaticCallTargetFunctionAt caller_code.raw caller_frame.pc with
    | none => rw [hf] at h; cases h
    | some target_function_ =>
      rw [hf] at h
      simp only at h
      refine ⟨caller_code, target_function_, rfl, hf, ?_⟩
      by_cases hhas : (state.functions target_function_).HasCode = true
      · simp only [hhas, Bool.not_true, Bool.false_eq_true, ↓reduceIte] at h
        cases hcur : (state.functions target_function_).CurrentCode with
        | none => rw [hcur] at h; cases h
        | some code =>
          rw [hcur] at h
          simp only at h
          split at h
          · cases h
          · rename_i hne
            simp only [Option.some.injEq, Prod.mk.injEq, PatchStaticCall.Outcome.returned.injEq]
              at h
            obtain ⟨hs, rfl⟩ := h
            subst hs
            refine ⟨hcur, ?_, ?_, fun heq => hne heq.symm⟩
            · simp [StaticCalls.SetStaticCallTargetCodeAt, StaticCalls.PatchStaticCallAt]
            · simp [StaticCalls.SetStaticCallTargetCodeAt]
      · simp only [hhas, Bool.not_false, ↓reduceIte] at h
        cases herr : (compiler.CompileFunction (state.functions target_function_)).1 with
        | some error => rw [herr] at h; cases h
        | none =>
          rw [herr] at h
          simp only at h
          cases hcur : ((state.SetFunction target_function_
              (compiler.CompileFunction (state.functions target_function_)).2).functions
                target_function_).CurrentCode with
          | none => rw [hcur] at h; cases h
          | some code =>
            rw [hcur] at h
            simp only at h
            split at h
            · cases h
            · rename_i hne
              simp only [Option.some.injEq, Prod.mk.injEq,
                PatchStaticCall.Outcome.returned.injEq] at h
              obtain ⟨hs, rfl⟩ := h
              subst hs
              refine ⟨hcur, ?_, ?_, fun heq => hne heq.symm⟩
              · simp [StaticCalls.SetStaticCallTargetCodeAt, StaticCalls.PatchStaticCallAt,
                  StaticCalls.SetFunction]
              · simp [StaticCalls.SetStaticCallTargetCodeAt]

theorem PatchStaticCall_postcondition_witness :
    ∃ caller_code target_function_,
      StackWalker.sample.LookupDartCode ⟨1010, 5000, 5040⟩ = some caller_code ∧
      StaticCalls.sample.GetStaticCallTargetFunctionAt caller_code.raw 1010 =
        some target_function_ ∧
      (((StaticCalls.sample.PatchStaticCallAt 1010 1000).SetStaticCallTargetCodeAt
        Code.sampleOptimized 1010 Code.sampleOptimized).functions target_function_).CurrentCode =
          some Code.sampleOptimized ∧
      ((StaticCalls.sample.PatchStaticCallAt 1010 1000).SetStaticCallTargetCodeAt
        Code.sampleOptimized 1010 Code.sampleOptimized).GetStaticCallTargetAt 1010 = 1000 ∧
      ((StaticCalls.sample.PatchStaticCallAt 1010 1000).SetStaticCallTargetCodeAt
        Code.sampleOptimized 1010 Code.sampleOptimized).GetStaticCallTargetCodeAt
          caller_code.raw 1010 = some Code.sampleOptimized ∧
      StaticCalls.sample.GetStaticCallTargetAt 1010 ≠ 1000 :=
  PatchStaticCall_postcondition Compiler.sample StackWalker.sample ⟨1010, 5000, 5040⟩
    StaticCalls.sample
    ((StaticCalls.sample.PatchStaticCallAt 1010 1000).SetStaticCallTargetCodeAt
      Code.sampleOptimized 1010 Code.sampleOptimized)
    Code.sampleOptimized rfl

/-- What `DeoptimizeAt` does on code that has a function and a deopt table:
it returns, having inserted one call at `pc`, marked the code dead and
switched the function to its unoptimized code if the function had optimized
code. -/
theorem DeoptimizeAt_eq (arch : Arch) (GetLazyDeoptPc : Code → Nat) (state : LazyDeopt)
    (optimized_code : Code) (pc function_ : Nat)
    (hfun : optimized_code.function = some function_)
    (htable : optimized_code.deopt_info_array.isSome = true) :
    ∃ state', DeoptimizeAt arch GetLazyDeoptPc state optimized_code pc = some state' ∧
      state'.InsertCallAt = state.InsertCallAt ++ [(pc, GetLazyDeoptPc optimized_code)] ∧
      (∀ a, state'.is_alive a = if a = optimized_code.raw then false else state.is_alive a) ∧
      state'.unoptimized_code = state.unoptimized_code ∧
      state'.functions =
        (if (state.functions function_).HasOptimizedCode
          then state.SwitchToUnoptimizedCode function_ else state).functions := by
  obtain ⟨table, ht⟩ := Option.isSome_iff_exists.mp htable
  simp only [DeoptimizeAt, GetDeoptInfoAtPc, ht, hfun]
  refine ⟨_, rfl, ?_, ?_, ?_, ?_⟩
  · cases (state.functions function_).HasOptimizedCode <;> rfl
  · intro a
    cases (state.functions function_).HasOptimizedCode <;> rfl
  · cases (state.functions function_).HasOptimizedCode <;> rfl
  · rfl


theorem DeoptimizeAll.OptimizedOnStack_cons (walker : StackWalker) (frame : StackFrame)
    (frames : List StackFrame) (raw : Nat) :
    DeoptimizeAll.OptimizedOnStack walker (frame :: frames) raw ↔
      (∃ code, walker.LookupDartCode frame = some code ∧ code.is_optimized = true ∧
        code.raw = raw) ∨ DeoptimizeAll.OptimizedOnStack walker frames raw := by
  simp [DeoptimizeAll.OptimizedOnStack]

/-- `DeoptimizeAll` on a well-formed stack: it returns, the calls it inserted
are one per frame with optimized code, in stack order, the optimized codes on
the stack are dead and the `is_alive` flag of every other code is as
before. -/
theorem DeoptimizeAll_eq (arch : Arch) (GetLazyDeoptPc : Code → Nat) (walker : StackWalker) :
    ∀ (frames : List StackFrame) (state : LazyDeopt),
      DeoptimizeAll.WellFormed walker frames →
      ∃ state', DeoptimizeAll arch GetLazyDeoptPc walker frames state = some state' ∧
        state'.InsertCallAt =
          state.InsertCallAt ++ DeoptimizeAll.patches GetLazyDeoptPc walker frames ∧
        (∀ raw, DeoptimizeAll.OptimizedOnStack walker frames raw →
          state'.is_alive raw = false) ∧
        (∀ raw, ¬ DeoptimizeAll.OptimizedOnStack walker frames raw →
          state'.is_alive raw = state.is_alive raw) := by
  intro frames
  induction frames with
  | nil =>
    intro state _
    refine ⟨state, rfl, by simp [DeoptimizeAll.patches], ?_, fun _ _ => rfl⟩
    intro raw h
    obtain ⟨f, hf, _⟩ := h
    exact absurd hf (List.not_mem_nil f)
  | cons frame frames ih =>
    intro state hwf
    obtain ⟨code, hcode, hopt⟩ := hwf frame (List.mem_cons_self _ _)
    have hwf' : DeoptimizeAll.WellFormed walker frames :=
      fun f hf => hwf f (List.mem_cons_of_mem _ hf)
    cases hO : code.is_optimized with
    | false =>
      obtain ⟨state', hrun, hcalls, hdead, hkeep⟩ := ih state hwf'
      refine ⟨state', ?_, ?_, ?_, ?_⟩
      · simp only [DeoptimizeAll, hcode, hO, Bool.false_eq_true, ↓reduceIte]
        exact hrun
      · rw [hcalls]
        simp [DeoptimizeAll.patches, hcode, hO]
      · intro raw h
        rw [DeoptimizeAll.OptimizedOnStack_cons] at h
        rcases h with ⟨c, hc, hco, _⟩ | h
        · rw [hcode] at hc
          cases hc
          rw [hO] at hco
          cases hco
        · exact hdead raw h
      · intro raw h
        exact hkeep raw fun h' => h ((DeoptimizeAll.OptimizedOnStack_cons _ _ _ _).mpr (Or.inr h'))
    | true =>
      obtain ⟨hfun, htable⟩ := hopt hO
      obtain ⟨function_, hfun⟩ := Option.isSome_iff_exists.mp hfun
      obtain ⟨state1, hrun1, hcalls1, halive1, -, -⟩ :=
        DeoptimizeAt_eq arch GetLazyDeoptPc state code frame.pc function_ hfun htable
      obtain ⟨state', hrun, hcalls, hdead, hkeep⟩ := ih state1 hwf'
      refine ⟨state', ?_, ?_, ?_, ?_⟩
      · simp only [DeoptimizeAll, hcode, hO, ↓reduceIte, hrun1]
        exact hrun
      · rw [hcalls, hcalls1]
        simp [DeoptimizeAll.patches, hcode, hO]
      · intro raw h
        by_cases hrest : DeoptimizeAll.OptimizedOnStack walker frames raw
        · exact hdead raw hrest
        · rw [hkeep raw hrest, halive1]
          rw [DeoptimizeAll.OptimizedOnStack_cons] at h
          rcases h with ⟨c, hc, _, hraw⟩ | h
          · rw [hcode] at hc
            cases hc
            simp [hraw]
          · exact absurd h hrest
      · intro raw h
        have hrest : ¬ DeoptimizeAll.OptimizedOnStack walker frames raw :=
          fun h' => h ((DeoptimizeAll.OptimizedOnStack_cons _ _ _ _).mpr (Or.inr h'))
        have hne : raw ≠ code.raw := fun he =>
          h ((DeoptimizeAll.OptimizedOnStack_cons _ _ _ _).mpr (Or.inl ⟨code, hcode, hO, he.symm⟩))
        rw [hkeep raw hrest, halive1]
        simp [hne]

/-- C15 -- `DeoptimizeAll`, on any finite stack whose frames have code and
whose optimized codes have a function and a deopt table, returns after one
pass over the frames: it inserts one call per frame with optimized code, at
the pc of the frame and to the lazy-deopt pc of its code, in stack order, and
no other call; it marks the code of every such frame dead.  A frame whose
code is not optimized gets no call inserted at its pc (code being found by
pc) and the `is_alive` flag of its code is as before (a code being known by
its address). -/
theorem DeoptimizeAll_patches_optimized_frames (arch : Arch) (GetLazyDeoptPc : Code → Nat)
    (walker : StackWalker) (frames : List StackFrame) (state : LazyDeopt)
    (hwf : DeoptimizeAll.WellFormed walker frames) :
    ∃ state', DeoptimizeAll arch GetLazyDeoptPc walker frames state = some state' ∧
      state'.InsertCallAt =
        state.InsertCallAt ++ DeoptimizeAll.patches GetLazyDeoptPc walker frames ∧
      (∀ frame ∈ frames, ∀ code, walker.LookupDartCode frame = some code →
        code.is_optimized = true →
        (frame.pc, GetLazyDeoptPc code) ∈ state'.InsertCallAt ∧
          state'.is_alive code.raw = false) ∧
      ((∀ f ∈ frames, ∀ g ∈ frames, f.pc = g.pc →
          walker.LookupDartCode f = walker.LookupDartCode g) →
        ∀ frame ∈ frames, ∀ code, walker.LookupDartCode frame = some code →
          code.is_optimized = false →
          ∀ call ∈ DeoptimizeAll.patches GetLazyDeoptPc walker frames, call.1 ≠ frame.pc) ∧
      ((∀ f ∈ frames, ∀ g ∈ frames, ∀ cf cg, walker.LookupDartCode f = some cf →
          walker.LookupDartCode g = some cg → cf.raw = cg.raw → cf = cg) →
        ∀ frame ∈ frames, ∀ code, walker.LookupDartCode frame = some code →
          code.is_optimized = false → state'.is_alive code.raw = state.is_alive code.raw) := by
  obtain ⟨state', hrun, hcalls, hdead, hkeep⟩ :=
    DeoptimizeAll_eq arch GetLazyDeoptPc walker frames state hwf
  refine ⟨state', hrun, hcalls, ?_, ?_, ?_⟩
  · intro frame hframe code hcode hO
    constructor
    · rw [hcalls]
      apply List.mem_append_right
      simp only [DeoptimizeAll.patches, List.mem_filterMap]
      exact ⟨frame, hframe, by simp [hcode, hO]⟩
    · exact hdead code.raw ⟨frame, hframe, code, hcode, hO, rfl⟩
  · intro hpc frame hframe code hcode hO call hcall heq
    simp only [DeoptimizeAll.patches, List.mem_filterMap] at hcall
    obtain ⟨g, hg, hgc⟩ := hcall
    cases hgcode : walker.LookupDartCode g with
    | none => rw [hgcode] at hgc; cases hgc
    | some cg =>
      rw [hgcode] at hgc
      simp only at hgc
      split at hgc
      · rename_i hgO
        cases hgc
        have := hpc g hg frame hframe heq
        rw [hgcode, hcode] at this
        cases this
        rw [hO] at hgO
        cases hgO
      · cases hgc
  · intro hraw frame hframe code hcode hO
    apply hkeep
    rintro ⟨g, hg, cg, hgcode, hgO, hgraw⟩
    have := hraw g hg frame hframe cg code hgcode hcode hgraw
    subst this
    rw [hO] at hgO
    cases hgO

theorem DeoptimizeAll_patches_optimized_frames_witness :
    ∃ state', DeoptimizeAll Arch.sample (fun code => code.EntryPoint + 900)
        StackWalker.sampleMixed [⟨1010, 5000, 5040⟩, ⟨3010, 5100, 5140⟩] LazyDeopt.sample =
          some state' ∧
      state'.InsertCallAt = [(1010, 1900)] ∧
      state'.is_alive 2007 = false ∧ state'.is_alive 1007 = true ∧
      ∀ call ∈ DeoptimizeAll.patches (fun code => code.EntryPoint + 900)
        StackWalker.sampleMixed [⟨1010, 5000, 5040⟩, ⟨3010, 5100, 5140⟩], call.1 ≠ 3010 := by
  obtain ⟨state', hrun, hcalls, hopt, hunpatched, hunopt⟩ :=
    DeoptimizeAll_patches_optimized_frames Arch.sample (fun code => code.EntryPoint + 900)
      StackWalker.sampleMixed [⟨1010, 5000, 5040⟩, ⟨3010, 5100, 5140⟩] LazyDeopt.sample
      (by
        intro frame hframe
        simp only [List.mem_cons, List.mem_singleton, List.not_mem_nil, or_false] at hframe
        rcases hframe with rfl | rfl
        · exact ⟨Code.sampleOptimized, rfl, fun _ => ⟨rfl, rfl⟩⟩
        · exact ⟨Code.sampleUnoptimized, rfl, fun h => by cases h⟩)
  refine ⟨state', hrun, hcalls, ?_, ?_, ?_⟩
  · exact (hopt ⟨1010, 5000, 5040⟩ (List.mem_cons_self _ _) Code.sampleOptimized rfl rfl).2
  · refine hunopt ?_ ⟨3010, 5100, 5140⟩ (List.mem_cons_of_mem _ (List.mem_cons_self _ _))
      Code.sampleUnoptimized rfl rfl
    intro f hf g hg cf cg hcf hcg hraw
    simp only [List.mem_cons, List.mem_singleton, List.not_mem_nil, or_false] at hf hg
    rcases hf with rfl | rfl <;> rcases hg with rfl | rfl <;>
      (cases hcf; cases hcg; first | rfl | (exact absurd hraw (by decide)))
  · refine hunpatched ?_ ⟨3010, 5100, 5140⟩ (List.mem_cons_of_mem _ (List.mem_cons_self _ _))
      Code.sampleUnoptimized rfl rfl
    intro f hf g hg hpc
    simp only [List.mem_cons, List.mem_singleton, List.not_mem_nil, or_false] at hf hg
    rcases hf with rfl | rfl <;> rcases hg with rfl | rfl <;>
      first | rfl | (exact absurd hpc (by decide))

theorem ContainsCid_iff (cids : List Int) (cid : Int) :
    ContainsCid cids cid = true ↔ cid ∈ cids := by
  induction cids with
  | nil => simp [ContainsCid]
  | cons c cids ih =>
    simp only [ContainsCid, List.mem_cons]
    by_cases h : c = cid
    · simp [h]
    · simp only [h, ↓reduceIte, ih]
      constructor
      · exact Or.inr
      · rintro (h' | h')
        · exact absurd h'.symm h
        · exact h'

/-- On a stack with at least one frame the loop of `DeoptimizeIfOwner` never
leaves: whatever the fuel, it does not return. -/
theorem DeoptimizeIfOwner.loop_none (arch : Arch) (GetLazyDeoptPc : Code → Nat)
    (Owner_id : Nat → Int) (walker : StackWalker) (classes : List Int) (frame : StackFrame) :
    ∀ (fuel : Nat) (state : LazyDeopt),
      DeoptimizeIfOwner.loop arch GetLazyDeoptPc Owner_id walker classes fuel (some frame)
        state = none := by
  intro fuel
  induction fuel with
  | zero => intro state; rfl
  | succ n ih =>
    intro state
    simp only [DeoptimizeIfOwner.loop]
    split
    · rfl
    · split
      · split
        · rfl
        · split
          · split
            · rfl
            · exact ih _
          · exact ih _
      · exact ih _

/-- C16 (the code at the failing input) -- `DeoptimizeIfOwner` on a stack of
one frame that runs unoptimized code: the body of the loop does nothing and
does not advance `frame`, so the loop is executed again and again; with no
amount of fuel does the entry return.  On an empty stack it returns at
once. -/
theorem DeoptimizeIfOwner_never_returns (fuel : Nat) :
    DeoptimizeIfOwner Arch.sample (fun code => code.EntryPoint + 900) (fun _ => 9)
        StackWalker.sampleMixed [9] fuel [⟨3010, 5100, 5140⟩] LazyDeopt.sample = none ∧
    (DeoptimizeIfOwner Arch.sample (fun code => code.EntryPoint + 900) (fun _ => 9)
        StackWalker.sampleMixed [9] fuel [] LazyDeopt.sample).isSome = true :=
  ⟨DeoptimizeIfOwner.loop_none _ _ _ _ _ _ fuel _, by cases fuel <;> rfl⟩

/-- C17 (as stated, refuted) -- The function at address 7 is bound to
`Code.sampleReoptimized`, an optimized code other than the code being
deoptimized; `DeoptimizeAt` on `Code.sampleOptimized` nevertheless switches
the function to its unoptimized code. -/
theorem DeoptimizeAt_switches_other_optimized_code :
    (LazyDeopt.sampleReoptimized.functions 7).CurrentCode = some Code.sampleReoptimized ∧
    Code.sampleReoptimized ≠ Code.sampleOptimized ∧
    (DeoptimizeAt Arch.sample (fun code => code.EntryPoint + 900) LazyDeopt.sampleReoptimized
        Code.sampleOptimized 1010).map (fun state' => (state'.functions 7).CurrentCode) =
      some (some Code.sampleUnoptimized) ∧
    Code.sampleUnoptimized ≠ Code.sampleReoptimized := by
  decide

/-- C17 (amended) -- `DeoptimizeAt` on code that has a function and a deopt
table switches the owning function back to its unoptimized code exactly when
the current code of the function is optimized code, be it the code being
deoptimized or another optimized code: then the current code afterwards is
the unoptimized code of the function.  If the function has no code or its
current code is unoptimized, its current code is left unchanged.  In
particular a function that still points at the optimized code being
deoptimized is switched. -/
theorem DeoptimizeAt_switches_iff_optimized (arch : Arch) (GetLazyDeoptPc : Code → Nat)
    (state : LazyDeopt) (optimized_code : Code) (pc function_ : Nat)
    (hfun : optimized_code.function = some function_)
    (htable : optimized_code.deopt_info_array.isSome = true) :
    ∃ state', DeoptimizeAt arch GetLazyDeoptPc state optimized_code pc = some state' ∧
      ((state.functions function_).HasOptimizedCode = true →
        (state'.functions function_).CurrentCode = state.unoptimized_code function_) ∧
      ((state.functions function_).HasOptimizedCode = false →
        (state'.functions function_).CurrentCode = (state.functions function_).CurrentCode) ∧
      ((state.functions function_).CurrentCode = some optimized_code →
        optimized_code.is_optimized = true →
        (state'.functions function_).CurrentCode = state.unoptimized_code function_) := by
  obtain ⟨state', hrun, -, -, -, hfuns⟩ :=
    DeoptimizeAt_eq arch GetLazyDeoptPc state optimized_code pc function_ hfun htable
  have hyes : (state.functions function_).HasOptimizedCode = true →
      (state'.functions function_).CurrentCode = state.unoptimized_code function_ := by
    intro h
    rw [hfuns, h]
    simp [LazyDeopt.SwitchToUnoptimizedCode, Function.CurrentCode]
  refine ⟨state', hrun, hyes, ?_, ?_⟩
  · intro h
    rw [hfuns, h]
    rfl
  · intro hcur hO
    apply hyes
    simp only [Function.CurrentCode] at hcur
    simp [Function.HasOptimizedCode, hcur, hO]

theorem DeoptimizeAt_switches_iff_optimized_witness :
    (∃ state', DeoptimizeAt Arch.sample (fun code => code.EntryPoint + 900) LazyDeopt.sample
        Code.sampleOptimized 1010 = some state' ∧
      (state'.functions 7).CurrentCode = some Code.sampleUnoptimized) ∧
    (∃ state', DeoptimizeAt Arch.sample (fun code => code.EntryPoint + 900)
        { LazyDeopt.sample with functions := fun raw =>
            { FunctionStore.sample raw with code := none } }
        Code.sampleOptimized 1010 = some state' ∧
      (state'.functions 7).CurrentCode = none) := by
  constructor
  · obtain ⟨state', hrun, hyes, -, hthis⟩ :=
      DeoptimizeAt_switches_iff_optimized Arch.sample (fun code => code.EntryPoint + 900)
        LazyDeopt.sample Code.sampleOptimized 1010 7 rfl rfl
    have h1 := hyes rfl
    have h2 := hthis rfl rfl
    exact ⟨state', hrun, h1⟩
  · obtain ⟨state', hrun, -, hno, -⟩ :=
      DeoptimizeAt_switches_iff_optimized Arch.sample (fun code => code.EntryPoint + 900)
        { LazyDeopt.sample with functions := fun raw =>
            { FunctionStore.sample raw with code := none } }
        Code.sampleOptimized 1010 7 rfl rfl
    exact ⟨state', hrun, hno rfl⟩

/-! ## Properties of the allocation entries -/

theorem Heap.SetTypeArguments_self (heap : Heap) (addr : Nat) (value : AbstractTypeArguments) :
    ((heap.SetTypeArguments addr value) addr).type_arguments = value := by
  simp [Heap.SetTypeArguments]

/-- On a class with type arguments `AllocateObject` attaches what
`AllocateObjectWithBoundsCheck` has in its local `type_arguments` when it
checks the bounds. -/
theorem AllocateObject_eq (q : TypeArgumentQueries) (heap : Heap)
    (new_instance new_type_arguments : Nat) (cls : Class)
    (type_arguments : AbstractTypeArguments) (arg2 : Instantiator)
    (hcls : cls.HasTypeArguments = true) :
    AllocateObject q heap new_instance new_type_arguments cls type_arguments arg2 =
      ((heap.New new_instance cls).SetTypeArguments new_instance
        (AllocateObjectWithBoundsCheck.type_arguments q new_type_arguments type_arguments
          arg2).1, new_instance) := by
  cases arg2 with
  | kNoInstantiator =>
    simp [AllocateObject, AllocateObjectWithBoundsCheck.type_arguments, hcls]
  | type_arguments instantiator =>
    simp only [AllocateObject, AllocateObjectWithBoundsCheck.type_arguments, hcls, Bool.not_true,
      Bool.false_eq_true, ↓reduceIte]

/-- C18 (as stated, refuted) -- `AllocateObject` on a class with type
arguments and a supplied null instantiator attaches the lazy pair of the
uninstantiated vector and the null instantiator, not the (null) instantiator
itself. -/
theorem AllocateObject_null_instantiator_wraps :
    ((AllocateObject TypeArgumentQueries.sample Heap.sample 50 60 ⟨9, true⟩
        (.TypeArguments 40 false) (.type_arguments .null)).1 50).type_arguments =
      .InstantiatedTypeArguments 60 (.TypeArguments 40 false) .null ∧
    AbstractTypeArguments.InstantiatedTypeArguments 60 (.TypeArguments 40 false) .null ≠
      AbstractTypeArguments.null := by
  decide

/-- C18 (amended) -- `AllocateObject` for a class with type arguments and a
supplied instantiator returns the new instance of the class, and the type
arguments attached to it are the instantiator itself when the instantiator
is neither null nor a plain `TypeArguments` vector and the uninstantiated
type arguments have the uninstantiated-identity property and the length of
the instantiator; in every other case, the null instantiator included, they
are the lazy `InstantiatedTypeArguments` pair of the uninstantiated vector
and the instantiator. -/
theorem AllocateObject_type_arguments (q : TypeArgumentQueries) (heap : Heap)
    (new_instance new_type_arguments : Nat) (cls : Class)
    (type_arguments instantiator : AbstractTypeArguments)
    (hcls : cls.HasTypeArguments = true) :
    (AllocateObject q heap new_instance new_type_arguments cls type_arguments
      (.type_arguments instantiator)).2 = new_instance ∧
    ((AllocateObject q heap new_instance new_type_arguments cls type_arguments
      (.type_arguments instantiator)).1 new_instance).clazz = cls ∧
    ((AllocateObject q heap new_instance new_type_arguments cls type_arguments
      (.type_arguments instantiator)).1 new_instance).type_arguments =
      (if instantiator.IsNull = false ∧ instantiator.IsTypeArguments = false ∧
          q.IsUninstantiatedIdentity type_arguments = true ∧
          q.Length instantiator = q.Length type_arguments
        then instantiator
        else .InstantiatedTypeArguments new_type_arguments type_arguments instantiator) := by
  rw [AllocateObject_eq q heap new_instance new_type_arguments cls type_arguments _ hcls]
  refine ⟨rfl, ?_, ?_⟩
  · simp [Heap.SetTypeArguments, Heap.New]
  · rw [Heap.SetTypeArguments_self]
    simp only [AllocateObjectWithBoundsCheck.type_arguments]
    cases hn : instantiator.IsNull
    · cases ht : instantiator.IsTypeArguments
      · cases hi : q.IsUninstantiatedIdentity type_arguments
        · simp
        · by_cases hl : q.Length instantiator = q.Length type_arguments
          · simp [hl]
          · simp [hl]
      · simp
    · simp

theorem AllocateObject_type_arguments_witness :
    (AllocateObject TypeArgumentQueries.sample Heap.sample 50 60 ⟨9, true⟩
      (.TypeArguments 40 false)
      (.type_arguments (.InstantiatedTypeArguments 70 (.TypeArguments 71 false) .null))).2 = 50 ∧
    ((AllocateObject TypeArgumentQueries.sample Heap.sample 50 60 ⟨9, true⟩
      (.TypeArguments 40 false)
      (.type_arguments (.InstantiatedTypeArguments 70 (.TypeArguments 71 false) .null))).1
        50).clazz = ⟨9, true⟩ ∧
    ((AllocateObject TypeArgumentQueries.sample Heap.sample 50 60 ⟨9, true⟩
      (.TypeArguments 40 false)
      (.type_arguments (.InstantiatedTypeArguments 70 (.TypeArguments 71 false) .null))).1
        50).type_arguments = .InstantiatedTypeArguments 70 (.TypeArguments 71 false) .null :=
  AllocateObject_type_arguments TypeArgumentQueries.sample Heap.sample 50 60 ⟨9, true⟩
    (.TypeArguments 40 false) (.InstantiatedTypeArguments 70 (.TypeArguments 71 false) .null) rfl

/-- C19 -- For a class with type arguments and any type arguments and
instantiator (or `kNoInstantiator`), if the type arguments that
`AllocateObject` attaches are null or within the bounds of the class (checked
against the bounds instantiator of `AllocateObjectWithBoundsCheck`),
`AllocateObjectWithBoundsCheck` returns normally with the same heap and the
same instance as `AllocateObject`: a new instance of the class with the same
attached type arguments. -/
theorem AllocateObjectWithBoundsCheck_eq_AllocateObject (q : TypeArgumentQueries)
    (walker : StackWalker) (pc_descriptors : Code → Option (List PcDescriptor))
    (caller_frame : Option StackFrame) (heap : Heap) (new_instance new_type_arguments : Nat)
    (cls : Class) (type_arguments : AbstractTypeArguments) (arg2 : Instantiator)
    (hcls : cls.HasTypeArguments = true)
    (hok : ((AllocateObject q heap new_instance new_type_arguments cls type_arguments arg2).1
        new_instance).type_arguments.IsNull = true ∨
      (q.IsWithinBoundsOf
        ((AllocateObject q heap new_instance new_type_arguments cls type_arguments arg2).1
          new_instance).type_arguments cls
        (AllocateObjectWithBoundsCheck.type_arguments q new_type_arguments type_arguments
          arg2).2).1 = true) :
    AllocateObjectWithBoundsCheck q walker pc_descriptors caller_frame heap new_instance
        new_type_arguments cls type_arguments arg2 =
      some ((AllocateObject q heap new_instance new_type_arguments cls type_arguments arg2).1,
        .returned (AllocateObject q heap new_instance new_type_arguments cls type_arguments
          arg2).2) := by
  rw [AllocateObject_eq q heap new_instance new_type_arguments cls type_arguments arg2 hcls]
    at hok ⊢
  rw [Heap.SetTypeArguments_self] at hok
  simp only [AllocateObjectWithBoundsCheck]
  rcases hok with hnull | hwithin
  · simp [hnull]
  · cases hn : (AllocateObjectWithBoundsCheck.type_arguments q new_type_arguments type_arguments
      arg2).1.IsNull <;> simp [hwithin]

theorem AllocateObjectWithBoundsCheck_eq_AllocateObject_witness :
    AllocateObjectWithBoundsCheck TypeArgumentQueries.sample StackWalker.sample
        PcDescriptor.sample (some ⟨1010, 5000, 5040⟩) Heap.sample 50 60 ⟨9, true⟩
        (.TypeArguments 40 false) (.type_arguments .null) =
      some ((AllocateObject TypeArgumentQueries.sample Heap.sample 50 60 ⟨9, true⟩
          (.TypeArguments 40 false) (.type_arguments .null)).1,
        .returned (AllocateObject TypeArgumentQueries.sample Heap.sample 50 60 ⟨9, true⟩
          (.TypeArguments 40 false) (.type_arguments .null)).2) :=
  AllocateObjectWithBoundsCheck_eq_AllocateObject TypeArgumentQueries.sample StackWalker.sample
    PcDescriptor.sample (some ⟨1010, 5000, 5040⟩) Heap.sample 50 60 ⟨9, true⟩
    (.TypeArguments 40 false) (.type_arguments .null) rfl (Or.inr rfl)

theorem GetCallerLocation.scan_eq (pc : Nat) (descriptors : List PcDescriptor) :
    GetCallerLocation.scan pc descriptors =
      match descriptors.find? (fun descriptor => decide (descriptor.PC = pc)) with
      | some descriptor => descriptor.TokenPos
      | none => -1 := by
  induction descriptors with
  | nil => rfl
  | cons d ds ih =>
    simp only [GetCallerLocation.scan, List.find?_cons]
    by_cases h : d.PC = pc
    · simp [h]
    · simp [h, ih]

/-- C20 -- With a caller frame whose code has PC descriptors and a bounds
check that reports a malformed error whenever it fails,
`AllocateObjectWithBoundsCheck` throws if and only if the resulting type
arguments are non-null and not within the bounds of the class.  What it
throws then is the dynamic type error with the token position of the first
PC descriptor of the caller code whose pc is the pc of the caller frame, or
-1 when no descriptor has that pc, with empty source-type, destination-type
and destination names and with the message of the malformed error; the new
instance is left with a null type-arguments slot. -/
theorem AllocateObjectWithBoundsCheck_throws_iff (q : TypeArgumentQueries)
    (walker : StackWalker) (pc_descriptors : Code → Option (List PcDescriptor))
    (caller_frame : StackFrame) (code : Code) (descriptors : List PcDescriptor) (heap : Heap)
    (new_instance new_type_arguments : Nat) (cls : Class)
    (type_arguments : AbstractTypeArguments) (arg2 : Instantiator)
    (type_arguments' bounds_instantiator : AbstractTypeArguments) (within : Bool)
    (malformed_error : Option Error)
    (hcode : walker.LookupDartCode caller_frame = some code)
    (hdescriptors : pc_descriptors code = some descriptors)
    (hlocals : AllocateObjectWithBoundsCheck.type_arguments q new_type_arguments type_arguments
      arg2 = (type_arguments', bounds_instantiator))
    (hwithin : q.IsWithinBoundsOf type_arguments' cls bounds_instantiator =
      (within, malformed_error))
    (herror : within = false → malformed_error.isSome = true) :
    ((∃ heap' exception, AllocateObjectWithBoundsCheck q walker pc_descriptors
        (some caller_frame) heap new_instance new_type_arguments cls type_arguments arg2 =
          some (heap', .thrown exception)) ↔
      (type_arguments'.IsNull = false ∧ within = false)) ∧
    (type_arguments'.IsNull = false → within = false →
      AllocateObjectWithBoundsCheck q walker pc_descriptors (some caller_frame) heap
          new_instance new_type_arguments cls type_arguments arg2 =
        some (heap.New new_instance cls, .thrown (.TypeError
          ⟨(match descriptors.find? (fun descriptor => decide (descriptor.PC = caller_frame.pc))
              with
              | some descriptor => descriptor.TokenPos
              | none => -1),
            "", "", "", malformed_error.map fun e => e.message⟩)) ∧
      ((heap.New new_instance cls) new_instance).type_arguments = .null) := by
  have hloc : GetCallerLocation walker pc_descriptors (some caller_frame) =
      some (GetCallerLocation.scan caller_frame.pc descriptors) := by
    simp [GetCallerLocation, hcode, hdescriptors]
  have hthrow : type_arguments'.IsNull = false → within = false →
      AllocateObjectWithBoundsCheck q walker pc_descriptors (some caller_frame) heap
          new_instance new_type_arguments cls type_arguments arg2 =
        some (heap.New new_instance cls, .thrown (.TypeError
          ⟨GetCallerLocation.scan caller_frame.pc descriptors,
            "", "", "", malformed_error.map fun e => e.message⟩)) := by
    intro hn hw
    obtain ⟨error, he⟩ := Option.isSome_iff_exists.mp (herror hw)
    simp [AllocateObjectWithBoundsCheck, hlocals, hwithin, hn, hw, hloc, he]
  constructor
  · constructor
    · rintro ⟨heap', exception, h⟩
      cases hn : type_arguments'.IsNull
      · cases hw : within
        · exact ⟨rfl, rfl⟩
        · simp [AllocateObjectWithBoundsCheck, hlocals, hwithin, hn, hw] at h
      · simp [AllocateObjectWithBoundsCheck, hlocals, hn] at h
    · rintro ⟨hn, hw⟩
      exact ⟨_, _, hthrow hn hw⟩
  · intro hn hw
    rw [← GetCallerLocation.scan_eq]
    exact ⟨hthrow hn hw, by simp [Heap.New]⟩

theorem AllocateObjectWithBoundsCheck_throws_iff_witness :
    AllocateObjectWithBoundsCheck TypeArgumentQueries.sample StackWalker.sample
        PcDescriptor.sample (some ⟨1010, 5000, 5040⟩) Heap.sample 50 60 ⟨9, true⟩
        (.TypeArguments 140 false) .kNoInstantiator =
      some (Heap.sample.New 50 ⟨9, true⟩,
        .thrown (.TypeError ⟨42, "", "", "", some "type out of bounds"⟩)) ∧
    ((Heap.sample.New 50 ⟨9, true⟩) 50).type_arguments = .null :=
  (AllocateObjectWithBoundsCheck_throws_iff TypeArgumentQueries.sample StackWalker.sample
    PcDescriptor.sample ⟨1010, 5000, 5040⟩ Code.sampleOptimized [⟨1000, 3⟩, ⟨1010, 42⟩]
    Heap.sample 50 60 ⟨9, true⟩ (.TypeArguments 140 false) .kNoInstantiator
    (.TypeArguments 140 false) .null false (some ⟨"type out of bounds"⟩)
    rfl rfl rfl rfl (fun _ => rfl)).2 rfl rfl

/-! ## Properties of the deopt-table lookup and of cooling -/

/-- The scan returns the deopt info and the reason of the entry at index `i`
when that entry matches the pc and no entry before it does. -/
theorem GetDeoptInfoAtPc.scan_first (arch : Arch) (code_entry pc : Nat) :
    ∀ (table : List DeoptTableEntry) (i : Nat) (entry : DeoptTableEntry),
      table[i]? = some entry → pc = arch.uword (code_entry + entry.offset) →
      (∀ j e, j < i → table[j]? = some e → pc ≠ arch.uword (code_entry + e.offset)) →
      GetDeoptInfoAtPc.scan arch code_entry pc table = (some entry.deopt_info, entry.reason) := by
  intro table
  induction table with
  | nil => intro i entry h; simp at h
  | cons e table ih =>
    intro i entry h hpc hbefore
    cases i with
    | zero =>
      simp only [List.getElem?_cons_zero, Option.some.injEq] at h
      subst h
      rw [GetDeoptInfoAtPc.scan, if_pos hpc]
    | succ i =>
      have hne := hbefore 0 e (by omega) (List.getElem?_cons_zero ..)
      rw [GetDeoptInfoAtPc.scan, if_neg hne]
      exact ih i entry (by simpa using h) hpc
        (fun j e' hj he' => hbefore (j + 1) e' (by omega) (by simpa using he'))

/-- The scan ends on the null deopt info and the reason Unknown when no entry
matches the pc. -/
theorem GetDeoptInfoAtPc.scan_none (arch : Arch) (code_entry pc : Nat) :
    ∀ (table : List DeoptTableEntry),
      (∀ e ∈ table, pc ≠ arch.uword (code_entry + e.offset)) →
      GetDeoptInfoAtPc.scan arch code_entry pc table = (none, arch.kDeoptUnknown) := by
  intro table
  induction table with
  | nil => intro _; rfl
  | cons e table ih =>
    intro h
    rw [GetDeoptInfoAtPc.scan, if_neg (h e (List.mem_cons_self _ _))]
    exact ih (fun e' he' => h e' (List.mem_cons_of_mem _ he'))

/-- The value of a `uword` expression that does not wrap around. -/
theorem Arch.uword_eq_toNat (arch : Arch) (x : Int) (hlo : 0 ≤ x)
    (hhi : x < 2 ^ arch.kBitsPerWord) : arch.uword x = x.toNat := by
  unfold Arch.uword
  rw [Int.emod_eq_of_lt hlo hhi]

/-- C28 -- `GetDeoptInfoAtPc`, on a code object with a deopt table, scans the
table from index 0 and returns the deopt info and the reason of the first
entry whose pc offset added to the entry point of the code gives the pc (in
`uword` arithmetic, which is the plain sum whenever the sum is an address);
when no entry matches, and so for the empty table, it returns the null deopt
info and the reason Unknown, whatever the entries read on the way held. -/
theorem GetDeoptInfoAtPc_first_match (arch : Arch) (code : Code) (pc : Nat)
    (table : List DeoptTableEntry) (htable : code.deopt_info_array = some table) :
    (∀ (i : Nat) (entry : DeoptTableEntry), table[i]? = some entry →
      pc = arch.uword (code.EntryPoint + entry.offset) →
      (∀ j e, j < i → table[j]? = some e → pc ≠ arch.uword (code.EntryPoint + e.offset)) →
      GetDeoptInfoAtPc arch code pc = some (some entry.deopt_info, entry.reason)) ∧
    ((∀ e ∈ table, pc ≠ arch.uword (code.EntryPoint + e.offset)) →
      GetDeoptInfoAtPc arch code pc = some (none, arch.kDeoptUnknown)) ∧
    (table = [] → GetDeoptInfoAtPc arch code pc = some (none, arch.kDeoptUnknown)) ∧
    (∀ e : DeoptTableEntry, 0 ≤ (code.EntryPoint : Int) + e.offset →
      (code.EntryPoint : Int) + e.offset < 2 ^ arch.kBitsPerWord →
      (pc = arch.uword (code.EntryPoint + e.offset) ↔
        (code.EntryPoint : Int) + e.offset = pc)) := by
  refine ⟨fun i entry h hpc hbefore => ?_, fun h => ?_, fun h => ?_, fun e hlo hhi => ?_⟩
  · simp only [GetDeoptInfoAtPc, htable]
    rw [GetDeoptInfoAtPc.scan_first arch _ _ table i entry h hpc hbefore]
  · simp only [GetDeoptInfoAtPc, htable]
    rw [GetDeoptInfoAtPc.scan_none arch _ _ table h]
  · subst h
    simp only [GetDeoptInfoAtPc, htable]
    rfl
  · rw [Arch.uword_eq_toNat arch _ hlo hhi]
    omega

theorem GetDeoptInfoAtPc_first_match_witness :
    GetDeoptInfoAtPc Arch.sample Code.sampleOptimized 1010 =
        some (some ⟨6, [⟨1, 0⟩, ⟨1, 1⟩, ⟨2, 0⟩, ⟨2, 1⟩, ⟨3, 0⟩, ⟨3, 1⟩]⟩, 3) ∧
      GetDeoptInfoAtPc Arch.sample Code.sampleReoptimized 1010 = some (none, 0) :=
  ⟨(GetDeoptInfoAtPc_first_match Arch.sample Code.sampleOptimized 1010 _ rfl).1 0 _ rfl
      (by decide) (fun j e hj _ => absurd hj (Nat.not_lt_zero j)),
    (GetDeoptInfoAtPc_first_match Arch.sample Code.sampleReoptimized 1010 _ rfl).2.2.1 rfl⟩

/-- C29 -- When `OptimizeInvokedFunction` runs with the debugger inactive and
declines to optimize (the deoptimization counter has reached
`deoptimization_counter_threshold`, or the optimization filter is set and is
not part of the function's name, or the function is not optimizable), it
returns without calling the compiler, sets the usage counter to exactly
-100000000 and leaves the current code and the deoptimization counter of the
function as they were.  Counting up from there, the counter is below 2000,
the default `optimization_counter_threshold`, before each of the next
100002000 increments, and the 100002000th increment brings it to 2000. -/
theorem OptimizeInvokedFunction_cools_rejected (arch : Arch) (compiler : Compiler)
    (FLAG_deoptimization_counter_threshold : Int) (FLAG_optimization_filter : Option (List Char))
    (FLAG_reoptimization_counter_threshold : Int) (function : Function)
    (hdeclines : function.deoptimization_counter ≥ FLAG_deoptimization_counter_threshold ∨
      (∃ filter, FLAG_optimization_filter = some filter ∧
        ¬ filter <:+: function.ToFullyQualifiedCString) ∨
      function.is_optimizable = false) :
    OptimizeInvokedFunction arch compiler false FLAG_deoptimization_counter_threshold
        FLAG_optimization_filter FLAG_reoptimization_counter_threshold function =
      ⟨function.set_usage_counter (-100000000), [], .returned ()⟩ ∧
    (function.set_usage_counter (-100000000)).usage_counter = -100000000 ∧
    (function.set_usage_counter (-100000000)).CurrentCode = function.CurrentCode ∧
    (function.set_usage_counter (-100000000)).deoptimization_counter =
      function.deoptimization_counter ∧
    (∀ k : Nat, k < 100002000 →
      (function.set_usage_counter (-100000000)).usage_counter + k < 2000) ∧
    (function.set_usage_counter (-100000000)).usage_counter + 100002000 = 2000 := by
  have hfilter : (FLAG_optimization_filter.isSome &&
      (FLAG_optimization_filter.bind fun filter =>
        strstr function.ToFullyQualifiedCString filter).isNone) = true ↔
      ∃ filter, FLAG_optimization_filter = some filter ∧
        ¬ filter <:+: function.ToFullyQualifiedCString := by
    cases FLAG_optimization_filter with
    | none => simp
    | some filter =>
      simp only [Option.isSome_some, Option.bind, Bool.true_and, Option.some.injEq,
        exists_eq_left']
      rw [← strstr_isSome_iff]
      cases strstr function.ToFullyQualifiedCString filter <;> simp
  refine ⟨?_, rfl, rfl, rfl, fun k hk => ?_, rfl⟩
  · unfold OptimizeInvokedFunction
    simp only [Bool.false_eq_true, ↓reduceIte]
    by_cases hd : function.deoptimization_counter ≥ FLAG_deoptimization_counter_threshold
    · rw [if_pos hd]
    · rw [if_neg hd]
      by_cases hf : (FLAG_optimization_filter.isSome &&
          (FLAG_optimization_filter.bind fun filter =>
            strstr function.ToFullyQualifiedCString filter).isNone) = true
      · rw [if_pos hf]
      · rw [if_neg hf]
        have hopt : function.is_optimizable = false := by
          rcases hdeclines with h | h | h
          · exact absurd h hd
          · exact absurd (hfilter.mpr h) hf
          · exact h
        simp [hopt]
  · show (-100000000 : Int) + k < 2000
    omega

theorem OptimizeInvokedFunction_cools_rejected_witness :
    (OptimizeInvokedFunction Arch.sample Compiler.sample false 16 (some "main".toList) 2000
        (FunctionStore.sample 7)).function.usage_counter = -100000000 :=
  congrArg (fun r => r.function.usage_counter)
    (OptimizeInvokedFunction_cools_rejected Arch.sample Compiler.sample 16 (some "main".toList)
      2000 (FunctionStore.sample 7) (Or.inr (Or.inl ⟨_, rfl, by decide⟩))).1

/-! ## Properties of the frame copy -/

/-- C27 -- `CopyFrame` copies exactly `1 + (fp - sp) / word_size + 1 + 1 +
num_args` consecutive words, the first of them at address `sp - word_size`,
into the frame-copy buffer of the isolate and records that count as the size
of the buffer; `num_args` is 0 if the function has optional parameters and
its number of fixed parameters otherwise.  Word `i` of the buffer is the word
at `sp - word_size + i * word_size`.  The frame size that
`DeoptimizeWithDeoptInfo` hands to the deoptimization context for the same
frame is that count plus one.  The frame lies in the address space
(`word_size ≤ sp ≤ fp < 2 ^ bits`) and the frame size is an `intptr_t`
value. -/
theorem CopyFrame_copies (arch : Arch) (functions : FunctionStore) (memory : Memory)
    (isolate : Isolate) (optimized_code : Code) (frame : StackFrame) (function_ : Nat)
    (hw : 0 < arch.kWordSize) (hfun : optimized_code.function = some function_)
    (hsp : arch.kWordSize ≤ frame.sp) (hfp : frame.sp ≤ frame.fp)
    (hfpw : (frame.fp : Int) < 2 ^ arch.kBitsPerWord)
    (hargs : 0 ≤ (functions function_).num_fixed_parameters)
    (hsize : (1 + ((frame.fp - frame.sp) / arch.kWordSize : Nat) + 3 +
      (if (functions function_).HasOptionalParameters then 0
        else (functions function_).num_fixed_parameters) : Int) <
      2 ^ (arch.kBitsPerWord - 1)) :
    ∃ frame_copy : List Int,
      CopyFrame arch functions memory isolate optimized_code frame =
        some { isolate with
          deopt_frame_copy := some frame_copy,
          deopt_frame_copy_size :=
            1 + ((frame.fp - frame.sp) / arch.kWordSize : Nat) + 1 + 1 +
              (if (functions function_).HasOptionalParameters then 0
                else (functions function_).num_fixed_parameters) } ∧
      (frame_copy.length : Int) =
        1 + ((frame.fp - frame.sp) / arch.kWordSize : Nat) + 1 + 1 +
          (if (functions function_).HasOptionalParameters then 0
            else (functions function_).num_fixed_parameters) ∧
      (∀ i : Nat, i < frame_copy.length →
        frame_copy[i]? =
          some (memory.word (frame.sp - arch.kWordSize + i * arch.kWordSize))) ∧
      ∀ (σ : Type) (ops : DeoptInstructions σ) (deopt_reason : Int),
        DeoptimizeWithDeoptInfo.deopt_context arch ops functions optimized_code frame
            deopt_reason =
          some (ops.DeoptimizationContext (frame.sp - arch.kWordSize)
            ((frame_copy.length : Int) + 1) optimized_code.object_table
            (if (functions function_).HasOptionalParameters then 0
              else (functions function_).num_fixed_parameters) deopt_reason) := by
  generalize hn : (if (functions function_).HasOptionalParameters then (0 : Int)
    else (functions function_).num_fixed_parameters) = num_args at hsize ⊢
  generalize hq : (frame.fp - frame.sp) / arch.kWordSize = q at hsize ⊢
  have hq0 : (0 : Int) ≤ (q : Int) := Int.natCast_nonneg q
  have hn0 : 0 ≤ num_args := by
    rw [← hn]; split
    · exact le_refl _
    · exact hargs
  have hpow : (2 : Int) ^ arch.kBitsPerWord = 2 * 2 ^ (arch.kBitsPerWord - 1) := by
    have hb : arch.kBitsPerWord = (arch.kBitsPerWord - 1) + 1 := by
      unfold Arch.kBitsPerWord; omega
    conv_lhs => rw [hb]
    rw [pow_succ]; ring
  have hB : (0 : Int) < 2 ^ (arch.kBitsPerWord - 1) := by positivity
  have hdiff : arch.uword ((frame.fp : Int) - frame.sp) = frame.fp - frame.sp := by
    rw [Arch.uword_eq_toNat arch _ (by omega) (by omega)]
    omega
  have hstart : arch.uword ((frame.sp : Int) - arch.kWordSize) = frame.sp - arch.kWordSize := by
    rw [Arch.uword_eq_toNat arch _ (by omega) (by omega)]
    omega
  have hsz : arch.intptr_t (1 + (q : Int) + 1 + 1 +
      num_args) = 1 + (q : Int) + 1 + 1 + num_args :=
    Arch.intptr_t_eq_self arch hw _ (by omega) (by omega)
  have hsz3 : arch.intptr_t (1 + (q : Int) + 3 + num_args) = 1 + (q : Int) + 3 + num_args :=
    Arch.intptr_t_eq_self arch hw _ (by omega) hsize
  refine ⟨(List.range (1 + (q : Int) + 1 + 1 + num_args).toNat).map fun i =>
        memory.word (frame.sp - arch.kWordSize + i * arch.kWordSize), ?_, ?_, ?_, ?_⟩
  · simp only [CopyFrame, hfun, hn, hdiff, hstart, hq, hsz]
  · simp only [List.length_map, List.length_range]
    omega
  · intro i hi
    simp only [List.length_map, List.length_range] at hi
    simp only [List.getElem?_map, List.getElem?_range hi, Option.map_some']
  · intro σ ops deopt_reason
    have hlen : ((1 + (q : Int) + 1 + 1 + num_args).toNat : Int) + 1 =
        1 + (q : Int) + 3 + num_args := by omega
    simp only [DeoptimizeWithDeoptInfo.deopt_context, hfun, hn, hdiff, hstart, hq, hsz3,
      List.length_map, List.length_range, hlen]

theorem CopyFrame_copies_witness :
    ∃ frame_copy : List Int,
      CopyFrame Arch.sample FunctionStore.sample ⟨fun a => a, fun _ => 0⟩ ⟨none, none, none, 0⟩
          Code.sampleOptimized ⟨1010, 5000, 5040⟩ =
        some { (⟨none, none, none, 0⟩ : Isolate) with
          deopt_frame_copy := some frame_copy,
          deopt_frame_copy_size :=
            1 + ((5040 - 5000) / Arch.sample.kWordSize : Nat) + 1 + 1 +
              (if (FunctionStore.sample 7).HasOptionalParameters then 0
                else (FunctionStore.sample 7).num_fixed_parameters) } ∧
      (frame_copy.length : Int) =
        1 + ((5040 - 5000) / Arch.sample.kWordSize : Nat) + 1 + 1 +
          (if (FunctionStore.sample 7).HasOptionalParameters then 0
            else (FunctionStore.sample 7).num_fixed_parameters) ∧
      (∀ i : Nat, i < frame_copy.length →
        frame_copy[i]? =
          some ((⟨fun a => a, fun _ => 0⟩ : Memory).word
            (5000 - Arch.sample.kWordSize + i * Arch.sample.kWordSize))) ∧
      ∀ (σ : Type) (ops : DeoptInstructions σ) (deopt_reason : Int),
        DeoptimizeWithDeoptInfo.deopt_context Arch.sample ops FunctionStore.sample
            Code.sampleOptimized ⟨1010, 5000, 5040⟩ deopt_reason =
          some (ops.DeoptimizationContext (5000 - Arch.sample.kWordSize)
            ((frame_copy.length : Int) + 1) Code.sampleOptimized.object_table
            (if (FunctionStore.sample 7).HasOptionalParameters then 0
              else (FunctionStore.sample 7).num_fixed_parameters) deopt_reason) :=
  CopyFrame_copies Arch.sample FunctionStore.sample ⟨fun a => a, fun _ => 0⟩
    ⟨none, none, none, 0⟩ Code.sampleOptimized ⟨1010, 5000, 5040⟩ 7
    (by decide) rfl (by decide) (by decide) (by decide) (by decide) (by decide)

/-! ## Postcondition of `OptimizeTypeArguments` -/

/-- What the instantiate loop returns is what repeated instantiation of the
lazy pair ends on. -/
theorem OptimizeTypeArguments.reduce_Reduces (ops : TypeArgumentOps) :
    ∀ (fuel : Nat) (u i t : AbstractTypeArguments),
      OptimizeTypeArguments.reduce ops fuel u i = some t →
      InstantiatedTypeArguments.Reduces ops u i t := by
  intro fuel
  induction fuel with
  | zero => intro u i t h; simp [OptimizeTypeArguments.reduce] at h
  | succ n ih =>
    intro u i t h
    simp only [OptimizeTypeArguments.reduce] at h
    cases hIF : ops.InstantiateFrom u i with
    | null =>
      rw [hIF] at h
      cases h
      have hd := @InstantiatedTypeArguments.Reduces.done ops u i (by rw [hIF]; rfl)
      rw [hIF] at hd
      exact hd
    | TypeArguments r c =>
      rw [hIF] at h
      cases h
      have hd := @InstantiatedTypeArguments.Reduces.done ops u i (by rw [hIF]; rfl)
      rw [hIF] at hd
      exact hd
    | InstantiatedTypeArguments r u' i' =>
      rw [hIF] at h
      exact InstantiatedTypeArguments.Reduces.again u i r u' i' t hIF (ih u' i' t h)

/-- Repeated instantiation of a lazy pair ends on one handle only. -/
theorem InstantiatedTypeArguments.Reduces.unique {ops : TypeArgumentOps}
    {u i t t' : AbstractTypeArguments} (h : InstantiatedTypeArguments.Reduces ops u i t)
    (h' : InstantiatedTypeArguments.Reduces ops u i t') : t' = t := by
  induction h generalizing t' with
  | done u i hplain =>
    cases h' with
    | done _ _ _ => rfl
    | again _ _ r u' i' _ hpair _ =>
      rw [hpair] at hplain
      cases hplain
  | again u i r u' i' t hpair _ ih =>
    cases h' with
    | done _ _ hplain =>
      rw [hpair] at hplain
      cases hplain
    | again _ _ r2 u2 i2 _ hpair2 hrest =>
      rw [hpair] at hpair2
      cases hpair2
      exact ih hrest

/-- C30 -- `OptimizeTypeArguments` returns, and returns true, as soon as the
fuel covers the nesting of the instance's type arguments; no other instance
is touched.  For an instance of a class with type arguments the slot is
afterwards null or a canonical plain vector and never a lazy pair: the two
halves of a lazy pair are instantiated with `InstantiateFrom`, and again the
halves of each lazy pair that comes out, until a handle that is no lazy pair
comes out, and the canonical form of that one handle is stored; a plain
vector that is not canonical is replaced by its canonical form.  `type_arguments_replaced` is true exactly
when the class has type arguments and the slot held a lazy pair or a plain
vector that is not canonical; for a class without type arguments, a null slot
or a canonical vector the heap is left as it was and the flag is false.
`InstantiateFrom` yields a handle that is no lazy pair or hands back its
instantiator, and `Canonicalize` of a handle that is no lazy pair is null or
canonical. -/
theorem OptimizeTypeArguments_postcondition (ops : TypeArgumentOps)
    (hIF : ∀ u i, (ops.InstantiateFrom u i).IsInstantiatedTypeArguments = false ∨
      ops.InstantiateFrom u i = i)
    (hcanon : ∀ t, t.IsInstantiatedTypeArguments = false →
      (ops.Canonicalize t).IsNull = true ∨ (ops.Canonicalize t).IsCanonical = true)
    (fuel : Nat) (heap : Heap) (instance_ : Nat)
    (hfuel : (heap instance_).type_arguments.depth ≤ fuel) :
    ∃ (heap' : Heap) (type_arguments_replaced : Bool),
      OptimizeTypeArguments ops fuel heap instance_ =
        some (heap', true, type_arguments_replaced) ∧
      (∀ b, b ≠ instance_ → heap' b = heap b) ∧
      (heap' instance_).clazz = (heap instance_).clazz ∧
      ((heap instance_).clazz.HasTypeArguments = true →
        ((heap' instance_).type_arguments.IsNull = true ∨
          (heap' instance_).type_arguments.IsCanonical = true) ∧
        (heap' instance_).type_arguments.IsInstantiatedTypeArguments = false) ∧
      (∀ r u i, (heap instance_).clazz.HasTypeArguments = true →
        (heap instance_).type_arguments = .InstantiatedTypeArguments r u i →
        ∃ t, InstantiatedTypeArguments.Reduces ops u i t ∧
          (∀ t', InstantiatedTypeArguments.Reduces ops u i t' → t' = t) ∧
          OptimizeTypeArguments.reduce ops fuel u i = some t ∧
          t.IsInstantiatedTypeArguments = false ∧
          (heap' instance_).type_arguments = ops.Canonicalize t) ∧
      (∀ r, (heap instance_).clazz.HasTypeArguments = true →
        (heap instance_).type_arguments = .TypeArguments r false →
        (heap' instance_).type_arguments = ops.Canonicalize (.TypeArguments r false)) ∧
      (type_arguments_replaced = true ↔
        (heap instance_).clazz.HasTypeArguments = true ∧
          ((heap instance_).type_arguments.IsInstantiatedTypeArguments = true ∨
            ((heap instance_).type_arguments.IsTypeArguments = true ∧
              (heap instance_).type_arguments.IsCanonical = false))) ∧
      ((heap instance_).clazz.HasTypeArguments = false ∨
          (heap instance_).type_arguments.IsNull = true ∨
          (heap instance_).type_arguments.IsCanonical = true →
        heap' = heap ∧ type_arguments_replaced = false) := by
  have hset : ∀ v b, b ≠ instance_ → heap.SetTypeArguments instance_ v b = heap b := by
    intro v b hb
    simp only [Heap.SetTypeArguments, hb, ↓reduceIte]
  have hget : ∀ v, (heap.SetTypeArguments instance_ v instance_).type_arguments = v := by
    intro v
    simp only [Heap.SetTypeArguments, ↓reduceIte]
  have hcls : ∀ v, (heap.SetTypeArguments instance_ v instance_).clazz =
      (heap instance_).clazz := by
    intro v
    simp only [Heap.SetTypeArguments, ↓reduceIte]
  cases hT : (heap instance_).clazz.HasTypeArguments with
  | false =>
    refine ⟨heap, false, ?_, fun _ _ => rfl, rfl, ?_, ?_, ?_, ?_, fun _ => ⟨rfl, rfl⟩⟩
    · simp only [OptimizeTypeArguments, hT, Bool.not_false, ↓reduceIte]
    · intro h; cases h
    · intro r u i h; cases h
    · intro r h; cases h
    · simp
  | true =>
    cases hs : (heap instance_).type_arguments with
    | null =>
      refine ⟨heap, false, ?_, fun _ _ => rfl, rfl, ?_, ?_, ?_, ?_, fun _ => ⟨rfl, rfl⟩⟩
      · simp only [OptimizeTypeArguments, hT, hs, Bool.not_true, Bool.false_eq_true, ↓reduceIte]
      · intro _; rw [hs]; exact ⟨Or.inl rfl, rfl⟩
      · intro r u i _ h; cases h
      · intro r _ h; cases h
      · simp [AbstractTypeArguments.IsInstantiatedTypeArguments,
          AbstractTypeArguments.IsTypeArguments]
    | TypeArguments r c =>
      cases c with
      | true =>
        refine ⟨heap, false, ?_, fun _ _ => rfl, rfl, ?_, ?_, ?_, ?_, fun _ => ⟨rfl, rfl⟩⟩
        · simp only [OptimizeTypeArguments, hT, hs, Bool.not_true, Bool.false_eq_true,
            ↓reduceIte]
        · intro _; rw [hs]; exact ⟨Or.inr rfl, rfl⟩
        · intro r' u i _ h; cases h
        · intro r' _ h; cases h
        · simp [AbstractTypeArguments.IsInstantiatedTypeArguments,
            AbstractTypeArguments.IsCanonical]
      | false =>
        have hplain : (AbstractTypeArguments.TypeArguments r false).IsInstantiatedTypeArguments =
            false := rfl
        refine ⟨heap.SetTypeArguments instance_ (ops.Canonicalize (.TypeArguments r false)),
          true, ?_, hset _, hcls _, ?_, ?_, ?_, ?_, ?_⟩
        · simp only [OptimizeTypeArguments, hT, hs, Bool.not_true, Bool.false_eq_true,
            Bool.not_false, ↓reduceIte]
        · intro _
          rw [hget]
          refine ⟨hcanon _ hplain, ?_⟩
          rcases hcanon _ hplain with h | h <;>
            cases hc : ops.Canonicalize (.TypeArguments r false) <;> rw [hc] at h <;>
              first | rfl | cases h
        · intro r' u i _ h; cases h
        · intro r' _ h
          cases h
          exact hget _
        · simp [AbstractTypeArguments.IsTypeArguments, AbstractTypeArguments.IsCanonical]
        · rintro (h | h | h) <;> cases h
    | InstantiatedTypeArguments r u i =>
      rw [hs] at hfuel
      simp only [AbstractTypeArguments.depth] at hfuel
      obtain ⟨t, ht, hplain⟩ := OptimizeTypeArguments.reduce_total ops hIF fuel u i (by omega)
      refine ⟨heap.SetTypeArguments instance_ (ops.Canonicalize t), true, ?_, hset _, hcls _,
        ?_, ?_, ?_, ?_, ?_⟩
      · simp only [OptimizeTypeArguments, hT, hs, ht, Bool.not_true, Bool.false_eq_true,
          ↓reduceIte]
      · intro _
        rw [hget]
        refine ⟨hcanon _ hplain, ?_⟩
        rcases hcanon _ hplain with h | h <;>
          cases hc : ops.Canonicalize t <;> rw [hc] at h <;> first | rfl | cases h
      · intro r' u' i' _ h
        cases h
        exact ⟨t, OptimizeTypeArguments.reduce_Reduces ops fuel u i t ht,
          fun t' ht' => (OptimizeTypeArguments.reduce_Reduces ops fuel u i t ht).unique ht',
          ht, hplain, hget _⟩
      · intro r' _ h; cases h
      · simp [AbstractTypeArguments.IsInstantiatedTypeArguments]
      · rintro (h | h | h) <;> cases h

theorem OptimizeTypeArguments_postcondition_witness :
    (∃ (heap' : Heap) (type_arguments_replaced : Bool),
      OptimizeTypeArguments TypeArgumentOps.sample 2 Heap.sampleLazy 3 =
        some (heap', true, type_arguments_replaced) ∧
      (heap' 3).type_arguments = .TypeArguments 42 true ∧ type_arguments_replaced = true) ∧
    ∃ (heap' : Heap) (type_arguments_replaced : Bool),
      OptimizeTypeArguments TypeArgumentOps.sample 1 Heap.sampleGeneric 3 =
        some (heap', true, type_arguments_replaced) ∧
      (heap' 3).type_arguments = .TypeArguments 40 true ∧ type_arguments_replaced = true := by
  constructor
  · obtain ⟨heap', replaced, h, -, -, -, hpair, -, hflag, -⟩ :=
      OptimizeTypeArguments_postcondition TypeArgumentOps.sample (fun _ _ => Or.inr rfl)
        (fun _ _ => Or.inr rfl) 2 Heap.sampleLazy 3 (by decide)
    obtain ⟨t, -, hunique, -, -, hslot⟩ := hpair 50 _ _ rfl rfl
    have ht := hunique (.TypeArguments 42 false)
      (InstantiatedTypeArguments.Reduces.again _ _ 51 (.TypeArguments 41 false)
        (.TypeArguments 42 false) _ rfl
        (@InstantiatedTypeArguments.Reduces.done TypeArgumentOps.sample
          (.TypeArguments 41 false) (.TypeArguments 42 false) rfl))
    rw [← ht] at hslot
    exact ⟨heap', replaced, h, hslot, hflag.mpr ⟨rfl, Or.inl rfl⟩⟩
  · obtain ⟨heap', replaced, h, -, -, -, -, hslot, hflag, -⟩ :=
      OptimizeTypeArguments_postcondition TypeArgumentOps.sample (fun _ _ => Or.inr rfl)
        (fun _ _ => Or.inr rfl) 1 Heap.sampleGeneric 3 (by decide)
    exact ⟨heap', replaced, h, hslot 40 rfl rfl, hflag.mpr ⟨rfl, Or.inr ⟨rfl, rfl⟩⟩⟩

/-! ## Properties of `CloneContext` -/

/-- The copy loop leaves in the clone the slots it has copied so far followed
by the slots of the source that are still to copy, and touches nothing
else. -/
theorem CloneContext.loop_copies (ctx cloned_ctx : Nat) (hne : cloned_ctx ≠ ctx) :
    ∀ (remaining i : Nat) (contexts : ContextStore),
      i + remaining = (contexts ctx).slots.length →
      (contexts cloned_ctx).slots.length = (contexts ctx).slots.length →
      (contexts ctx).slots.length < 2 ^ 31 →
      CloneContext.loop ctx cloned_ctx remaining i contexts =
        some (fun a => if a = cloned_ctx then
          ⟨(contexts cloned_ctx).parent,
            (contexts cloned_ctx).slots.take i ++ (contexts ctx).slots.drop i⟩
          else contexts a) := by
  intro remaining
  induction remaining with
  | zero =>
    intro i contexts hi hlen _
    simp only [CloneContext.loop, Option.some.injEq]
    funext a
    split
    · rename_i ha
      subst ha
      have h1 : List.take i (contexts a).slots = (contexts a).slots :=
        List.take_of_length_le (by omega)
      have h2 : List.drop i (contexts ctx).slots = [] := List.drop_of_length_le (by omega)
      rw [h1, h2, List.append_nil]
    · rfl
  | succ n ih =>
    intro i contexts hi hlen hint
    have hctx : ctx ≠ cloned_ctx := fun h => hne h.symm
    have hguard : ¬ (i + 1 ≥ 2 ^ 31) := by omega
    have hilt : i < (contexts ctx).slots.length := by omega
    have hilt' : i < (contexts cloned_ctx).slots.length := by omega
    simp only [CloneContext.loop, if_neg hguard]
    rw [ih (i + 1) _ (by simp only [hctx, ↓reduceIte]; omega)
      (by simp only [hctx, ↓reduceIte, Context.SetAt, List.length_set]; exact hlen)
      (by simp only [hctx, ↓reduceIte]; exact hint)]
    simp only [Option.some.injEq]
    funext a
    by_cases ha : a = cloned_ctx
    · simp only [ha, ↓reduceIte, hctx, Context.SetAt, Context.At, Context.mk.injEq, true_and]
      rw [List.getD_eq_getElem _ _ hilt, List.take_succ, List.set_take,
        List.set_eq_of_length_le (by rw [List.length_take]; omega),
        List.getElem?_set_self hilt', Option.toList, List.append_assoc, List.singleton_append,
        ← List.drop_eq_getElem_cons hilt]
    · simp only [ha, ↓reduceIte]

/-- `CloneContext` stores, at the fresh address, a context with the parent and
the slots of the source. -/
theorem CloneContext_eq (contexts : ContextStore) (new_context ctx : Nat)
    (hfresh : new_context ≠ ctx) (hint : (contexts ctx).num_variables < 2 ^ 31) :
    CloneContext contexts new_context ctx =
      some (fun a => if a = new_context then contexts ctx else contexts a, new_context) := by
  have hctx : ctx ≠ new_context := fun h => hfresh h.symm
  simp only [CloneContext, ContextStore.New, hctx, ↓reduceIte, Context.num_variables]
  rw [CloneContext.loop_copies ctx new_context hfresh _ 0 _
    (by simp only [hctx, ↓reduceIte]; omega)
    (by simp only [hctx, ↓reduceIte, Context.set_parent, List.length_replicate])
    (by simp only [hctx, ↓reduceIte]; exact hint)]
  simp only [↓reduceIte, hctx, Context.set_parent, List.take_zero, List.nil_append,
    List.drop_zero, Option.some.injEq, Prod.mk.injEq, and_true]
  funext a
  by_cases ha : a = new_context <;> simp only [ha, ↓reduceIte]

/-- C21 -- `CloneContext` returns a new context (at the address the allocator
hands out, which is not the address of the source) with the number of
variables of the source `c`, the parent of `c` and, at every index, the value
of `c.At(i)`; `c` and every other context are as before.  Cloning the clone
gives a context with the same number of variables, the same parent and the
same value in every slot as the first clone.  The number of variables is in
the range of the `int` counter of the copy loop. -/
theorem CloneContext_copies (contexts : ContextStore) (ctx new_context new_context' : Nat)
    (hfresh : new_context ≠ ctx) (hfresh' : new_context' ≠ new_context)
    (hint : (contexts ctx).num_variables < 2 ^ 31) :
    ∃ contexts1 contexts2 : ContextStore,
      CloneContext contexts new_context ctx = some (contexts1, new_context) ∧
      (contexts1 new_context).num_variables = (contexts ctx).num_variables ∧
      (contexts1 new_context).parent = (contexts ctx).parent ∧
      (∀ i, (contexts1 new_context).At i = (contexts ctx).At i) ∧
      (∀ a, a ≠ new_context → contexts1 a = contexts a) ∧
      CloneContext contexts1 new_context' new_context = some (contexts2, new_context') ∧
      (contexts2 new_context').num_variables = (contexts1 new_context).num_variables ∧
      (contexts2 new_context').parent = (contexts1 new_context).parent ∧
      (∀ i, (contexts2 new_context').At i = (contexts1 new_context).At i) ∧
      (∀ a, a ≠ new_context' → contexts2 a = contexts1 a) := by
  have h1 := CloneContext_eq contexts new_context ctx hfresh hint
  have hsame : (if new_context = new_context then contexts ctx else contexts new_context) =
      contexts ctx := if_pos rfl
  have h2 := CloneContext_eq (fun a => if a = new_context then contexts ctx else contexts a)
    new_context' new_context hfresh' (by simp only [↓reduceIte]; exact hint)
  refine ⟨_, _, h1, ?_, ?_, ?_, ?_, h2, ?_, ?_, ?_, ?_⟩
  · simp only [↓reduceIte]
  · simp only [↓reduceIte]
  · intro i; simp only [↓reduceIte]
  · intro a ha; simp only [ha, ↓reduceIte]
  · simp only [↓reduceIte]
  · simp only [↓reduceIte]
  · intro i; simp only [↓reduceIte]
  · intro a ha; simp only [ha, ↓reduceIte]

theorem CloneContext_copies_witness :
    ∃ contexts1 contexts2 : ContextStore,
      CloneContext ContextStore.sample 2 1 = some (contexts1, 2) ∧
      (contexts1 2).num_variables = (ContextStore.sample 1).num_variables ∧
      (contexts1 2).parent = (ContextStore.sample 1).parent ∧
      (∀ i, (contexts1 2).At i = (ContextStore.sample 1).At i) ∧
      (∀ a, a ≠ 2 → contexts1 a = ContextStore.sample a) ∧
      CloneContext contexts1 3 2 = some (contexts2, 3) ∧
      (contexts2 3).num_variables = (contexts1 2).num_variables ∧
      (contexts2 3).parent = (contexts1 2).parent ∧
      (∀ i, (contexts2 3).At i = (contexts1 2).At i) ∧
      (∀ a, a ≠ 3 → contexts2 a = contexts1 a) :=
  CloneContext_copies ContextStore.sample 1 2 3 (by decide) (by decide) (by decide)

/-! ## Properties of `ArgumentDefinitionTest` -/

/-- An element read from a descriptor sits at an index inside it. -/
theorem ArgumentsDescriptor.At_lt {arg_desc : ArgumentsDescriptor} {index : Int} {x : RawObject}
    (h : arg_desc.At index = some x) : 0 ≤ index ∧ index < arg_desc.length := by
  unfold ArgumentsDescriptor.At at h
  split at h
  · rename_i h0
    have hlt := (List.getElem?_eq_some_iff.mp h).1
    omega
  · cases h

/-- The scan of the named arguments answers whether one of the names it still
has to look at is the parameter name. -/
theorem ArgumentDefinitionTest.loop_finds (arch : Arch) (hw : 0 < arch.kWordSize)
    (param_name : RawObject) (arg_desc : ArgumentsDescriptor)
    (hlen : (arg_desc.length : Int) < 2 ^ (arch.kBitsPerWord - 1)) :
    ∀ (remaining i : Nat),
      (∀ j : Nat, i ≤ j → j < i + remaining →
        ∃ name, arg_desc.At (2 * (j : Int) + 2) = some name) →
      ∃ is_defined,
        ArgumentDefinitionTest.loop arch param_name arg_desc remaining (i : Int) =
          some is_defined ∧
        (is_defined = true ↔ ∃ j : Nat, i ≤ j ∧ j < i + remaining ∧
          arg_desc.At (2 * (j : Int) + 2) = some param_name) := by
  intro remaining
  induction remaining with
  | zero =>
    intro i _
    refine ⟨false, rfl, ?_⟩
    simp only [Bool.false_eq_true, false_iff, not_exists, not_and]
    intro j h1 h2
    omega
  | succ n ih =>
    intro i hnames
    obtain ⟨name, hname⟩ := hnames i (le_refl _) (by omega)
    have hin := ArgumentsDescriptor.At_lt hname
    have hB : (0 : Int) < 2 ^ (arch.kBitsPerWord - 1) := by positivity
    have hidx : arch.intptr_t (2 * (i : Int) + 2) = 2 * (i : Int) + 2 :=
      Arch.intptr_t_eq_self arch hw _ (by omega) (by omega)
    have hnext : arch.intptr_t ((i : Int) + 1) = ((i + 1 : Nat) : Int) := by
      rw [Arch.intptr_t_eq_self arch hw _ (by omega) (by omega)]
      push_cast
      rfl
    simp only [ArgumentDefinitionTest.loop, hidx, hname]
    by_cases heq : name = param_name
    · rw [if_pos heq]
      exact ⟨true, rfl, fun _ => ⟨i, le_refl _, by omega, heq ▸ hname⟩, fun _ => rfl⟩
    · rw [if_neg heq, hnext]
      obtain ⟨is_defined, hrun, hiff⟩ :=
        ih (i + 1) (fun j h1 h2 => hnames j (by omega) (by omega))
      refine ⟨is_defined, hrun, hiff.trans ⟨?_, ?_⟩⟩
      · rintro ⟨j, h1, h2, h3⟩
        exact ⟨j, by omega, by omega, h3⟩
      · rintro ⟨j, h1, h2, h3⟩
        have hji : j ≠ i := by
          rintro rfl
          rw [hname] at h3
          exact heq (Option.some.inj h3)
        exact ⟨j, by omega, by omega, h3⟩

/-- C22 -- `ArgumentDefinitionTest` returns true if and only if the formal
parameter index is less than the number of positional arguments or one of the
`total - positional` names of named arguments in the descriptor is the same
symbol as the parameter name, and returns false otherwise.  The descriptor
holds the total count at index 0, the positional count at index 1 and a name
at index `2 * i + 2` for each named argument; its length and the difference
of the two counts are `intptr_t` values. -/
theorem ArgumentDefinitionTest_iff (arch : Arch) (param_index : Int) (param_name : RawObject)
    (arg_desc : ArgumentsDescriptor) (total num_pos_args : Int)
    (hw : 0 < arch.kWordSize)
    (htotal : arg_desc.At 0 = some (.Smi total))
    (hpos : arg_desc.At 1 = some (.Smi num_pos_args))
    (hnames : ∀ i : Nat, (i : Int) < total - num_pos_args →
      ∃ name, arg_desc.At (2 * (i : Int) + 2) = some name)
    (hlen : (arg_desc.length : Int) < 2 ^ (arch.kBitsPerWord - 1))
    (hlo : -(2 : Int) ^ (arch.kBitsPerWord - 1) ≤ total - num_pos_args) :
    ∃ is_defined,
      ArgumentDefinitionTest arch param_index param_name arg_desc = some is_defined ∧
      (is_defined = true ↔
        param_index < num_pos_args ∨
          ∃ i : Nat, (i : Int) < total - num_pos_args ∧
            arg_desc.At (2 * (i : Int) + 2) = some param_name) := by
  by_cases hp : num_pos_args > param_index
  · refine ⟨true, ?_, fun _ => Or.inl hp, fun _ => rfl⟩
    simp only [ArgumentDefinitionTest, hpos, if_pos hp]
  · have hhi : total - num_pos_args < 2 ^ (arch.kBitsPerWord - 1) := by
      by_cases h0 : total - num_pos_args ≤ 0
      · have hB : (0 : Int) < 2 ^ (arch.kBitsPerWord - 1) := by positivity
        omega
      · obtain ⟨name, hname⟩ := hnames (total - num_pos_args - 1).toNat (by omega)
        have hin := ArgumentsDescriptor.At_lt hname
        omega
    have hnum : arch.intptr_t (total - num_pos_args) = total - num_pos_args :=
      Arch.intptr_t_eq_self arch hw _ hlo hhi
    obtain ⟨is_defined, hrun, hiff⟩ := ArgumentDefinitionTest.loop_finds arch hw param_name arg_desc
      hlen (total - num_pos_args).toNat 0 (fun j _ h2 => hnames j (by omega))
    refine ⟨is_defined, ?_, hiff.trans ⟨?_, ?_⟩⟩
    · simp only [ArgumentDefinitionTest, hpos, if_neg hp, htotal, hnum]
      exact hrun
    · rintro ⟨j, _, h2, h3⟩
      exact Or.inr ⟨j, by omega, h3⟩
    · rintro (h | ⟨j, h2, h3⟩)
      · exact absurd h hp
      · exact ⟨j, Nat.zero_le _, by omega, h3⟩

theorem ArgumentDefinitionTest_iff_witness :
    ∃ is_defined,
      ArgumentDefinitionTest Arch.sample 1 (.HeapObject 80) ArgumentsDescriptor.sample =
        some is_defined ∧
      (is_defined = true ↔
        (1 : Int) < 1 ∨
          ∃ i : Nat, (i : Int) < 3 - 1 ∧
            ArgumentsDescriptor.sample.At (2 * (i : Int) + 2) = some (.HeapObject 80)) :=
  ArgumentDefinitionTest_iff Arch.sample 1 (.HeapObject 80) ArgumentsDescriptor.sample 3 1
    (by decide) rfl rfl
    (fun i hi => by
      have h2 : i = 0 ∨ i = 1 := by omega
      rcases h2 with rfl | rfl
      · exact ⟨_, rfl⟩
      · exact ⟨_, rfl⟩)
    (by decide) (by decide)

/-! ## Properties of `DeoptimizeMaterializeDoubles` -/

theorem DeoptimizeMaterializeDoubles.doubles_eq :
    ∀ (queue : List DeferredDouble) (objects : List Boxed) (slots : Nat → Nat),
      DeoptimizeMaterializeDoubles.doubles queue (objects, slots) =
        (objects ++ queue.map (fun r => Boxed.Double r.value),
          Materialization.write slots
            ((queue.map (fun r => r.slot)).zip (List.range' objects.length queue.length))) := by
  intro queue
  induction queue with
  | nil =>
    intro objects slots
    simp [DeoptimizeMaterializeDoubles.doubles, Materialization.write]
  | cons current queue ih =>
    intro objects slots
    simp only [DeoptimizeMaterializeDoubles.doubles, Boxed.New]
    rw [ih]
    simp only [List.length_append, List.length_singleton, List.map_cons, List.length_cons,
      List.range'_succ, List.zip_cons_cons, Materialization.write, List.foldl_cons,
      List.append_assoc, List.singleton_append, List.length_nil, Nat.zero_add]

theorem DeoptimizeMaterializeDoubles.mints_eq :
    ∀ (queue : List DeferredMint) (objects : List Boxed) (slots : Nat → Nat),
      DeoptimizeMaterializeDoubles.mints queue (objects, slots) =
        (objects ++ queue.map (fun r => Boxed.Mint r.value),
          Materialization.write slots
            ((queue.map (fun r => r.slot)).zip (List.range' objects.length queue.length))) := by
  intro queue
  induction queue with
  | nil =>
    intro objects slots
    simp [DeoptimizeMaterializeDoubles.mints, Materialization.write]
  | cons current queue ih =>
    intro objects slots
    simp only [DeoptimizeMaterializeDoubles.mints, Boxed.New]
    rw [ih]
    simp only [List.length_append, List.length_singleton, List.map_cons, List.length_cons,
      List.range'_succ, List.zip_cons_cons, Materialization.write, List.foldl_cons,
      List.append_assoc, List.singleton_append, List.length_nil, Nat.zero_add]

/-- C26 -- After `DeoptimizeMaterializeDoubles` both deferred-box queues of the
isolate are empty.  The boxes on the heap are the boxes from before, then one
new Double per record of the double queue, then one new Mint per record of
the int64 queue, each holding the value of its record and in the order of
the queues; the memory is the memory from before with, record by record in
that same order, the address of the record's new box written into the
record's slot. -/
theorem DeoptimizeMaterializeDoubles_drains (state : Materialization) :
    (DeoptimizeMaterializeDoubles state).deferred_doubles = [] ∧
    (DeoptimizeMaterializeDoubles state).deferred_mints = [] ∧
    (DeoptimizeMaterializeDoubles state).objects =
      state.objects ++ state.deferred_doubles.map (fun r => Boxed.Double r.value) ++
        state.deferred_mints.map (fun r => Boxed.Mint r.value) ∧
    (DeoptimizeMaterializeDoubles state).slots =
      Materialization.write state.slots
        ((state.deferred_doubles.map (fun r => r.slot) ++
            state.deferred_mints.map (fun r => r.slot)).zip
          (List.range' state.objects.length
            (state.deferred_doubles.length + state.deferred_mints.length))) ∧
    (∀ k r, state.deferred_doubles[k]? = some r →
      (DeoptimizeMaterializeDoubles state).objects[state.objects.length + k]? =
        some (Boxed.Double r.value)) ∧
    (∀ k r, state.deferred_mints[k]? = some r →
      (DeoptimizeMaterializeDoubles state).objects[
          state.objects.length + state.deferred_doubles.length + k]? =
        some (Boxed.Mint r.value)) := by
  have hobjects : (DeoptimizeMaterializeDoubles state).objects =
      state.objects ++ state.deferred_doubles.map (fun r => Boxed.Double r.value) ++
        state.deferred_mints.map (fun r => Boxed.Mint r.value) := by
    simp only [DeoptimizeMaterializeDoubles, DeoptimizeMaterializeDoubles.doubles_eq,
      DeoptimizeMaterializeDoubles.mints_eq]
  refine ⟨rfl, rfl, hobjects, ?_, ?_, ?_⟩
  · simp only [DeoptimizeMaterializeDoubles, DeoptimizeMaterializeDoubles.doubles_eq,
      DeoptimizeMaterializeDoubles.mints_eq, Materialization.write, List.length_append,
      List.length_map]
    rw [← List.foldl_append, Nat.add_comm state.deferred_doubles.length,
      ← List.range'_append_1,
      List.zip_append (by simp only [List.length_map, List.length_range'])]
  · intro k r hk
    have hlt := (List.getElem?_eq_some_iff.mp hk).1
    rw [hobjects, List.getElem?_append_left (by simp only [List.length_append, List.length_map]; omega),
      List.getElem?_append_right (by omega), Nat.add_sub_cancel_left, List.getElem?_map, hk]
    rfl
  · intro k r hk
    rw [hobjects, List.getElem?_append_right
        (by simp only [List.length_append, List.length_map]; omega),
      List.length_append, List.length_map, Nat.add_sub_cancel_left, List.getElem?_map, hk]
    rfl

/-! ## Properties of closure resolution and of `noSuchMethod` -/

/-- The value of an `int` expression that does not overflow. -/
theorem int_eq_self (x : Int) (hlo : -(2 : Int) ^ 31 ≤ x) (hhi : x < 2 ^ 31) : int x = x := by
  unfold int
  rw [Int.emod_eq_of_lt (by omega) (by omega)]
  omega

/-- On a hierarchy that reaches the root, the walk up the superclasses ends
within one round per superclass, plus one, on the function of the nearest
superclass that defines one of the name. -/
theorem ReportObjectNotClosure.walk_eq (classes : Classes) (function_name : String) :
    ∀ (chain : List Nat) (cls fuel : Nat), classes.SuperChain cls chain → chain.length < fuel →
      ReportObjectNotClosure.walk classes function_name fuel cls =
        some (chain.findSome? fun c => classes.LookupDynamicFunction c function_name) := by
  intro chain
  induction chain with
  | nil =>
    intro cls fuel hchain hfuel
    obtain ⟨m, rfl⟩ : ∃ m, fuel = m + 1 := ⟨fuel - 1, by simp only [List.length_nil] at hfuel; omega⟩
    simp only [Classes.SuperChain] at hchain
    simp only [ReportObjectNotClosure.walk, hchain, List.findSome?_nil]
  | cons super_class chain ih =>
    intro cls fuel hchain hfuel
    obtain ⟨m, rfl⟩ : ∃ m, fuel = m + 1 :=
      ⟨fuel - 1, by simp only [List.length_cons] at hfuel; omega⟩
    simp only [Classes.SuperChain] at hchain
    simp only [ReportObjectNotClosure.walk, hchain.1, List.findSome?_cons]
    cases hl : classes.LookupDynamicFunction super_class function_name with
    | some function => rfl
    | none =>
      simp only
      exact ih super_class m hchain.2 (by simp only [List.length_cons] at hfuel; omega)

/-- The array built for a function with at least the receiver as parameter
holds the names of the parameters after the receiver. -/
theorem ReportObjectNotClosure.array_eq (classes : Classes) (function : Nat)
    (hlo : 1 ≤ classes.NumParameters function) (hhi : classes.NumParameters function < 2 ^ 31) :
    ReportObjectNotClosure.array classes function =
      some (.Array ((List.range (classes.NumParameters function - 1).toNat).map fun (k : Nat) =>
        .String (classes.ParameterNameAt function ((k : Int) + 1)))) := by
  have hint : int (classes.NumParameters function) = classes.NumParameters function :=
    int_eq_self _ (by omega) hhi
  have hneg : ¬ (classes.NumParameters function - 1 < 0) := by omega
  simp only [ReportObjectNotClosure.array, hint, if_neg hneg]

/-- What `ReportObjectNotClosure` hands to `Exceptions::ThrowByType`, on a
hierarchy that reaches the root. -/
theorem ReportObjectNotClosure.dart_arguments_eq (classes : Classes) (symbols : Symbols)
    (chain : List Nat) (fuel : Nat) (instance_ function_args : Object)
    (hchain : classes.SuperChain (classes.clazz instance_) chain) (hfuel : chain.length < fuel)
    (hparams : ∀ c ∈ classes.clazz instance_ :: chain, ∀ function,
      classes.LookupDynamicFunction c symbols.Call = some function →
      1 ≤ classes.NumParameters function ∧ classes.NumParameters function < 2 ^ 31) :
    ReportObjectNotClosure.dart_arguments classes symbols fuel instance_ function_args =
      some ([instance_, .String symbols.Call, function_args, .null] ++
        match (classes.clazz instance_ :: chain).findSome?
            fun c => classes.LookupDynamicFunction c symbols.Call with
        | none => []
        | some function =>
          [.Array ((List.range (classes.NumParameters function - 1).toNat).map fun (k : Nat) =>
            .String (classes.ParameterNameAt function ((k : Int) + 1)))]) := by
  cases hfound : (classes.clazz instance_ :: chain).findSome?
      fun c => classes.LookupDynamicFunction c symbols.Call with
  | none =>
    have hfound' := hfound
    rw [List.findSome?_cons] at hfound'
    cases hl : classes.LookupDynamicFunction (classes.clazz instance_) symbols.Call with
    | some function => rw [hl] at hfound'; cases hfound'
    | none =>
      rw [hl] at hfound'
      simp only at hfound'
      simp only [ReportObjectNotClosure.dart_arguments, hl,
        ReportObjectNotClosure.walk_eq classes symbols.Call chain _ fuel hchain hfuel, hfound',
        List.append_nil]
  | some function =>
    obtain ⟨c, hc, hlookup⟩ := List.exists_of_findSome?_eq_some hfound
    obtain ⟨hlo, hhi⟩ := hparams c hc function hlookup
    have hfound' := hfound
    rw [List.findSome?_cons] at hfound'
    cases hl : classes.LookupDynamicFunction (classes.clazz instance_) symbols.Call with
    | some function' =>
      rw [hl] at hfound'
      cases hfound'
      simp only [ReportObjectNotClosure.dart_arguments, hl,
        ReportObjectNotClosure.array_eq classes function hlo hhi]
    | none =>
      rw [hl] at hfound'
      simp only at hfound'
      simp only [ReportObjectNotClosure.dart_arguments, hl,
        ReportObjectNotClosure.walk_eq classes symbols.Call chain _ fuel hchain hfuel, hfound',
        ReportObjectNotClosure.array_eq classes function hlo hhi]

/-- C23 -- `ResolveImplicitClosureThroughGetter` returns null without throwing
in exactly two cases: no getter of the call's name resolves on the receiver,
or the invocation of the getter ends in an unhandled exception.  Any other
error result of the getter is propagated.  A result that is no Smi and whose
class has a signature function is returned as the closure.  Every other
result ends, once the walk up the superclasses of its class has reached the
root, in a thrown NoSuchMethodError whose arguments start with the result, the
symbol `call`, a null arguments array and null.  So a value the entry returns
is null or has a class with a signature function, and null is returned in
the two cases above only, unless the getter returns the null object and the
class of the null object has a signature function. -/
theorem ResolveImplicitClosureThroughGetter_outcome (resolver : Resolver) (dart : DartEntry)
    (classes : Classes) (symbols : Symbols) (Field_GetterName : String → String) (fuel : Nat)
    (receiver : Instance) (ic_data : ICData) :
    (resolver.ResolveDynamic receiver (Field_GetterName ic_data.target_name) 1 0 = none →
      ResolveImplicitClosureThroughGetter resolver dart classes symbols Field_GetterName fuel
        receiver ic_data = some (.returned .null)) ∧
    (∀ getter,
      resolver.ResolveDynamic receiver (Field_GetterName ic_data.target_name) 1 0 =
        some getter →
      ((dart.InvokeDynamic receiver getter [] .null).IsUnhandledException = true →
        ResolveImplicitClosureThroughGetter resolver dart classes symbols Field_GetterName fuel
          receiver ic_data = some (.returned .null)) ∧
      ((dart.InvokeDynamic receiver getter [] .null).IsError = true →
        (dart.InvokeDynamic receiver getter [] .null).IsUnhandledException = false →
        ResolveImplicitClosureThroughGetter resolver dart classes symbols Field_GetterName fuel
          receiver ic_data =
            some (.PropagateError (dart.InvokeDynamic receiver getter [] .null))) ∧
      ((dart.InvokeDynamic receiver getter [] .null).IsError = false →
        (dart.InvokeDynamic receiver getter [] .null).IsSmi = false →
        (classes.signature_function
          (classes.clazz (dart.InvokeDynamic receiver getter [] .null))).isSome = true →
        ResolveImplicitClosureThroughGetter resolver dart classes symbols Field_GetterName fuel
          receiver ic_data = some (.returned (dart.InvokeDynamic receiver getter [] .null))) ∧
      ((dart.InvokeDynamic receiver getter [] .null).IsError = false →
        ((dart.InvokeDynamic receiver getter [] .null).IsSmi = true ∨
          classes.signature_function
            (classes.clazz (dart.InvokeDynamic receiver getter [] .null)) = none) →
        ∀ chain : List Nat,
          classes.SuperChain (classes.clazz (dart.InvokeDynamic receiver getter [] .null))
            chain →
          chain.length < fuel →
          (∀ c ∈ classes.clazz (dart.InvokeDynamic receiver getter [] .null) :: chain,
            ∀ function, classes.LookupDynamicFunction c symbols.Call = some function →
              1 ≤ classes.NumParameters function ∧ classes.NumParameters function < 2 ^ 31) →
          ∃ hint : List Object,
            ResolveImplicitClosureThroughGetter resolver dart classes symbols Field_GetterName
              fuel receiver ic_data =
                some (.ThrowByType_kNoSuchMethod
                  ([dart.InvokeDynamic receiver getter [] .null, .String symbols.Call, .null,
                    .null] ++ hint)))) ∧
    (∀ value,
      ResolveImplicitClosureThroughGetter resolver dart classes symbols Field_GetterName fuel
        receiver ic_data = some (.returned value) →
      value = .null ∨ (value.IsSmi = false ∧
        (classes.signature_function (classes.clazz value)).isSome = true)) ∧
    (ResolveImplicitClosureThroughGetter resolver dart classes symbols Field_GetterName fuel
        receiver ic_data = some (.returned .null) →
      resolver.ResolveDynamic receiver (Field_GetterName ic_data.target_name) 1 0 = none ∨
      ∃ getter,
        resolver.ResolveDynamic receiver (Field_GetterName ic_data.target_name) 1 0 =
          some getter ∧
        ((dart.InvokeDynamic receiver getter [] .null).IsUnhandledException = true ∨
          (dart.InvokeDynamic receiver getter [] .null = .null ∧
            (classes.signature_function (classes.clazz .null)).isSome = true))) := by
  refine ⟨fun hnone => ?_, fun getter hgetter => ⟨fun hunhandled => ?_, fun herror hother => ?_,
    fun hok hsmi hsig => ?_, fun hok hnot chain hchain hfuel hparams => ?_⟩, fun value hvalue => ?_,
    fun hnull => ?_⟩
  · simp only [ResolveImplicitClosureThroughGetter, hnone]
  · have herror : (dart.InvokeDynamic receiver getter [] .null).IsError = true := by
      cases hr : dart.InvokeDynamic receiver getter [] .null <;> rw [hr] at hunhandled <;>
        first | rfl | cases hunhandled
    simp only [ResolveImplicitClosureThroughGetter, hgetter, herror, hunhandled, ↓reduceIte]
  · simp only [ResolveImplicitClosureThroughGetter, hgetter, herror, hother, ↓reduceIte,
      Bool.false_eq_true]
  · simp only [ResolveImplicitClosureThroughGetter, hgetter, hok, hsmi, hsig, ↓reduceIte,
      Bool.false_eq_true, Bool.not_false, Bool.and_self]
  · have hcond : (!(dart.InvokeDynamic receiver getter [] .null).IsSmi &&
        (classes.signature_function
          (classes.clazz (dart.InvokeDynamic receiver getter [] .null))).isSome) = false := by
      rcases hnot with h | h
      · rw [h]; rfl
      · rw [h]; simp only [Option.isSome_none, Bool.and_false]
    simp only [ResolveImplicitClosureThroughGetter, hgetter, hok, hcond, ↓reduceIte,
      Bool.false_eq_true,
      ReportObjectNotClosure.dart_arguments_eq classes symbols chain fuel _ _ hchain hfuel
        hparams, Option.map_some']
    exact ⟨_, rfl⟩
  · simp only [ResolveImplicitClosureThroughGetter] at hvalue
    split at hvalue
    · cases hvalue
      exact Or.inl rfl
    · split at hvalue
      · split at hvalue
        · cases hvalue
          exact Or.inl rfl
        · cases hvalue
      · split at hvalue
        · rename_i hcond
          cases hvalue
          simp only [Bool.and_eq_true, Bool.not_eq_true'] at hcond
          exact Or.inr hcond
        · cases hd : ReportObjectNotClosure.dart_arguments classes symbols fuel
            (dart.InvokeDynamic receiver _ [] .null) .null <;>
            rw [hd] at hvalue <;> cases hvalue
  · cases hres : resolver.ResolveDynamic receiver (Field_GetterName ic_data.target_name) 1 0 with
    | none => exact Or.inl rfl
    | some getter =>
      refine Or.inr ⟨getter, rfl, ?_⟩
      simp only [ResolveImplicitClosureThroughGetter, hres] at hnull
      by_cases herror : (dart.InvokeDynamic receiver getter [] .null).IsError = true
      · by_cases hunhandled :
            (dart.InvokeDynamic receiver getter [] .null).IsUnhandledException = true
        · exact Or.inl hunhandled
        · simp only [herror, hunhandled, ↓reduceIte, Bool.false_eq_true, Option.some.injEq,
            reduceCtorEq] at hnull
      · simp only [herror, Bool.false_eq_true, ↓reduceIte] at hnull
        split at hnull
        · rename_i hcond
          simp only [Option.some.injEq, CallOutcome.returned.injEq] at hnull
          simp only [Bool.and_eq_true, Bool.not_eq_true'] at hcond
          rw [hnull] at hcond
          exact Or.inr ⟨hnull, hcond.2⟩
        · cases hd : ReportObjectNotClosure.dart_arguments classes symbols fuel
            (dart.InvokeDynamic receiver getter [] .null) .null <;>
            rw [hd] at hnull <;> cases hnull

/-- Every function of `Classes.sample` has between one and four
parameters. -/
theorem Classes.sample_NumParameters (function : Nat) :
    1 ≤ Classes.sample.NumParameters function ∧
      Classes.sample.NumParameters function < 2 ^ 31 := by
  show 1 ≤ (if function = 3 then (4 : Int) else 2) ∧
    (if function = 3 then (4 : Int) else 2) < 2 ^ 31
  split <;> decide

theorem ResolveImplicitClosureThroughGetter_outcome_witness :
    ResolveImplicitClosureThroughGetter Resolver.failing DartEntry.sample Classes.sample
        Symbols.sample (fun name => "get:" ++ name) 3 ⟨⟨5, false⟩, .null⟩ ⟨"f", 1, []⟩ =
      some (.returned .null) ∧
    ∃ hint : List Object,
      ResolveImplicitClosureThroughGetter Resolver.named DartEntry.sample Classes.sample
          Symbols.sample (fun name => "get:" ++ name) 3 ⟨⟨5, false⟩, .null⟩ ⟨"f", 1, []⟩ =
        some (.ThrowByType_kNoSuchMethod
          ([DartEntry.sample.InvokeDynamic ⟨⟨5, false⟩, .null⟩
              ⟨22, "get:f".toList, 0, 0, true, none, 1, false⟩ [] .null,
            .String Symbols.sample.Call, .null, .null] ++ hint)) :=
  ⟨(ResolveImplicitClosureThroughGetter_outcome Resolver.failing DartEntry.sample Classes.sample
      Symbols.sample (fun name => "get:" ++ name) 3 ⟨⟨5, false⟩, .null⟩ ⟨"f", 1, []⟩).1 rfl,
    ((ResolveImplicitClosureThroughGetter_outcome Resolver.named DartEntry.sample Classes.sample
      Symbols.sample (fun name => "get:" ++ name) 3 ⟨⟨5, false⟩, .null⟩ ⟨"f", 1, []⟩).2.1
        ⟨22, "get:f".toList, 0, 0, true, none, 1, false⟩ rfl).2.2.2 rfl (Or.inr rfl) [6, 0]
        ⟨rfl, rfl, rfl⟩ (by decide) (fun _ _ function _ => Classes.sample_NumParameters function)⟩

/-- C25 -- The NoSuchMethodError that `ReportObjectNotClosure` throws for an
object, once the walk up the superclasses of its class has reached the root,
has the arguments [the object, the symbol `call`, the arguments array passed,
null], followed by a fifth element exactly when some class among the class of
the object and its superclasses has a dynamic function named `call`: the
array of length `NumParameters - 1` of the parameter names of that function
after the receiver, in order, the function being the one of the nearest such
class.  The non-closure branch of `ResolveImplicitClosureThroughGetter`
throws with the same arguments for the result of the getter, the arguments
array being the null array. -/
theorem ReportObjectNotClosure_throws_dart_arguments (classes : Classes) (symbols : Symbols)
    (chain : List Nat) (fuel : Nat) (instance_ function_args : Object)
    (hchain : classes.SuperChain (classes.clazz instance_) chain) (hfuel : chain.length < fuel)
    (hparams : ∀ c ∈ classes.clazz instance_ :: chain, ∀ function,
      classes.LookupDynamicFunction c symbols.Call = some function →
      1 ≤ classes.NumParameters function ∧ classes.NumParameters function < 2 ^ 31) :
    ∃ hint : List Object,
      ReportObjectNotClosure classes symbols fuel instance_ function_args =
        some (.ThrowByType_kNoSuchMethod
          ([instance_, .String symbols.Call, function_args, .null] ++ hint)) ∧
      (∀ (resolver : Resolver) (dart : DartEntry) (Field_GetterName : String → String)
          (receiver : Instance) (ic_data : ICData) (getter : Function),
        resolver.ResolveDynamic receiver (Field_GetterName ic_data.target_name) 1 0 =
          some getter →
        dart.InvokeDynamic receiver getter [] .null = instance_ →
        instance_.IsError = false →
        (instance_.IsSmi = true ∨
          classes.signature_function (classes.clazz instance_) = none) →
        ResolveImplicitClosureThroughGetter resolver dart classes symbols Field_GetterName fuel
            receiver ic_data =
          some (.ThrowByType_kNoSuchMethod
            ([instance_, .String symbols.Call, .null, .null] ++ hint))) ∧
      ((∀ c ∈ classes.clazz instance_ :: chain,
          classes.LookupDynamicFunction c symbols.Call = none) → hint = []) ∧
      (∀ (before : List Nat) (c : Nat) (after : List Nat) (function : Nat),
        classes.clazz instance_ :: chain = before ++ c :: after →
        (∀ b ∈ before, classes.LookupDynamicFunction b symbols.Call = none) →
        classes.LookupDynamicFunction c symbols.Call = some function →
        ∃ names : List Object,
          hint = [.Array names] ∧
          (names.length : Int) = classes.NumParameters function - 1 ∧
          ∀ k : Nat, k < names.length →
            names[k]? = some (.String (classes.ParameterNameAt function ((k : Int) + 1)))) := by
  have hargs := ReportObjectNotClosure.dart_arguments_eq classes symbols chain fuel instance_
    function_args hchain hfuel hparams
  have hargs' := ReportObjectNotClosure.dart_arguments_eq classes symbols chain fuel instance_
    .null hchain hfuel hparams
  refine ⟨(match (classes.clazz instance_ :: chain).findSome?
      fun c => classes.LookupDynamicFunction c symbols.Call with
    | none => []
    | some function =>
      [.Array ((List.range (classes.NumParameters function - 1).toNat).map fun (k : Nat) =>
        .String (classes.ParameterNameAt function ((k : Int) + 1)))]), ?_, ?_, ?_, ?_⟩
  · simp only [ReportObjectNotClosure, hargs, Option.map_some']
  · intro resolver dart Field_GetterName receiver ic_data getter hgetter hresult hok hnot
    have hcond : (!instance_.IsSmi &&
        (classes.signature_function (classes.clazz instance_)).isSome) = false := by
      rcases hnot with h | h
      · rw [h]; rfl
      · rw [h]; simp only [Option.isSome_none, Bool.and_false]
    simp only [ResolveImplicitClosureThroughGetter, hgetter, hresult, hok, hcond, ↓reduceIte,
      Bool.false_eq_true, hargs', Option.map_some']
  · intro hnone
    rw [List.findSome?_eq_none_iff.mpr hnone]
  · intro before c after function hsplit hbefore hlookup
    have hfound : (classes.clazz instance_ :: chain).findSome?
        (fun c => classes.LookupDynamicFunction c symbols.Call) = some function := by
      rw [hsplit, List.findSome?_append, List.findSome?_eq_none_iff.mpr hbefore,
        List.findSome?_cons, hlookup]
      rfl
    obtain ⟨hlo, hhi⟩ := hparams c (by rw [hsplit]; simp) function hlookup
    rw [hfound]
    refine ⟨_, rfl, ?_, ?_⟩
    · simp only [List.length_map, List.length_range]
      omega
    · intro k hk
      simp only [List.length_map, List.length_range] at hk
      simp only [List.getElem?_map, List.getElem?_range hk, Option.map_some']

theorem ReportObjectNotClosure_throws_dart_arguments_witness :
    ∃ hint : List Object,
      ReportObjectNotClosure Classes.sample Symbols.sample 3 (.Instance 11) (.Array [.Smi 1]) =
        some (.ThrowByType_kNoSuchMethod
          ([.Instance 11, .String Symbols.sample.Call, .Array [.Smi 1], .null] ++ hint)) ∧
      ∃ names : List Object,
        hint = [.Array names] ∧
        (names.length : Int) = Classes.sample.NumParameters 4 - 1 ∧
        ∀ k : Nat, k < names.length →
          names[k]? = some (.String (Classes.sample.ParameterNameAt 4 ((k : Int) + 1))) := by
  obtain ⟨hint, hthrow, -, -, hnearest⟩ :=
    ReportObjectNotClosure_throws_dart_arguments Classes.sample Symbols.sample [6, 0] 3 (.Instance 11)
      (.Array [.Smi 1]) ⟨rfl, rfl, rfl⟩ (by decide) (fun _ _ function _ => Classes.sample_NumParameters function)
  exact ⟨hint, hthrow, hnearest [5] 6 [0] 4 rfl
    (fun b hb => by
      simp only [List.mem_singleton] at hb
      subst hb
      rfl)
    rfl⟩

/-- C24 (as stated, refuted) -- The class of the receiver (class 5) defines
`bogus(a, b, c)` and `bogus` is invoked with two arguments on a receiver
whose `noSuchMethod` returns the Smi 0: `InvokeNoSuchMethodFunction` returns
that Smi and no error, so no error payload with the parameter names of
`bogus` is produced. -/
theorem InvokeNoSuchMethodFunction_returns_without_hint :
    Classes.sample.LookupDynamicFunction 5 "bogus" = some 3 ∧
    Classes.sample.NumParameters 3 = 4 ∧
    InvokeNoSuchMethodFunction Resolver.named CoreLibrary.sample DartEntry.sample Symbols.sample
        ⟨⟨5, false⟩, .null⟩ ⟨"bogus", 1, []⟩ (.Array [.Smi 1, .Smi 2]) =
      some (.returned (.Smi 0)) := by
  refine ⟨by decide, by decide, ?_⟩
  rfl

/-- C24 (amended) -- `InvokeNoSuchMethodFunction` has the core library
allocate an InvocationMirror from the invoked name and the original arguments
array, invokes the `noSuchMethod` function resolved on the receiver with that
mirror as its only argument, and returns the result of the invocation, or
propagates it when it is an error object.  The entry itself never throws a
NoSuchMethodError: it builds no error arguments and looks up no method of the
invoked name. -/
theorem InvokeNoSuchMethodFunction_invokes (resolver : Resolver) (core_lib : CoreLibrary)
    (dart : DartEntry) (symbols : Symbols) (receiver : Instance) (ic_data : ICData)
    (orig_arguments : Object) (invocation_mirror_class : Nat)
    (allocation_function function : Function)
    (hclass : core_lib.LookupClassAllowPrivate symbols.InvocationMirror =
      some invocation_mirror_class)
    (halloc : core_lib.ResolveStaticByName invocation_mirror_class
      symbols.AllocateInvocationMirror = some allocation_function)
    (hfun : resolver.ResolveDynamic receiver symbols.NoSuchMethod 2 0 = some function) :
    ((dart.InvokeDynamic receiver function
        [dart.InvokeStatic allocation_function [.String ic_data.target_name, orig_arguments]
          .null] .null).IsError = false →
      InvokeNoSuchMethodFunction resolver core_lib dart symbols receiver ic_data
          orig_arguments =
        some (.returned (dart.InvokeDynamic receiver function
          [dart.InvokeStatic allocation_function [.String ic_data.target_name, orig_arguments]
            .null] .null))) ∧
    ((dart.InvokeDynamic receiver function
        [dart.InvokeStatic allocation_function [.String ic_data.target_name, orig_arguments]
          .null] .null).IsError = true →
      InvokeNoSuchMethodFunction resolver core_lib dart symbols receiver ic_data
          orig_arguments =
        some (.PropagateError (dart.InvokeDynamic receiver function
          [dart.InvokeStatic allocation_function [.String ic_data.target_name, orig_arguments]
            .null] .null))) ∧
    (∀ dart_arguments,
      InvokeNoSuchMethodFunction resolver core_lib dart symbols receiver ic_data
          orig_arguments ≠
        some (.ThrowByType_kNoSuchMethod dart_arguments)) := by
  refine ⟨fun hok => ?_, fun herror => ?_, fun dart_arguments h => ?_⟩
  · simp only [InvokeNoSuchMethodFunction, hclass, halloc, hfun, CheckResultError, hok,
      Bool.false_eq_true, ↓reduceIte]
  · simp only [InvokeNoSuchMethodFunction, hclass, halloc, hfun, CheckResultError, herror,
      ↓reduceIte]
  · simp only [InvokeNoSuchMethodFunction, hclass, halloc, hfun, CheckResultError,
      Option.some.injEq] at h
    split at h <;> cases h

theorem InvokeNoSuchMethodFunction_invokes_witness :
    InvokeNoSuchMethodFunction Resolver.named CoreLibrary.sample DartEntry.sample Symbols.sample
        ⟨⟨5, false⟩, .null⟩ ⟨"bogus", 1, []⟩ (.Array [.Smi 1, .Smi 2]) =
      some (.returned (DartEntry.sample.InvokeDynamic ⟨⟨5, false⟩, .null⟩
        ⟨22, "noSuchMethod".toList, 0, 0, true, none, 1, false⟩
        [DartEntry.sample.InvokeStatic
          ⟨21, "_allocateInvocationMirror".toList, 0, 0, true, none, 2, false⟩
          [.String "bogus", .Array [.Smi 1, .Smi 2]] .null] .null)) :=
  (InvokeNoSuchMethodFunction_invokes Resolver.named CoreLibrary.sample DartEntry.sample
    Symbols.sample ⟨⟨5, false⟩, .null⟩ ⟨"bogus", 1, []⟩ (.Array [.Smi 1, .Smi 2]) 20
    ⟨21, "_allocateInvocationMirror".toList, 0, 0, true, none, 2, false⟩
    ⟨22, "noSuchMethod".toList, 0, 0, true, none, 1, false⟩ rfl rfl rfl).1 rfl

end dart
